import Mathlib

/-!
# 7Semi SCD4x driver: command / CRC codec

A shallow embedding of `src/7Semi_SCD4x.cpp` and `src/7Semi_SCD4x.h`.

Conventions of the embedding:

* `uint8_t`, `uint16_t`, `uint64_t` values are natural numbers; every narrowing
  conversion of the source (`(uint8_t)x`, `uint8_t(x)`, the implicit truncation
  of an assignment to a `uint8_t`) is an explicit `% 256`, and likewise
  `% 65536` for `uint16_t`.
* `size_t` and `int` values are natural numbers and integers. The product
  `nwords * 3` of `readNData` is the exact product: it could only wrap around
  for a buffer of more than a third of the address space in words, which no
  target of the library can hold.
* A pointer to a buffer is the function from index to cell content; a call
  that writes through the pointer returns the updated function.
* The `TwoWire` bus is the environment of the driver. Its state is an explicit
  value threaded through every operation; what the attached device answers is a
  parameter (`Device`) that may depend on the whole history of the bus. The
  transmit buffer is unbounded, and the device may deliver any number of bytes
  to a request (on the real bus: at most the number asked for).
* A `float` value is the rational number it denotes. Binary32 arithmetic is
  the exact operation followed by `roundF32`, rounding to the nearest binary32
  value, ties to even (no extended precision, no fused operations); overflow
  does not occur at the magnitudes of this driver and is not modelled. The
  operations `readMeasurementF32`, `getTemperatureOffset` and
  `setTemperatureOffset` compute this way, as the compiled code does;
  `readMeasurement` is the same function with the two conversions carried out
  in exact rational arithmetic, the reading in which its conversion formulas
  are stated.
-/

namespace SCD4x_7Semi

/-! ## CRC-8 (`crc8`, lines 344-351) -/

/-- One iteration of the loop body of `crc8`:
`crc = (crc & 0x80) ? (uint8_t)((crc << 1) ^ 0x31) : (uint8_t)(crc << 1)`. -/
def crc8Step (crc : Nat) : Nat :=
  if crc &&& 0x80 ≠ 0 then ((crc <<< 1) ^^^ 0x31) % 256 else (crc <<< 1) % 256

/-- The function `SCD4x_7Semi::crc8(uint8_t b0, uint8_t b1)`. -/
def crc8 (b0 b1 : Nat) : Nat :=
  let crc := 0xFF
  let crc := (crc ^^^ b0) % 256
  let crc := crc8Step^[8] crc
  let crc := (crc ^^^ b1) % 256
  let crc := crc8Step^[8] crc
  crc

/-! ## Binary32 arithmetic

The result of a `float` operation is the exact result rounded to the nearest
binary32 value: a multiple of the unit in the last place of its binade, 24
significant bits, ties to the even multiple. -/

/-- Round a rational to the nearest integer, ties to the even one. -/
def roundHalfEven (y : ℚ) : ℤ :=
  if y - ⌊y⌋ < 1 / 2 then ⌊y⌋
  else if 1 / 2 < y - ⌊y⌋ then ⌊y⌋ + 1
  else if ⌊y⌋ % 2 = 0 then ⌊y⌋ else ⌊y⌋ + 1

/-- The exponent of the unit in the last place of binary32 at `x`: 23 below
the binade of `x`, and `-149` in the subnormal range. -/
def ulpExp (x : ℚ) : ℤ := max (Int.log 2 |x| - 23) (-149)

/-- Rounding to binary32, round-to-nearest-even. -/
def roundF32 (x : ℚ) : ℚ :=
  if x = 0 then 0 else (roundHalfEven (x / (2 : ℚ) ^ ulpExp x) : ℚ) * (2 : ℚ) ^ ulpExp x

/-- The temperature conversion of `readMeasurement` as the code computes it:
`-45.0f + 175.0f * (float)t_raw / 65535.0f`, a product, a quotient and a sum
in binary32 (the conversion of a `uint16_t` to `float` is exact). -/
def tempF32 (t_raw : Nat) : ℚ :=
  roundF32 (-45 + roundF32 (roundF32 (175 * (t_raw : ℚ)) / 65535))

/-- The humidity conversion of `readMeasurement` as the code computes it:
`100.0f * (float)rh_raw / 65535.0f`, a product and a quotient in binary32. -/
def rhF32 (rh_raw : Nat) : ℚ :=
  roundF32 (roundF32 (100 * (rh_raw : ℚ)) / 65535)

/-! ## Command identifiers (`7Semi_SCD4x.h`, lines 23-52) -/

def START_PERIODIC_MEASUREMENT_CMD_ID : Nat := 0x21B1
def READ_MEASUREMENT_RAW_CMD_ID : Nat := 0xEC05
def STOP_PERIODIC_MEASUREMENT_CMD_ID : Nat := 0x3F86
def SET_TEMPERATURE_OFFSET_RAW_CMD_ID : Nat := 0x241D
def GET_TEMPERATURE_OFFSET_RAW_CMD_ID : Nat := 0x2318
def SET_SENSOR_ALTITUDE_CMD_ID : Nat := 0x2427
def GET_SENSOR_ALTITUDE_CMD_ID : Nat := 0x2322
def SET_AMBIENT_PRESSURE_RAW_CMD_ID : Nat := 0xE000
def GET_AMBIENT_PRESSURE_RAW_CMD_ID : Nat := 0xE000
def PERFORM_FORCED_RECALIBRATION_CMD_ID : Nat := 0x362F
def SET_AUTOMATIC_SELF_CALIBRATION_ENABLED_CMD_ID : Nat := 0x2416
def GET_AUTOMATIC_SELF_CALIBRATION_ENABLED_CMD_ID : Nat := 0x2313
def SET_AUTOMATIC_SELF_CALIBRATION_TARGET_CMD_ID : Nat := 0x243A
def GET_AUTOMATIC_SELF_CALIBRATION_TARGET_CMD_ID : Nat := 0x233F
def START_LOW_POWER_PERIODIC_MEASUREMENT_CMD_ID : Nat := 0x21AC
def GET_DATA_READY_STATUS_RAW_CMD_ID : Nat := 0xE4B8
def PERSIST_SETTINGS_CMD_ID : Nat := 0x3615
def GET_SERIAL_NUMBER_CMD_ID : Nat := 0x3682
def PERFORM_SELF_TEST_CMD_ID : Nat := 0x3639
def PERFORM_FACTORY_RESET_CMD_ID : Nat := 0x3632
def REINIT_CMD_ID : Nat := 0x3646
def GET_SENSOR_VARIANT_RAW_CMD_ID : Nat := 0x202F
def MEASURE_SINGLE_SHOT_CMD_ID : Nat := 0x219D
def MEASURE_SINGLE_SHOT_RHT_ONLY_CMD_ID : Nat := 0x2196
def POWER_DOWN_CMD_ID : Nat := 0x36E0
def WAKE_UP_CMD_ID : Nat := 0x36F6
def SET_AUTOMATIC_SELF_CALIBRATION_INITIAL_PERIOD_CMD_ID : Nat := 0x2445
def GET_AUTOMATIC_SELF_CALIBRATION_INITIAL_PERIOD_CMD_ID : Nat := 0x2340
def SET_AUTOMATIC_SELF_CALIBRATION_STANDARD_PERIOD_CMD_ID : Nat := 0x244E
def GET_AUTOMATIC_SELF_CALIBRATION_STANDARD_PERIOD_CMD_ID : Nat := 0x234B

/-! ## The bus (`TwoWire`) and the device behind it

`TwoWire` is the Arduino I2C bus object the driver talks to. Only the part the
driver uses is modelled: a write transaction collects bytes between
`beginTransmission` and `endTransmission`; `requestFrom` fills a receive
buffer; `available` is the number of bytes left in it and `read` pops the next
one, returning `-1` when the buffer is empty. -/

/-- An action of the driver as the device sees it. -/
inductive BusEvent where
  | transmission (address : Nat) (bytes : List Nat)
  | requestFrom (address : Nat) (quantity : Nat)
  | delay (ms : Nat)
  deriving DecidableEq

/-- The behaviour of whatever is attached to the bus: the status that
`endTransmission` reports and the bytes that `requestFrom` puts into the
receive buffer, both as functions of everything that happened on the bus so
far (the event being answered is the last one of the history). -/
structure Device where
  status : List BusEvent → Nat
  reply : List BusEvent → List Nat

/-- State of the bus object. -/
structure TwoWire where
  device : Device
  history : List BusEvent
  txAddress : Nat
  txBuffer : List Nat
  rxBuffer : List Nat

namespace TwoWire

/-- Start collecting a write transaction to `address`. -/
def beginTransmission (w : TwoWire) (address : Nat) : TwoWire :=
  { w with txAddress := address, txBuffer := [] }

/-- Queue one byte of the current write transaction. -/
def write (w : TwoWire) (b : Nat) : TwoWire :=
  { w with txBuffer := w.txBuffer ++ [b] }

/-- Send the queued bytes as one transaction and return the status the device
reports for it (0 is success). -/
def endTransmission (w : TwoWire) : Nat × TwoWire :=
  let h := w.history ++ [BusEvent.transmission w.txAddress w.txBuffer]
  (w.device.status h, { w with history := h, txBuffer := [] })

/-- Ask the device at `address` for `quantity` bytes; what it delivers becomes
the receive buffer. -/
def requestFrom (w : TwoWire) (address quantity : Nat) : TwoWire :=
  let h := w.history ++ [BusEvent.requestFrom address quantity]
  { w with history := h, rxBuffer := w.device.reply h }

/-- Number of bytes left in the receive buffer, an `int`. -/
def available (w : TwoWire) : Int := (w.rxBuffer.length : Int)

/-- Pop the next byte of the receive buffer; `-1` when it is empty. -/
def read (w : TwoWire) : Int × TwoWire :=
  match w.rxBuffer with
  | [] => (-1, w)
  | b :: rest => ((b : Int), { w with rxBuffer := rest })

/-- The Arduino `delay(ms)`: time passes on the bus. -/
def delay (w : TwoWire) (ms : Nat) : TwoWire :=
  { w with history := w.history ++ [BusEvent.delay ms] }

end TwoWire

/-- Conversion of an `int` to `uint8_t`. -/
def toUInt8 (x : Int) : Nat := (x % 256).toNat

/-! ## The driver object -/

/-- The data members of `class SCD4x_7Semi`: the bus handle and the device
address. -/
structure Driver where
  i2c : TwoWire
  address : Nat

/-- The constructor `SCD4x_7Semi(TwoWire *wire)`: `i2c(wire ? wire : &Wire)`,
with the default member initialiser `address = 0x62`. `defaultWire` is the
global `Wire`. -/
def new (wire : Option TwoWire) (defaultWire : TwoWire) : Driver :=
  { i2c := match wire with
      | some w => w
      | none => defaultWire,
    address := 0x62 }

/-- Result of a member function: the returned `bool`, the driver afterwards,
and the values of the output parameters afterwards. -/
structure Ret (α : Type) where
  ok : Bool
  drv : Driver
  out : α

/-! ## Low-level helpers (lines 336-425) -/

/-- The payload loop of `txCommand` (lines 403-410). -/
def txCommandLoop (i2c : TwoWire) : List Nat → TwoWire
  | [] => i2c
  | w :: words =>
    let b0 := (w >>> 8) % 256
    let b1 := (w &&& 0xFF) % 256
    let c := crc8 b0 b1
    let i2c := i2c.write b0
    let i2c := i2c.write b1
    let i2c := i2c.write c
    txCommandLoop i2c words

/-- The function `txCommand(cmd, words, nwords)`; the pair `words`, `nwords` is
the list of the `nwords` payload words. -/
def txCommand (self : Driver) (cmd : Nat) (words : List Nat) : Ret Unit :=
  let i2c := self.i2c.beginTransmission self.address
  let i2c := i2c.write ((cmd >>> 8) % 256)
  let i2c := i2c.write ((cmd &&& 0xFF) % 256)
  let i2c := txCommandLoop i2c words
  let (st, i2c) := i2c.endTransmission
  { ok := st == 0, drv := { self with i2c := i2c }, out := () }

/-- The function `sendCommand(cmd)`: `txCommand(cmd, nullptr, 0)`. -/
def sendCommand (self : Driver) (cmd : Nat) : Ret Unit :=
  txCommand self cmd []

/-- The function `writeCommand(cmd, words, nwords)`. -/
def writeCommand (self : Driver) (cmd : Nat) (words : List Nat) : Ret Unit :=
  txCommand self cmd words

/-- The function `checkCrc(p, word)`: `p` is the memory from the pointer on,
`word` the value of the output parameter before the call. -/
def checkCrc (p : Nat → Nat) (word : Nat) : Bool × Nat :=
  let b0 := p 0
  let b1 := p 1
  let c := p 2
  if crc8 b0 b1 ≠ c then (false, word)
  else (true, ((b0 <<< 8) ||| b1) % 65536)

/-- The word loop of `readNData` (lines 382-388), from index `i` on with
`k` words left; `out` is the memory from the pointer `out` on. -/
def readNDataLoop : Nat → Nat → TwoWire → (Nat → Nat) → Bool × TwoWire × (Nat → Nat)
  | 0, _, i2c, out => (true, i2c, out)
  | k + 1, i, i2c, out =>
    let (r0, i2c) := i2c.read
    let b0 := toUInt8 r0
    let (r1, i2c) := i2c.read
    let b1 := toUInt8 r1
    let (r2, i2c) := i2c.read
    let crc := toUInt8 r2
    if crc8 b0 b1 ≠ crc then (false, i2c, out)
    else readNDataLoop k (i + 1) i2c (Function.update out i (((b0 <<< 8) ||| b1) % 65536))

/-- The function `readNData(cmd, out, nwords)`. -/
def readNData (self : Driver) (cmd : Nat) (out : Nat → Nat) (nwords : Nat) :
    Ret (Nat → Nat) :=
  let r := sendCommand self cmd
  if !r.ok then { ok := false, drv := r.drv, out := out }
  else
    let self := r.drv
    let i2c := self.i2c.delay 1
    let nbytes := nwords * 3
    let i2c := i2c.requestFrom self.address (nbytes % 256)
    if i2c.available ≠ (nbytes : Int) then
      { ok := false, drv := { self with i2c := i2c }, out := out }
    else
      let (ok, i2c, out) := readNDataLoop nwords 0 i2c out
      { ok := ok, drv := { self with i2c := i2c }, out := out }

/-- The loop `for (i = 0; i < 9; ++i) raw[i] = i2c->read();` of
`readMeasurement` and `readSerialNumber`, from index `i` on with `k` bytes
left. -/
def readRawLoop : Nat → Nat → TwoWire → (Nat → Nat) → TwoWire × (Nat → Nat)
  | 0, _, i2c, raw => (i2c, raw)
  | k + 1, i, i2c, raw =>
    let (r, i2c) := i2c.read
    readRawLoop k (i + 1) i2c (Function.update raw i (toUInt8 r))

/-! ## Public operations -/

/-- Output parameters of `readMeasurement`. -/
structure Measurement where
  co2_ppm : Nat
  temp_c : ℚ
  rh_percent : ℚ

/-- The function `readMeasurement(co2_ppm, temp_c, rh_percent)` with the two
conversions of lines 113-114 in exact rational arithmetic; `m` holds the three
output parameters before the call. Control flow, bus traffic, return value and
`co2_ppm` are those of the code; `readMeasurementF32` below also has the
values of `temp_c` and `rh_percent` the code computes. -/
def readMeasurement (self : Driver) (m : Measurement) : Ret Measurement :=
  let r := sendCommand self READ_MEASUREMENT_RAW_CMD_ID
  if !r.ok then { ok := false, drv := r.drv, out := m }
  else
    let self := r.drv
    let i2c := self.i2c.delay 1
    let i2c := i2c.requestFrom self.address 9
    if i2c.available ≠ 9 then { ok := false, drv := { self with i2c := i2c }, out := m }
    else
      let (i2c, raw) := readRawLoop 9 0 i2c (fun _ => 0)
      let self := { self with i2c := i2c }
      let (ok0, co2_raw) := checkCrc (fun j => raw (0 + j)) 0
      if !ok0 then { ok := false, drv := self, out := m }
      else
        let (ok1, t_raw) := checkCrc (fun j => raw (3 + j)) 0
        if !ok1 then { ok := false, drv := self, out := m }
        else
          let (ok2, rh_raw) := checkCrc (fun j => raw (6 + j)) 0
          if !ok2 then { ok := false, drv := self, out := m }
          else
            { ok := true, drv := self,
              out := { co2_ppm := co2_raw,
                       temp_c := -45 + 175 * (t_raw : ℚ) / 65535,
                       rh_percent := 100 * (rh_raw : ℚ) / 65535 } }

/-- The function `readMeasurement(co2_ppm, temp_c, rh_percent)` as compiled:
`temp_c = -45.0f + 175.0f * (float)t_raw / 65535.0f` and
`rh_percent = 100.0f * (float)rh_raw / 65535.0f` are evaluated in binary32,
every operation rounded; `m` holds the three output parameters before the
call. -/
def readMeasurementF32 (self : Driver) (m : Measurement) : Ret Measurement :=
  let r := sendCommand self READ_MEASUREMENT_RAW_CMD_ID
  if !r.ok then { ok := false, drv := r.drv, out := m }
  else
    let self := r.drv
    let i2c := self.i2c.delay 1
    let i2c := i2c.requestFrom self.address 9
    if i2c.available ≠ 9 then { ok := false, drv := { self with i2c := i2c }, out := m }
    else
      let (i2c, raw) := readRawLoop 9 0 i2c (fun _ => 0)
      let self := { self with i2c := i2c }
      let (ok0, co2_raw) := checkCrc (fun j => raw (0 + j)) 0
      if !ok0 then { ok := false, drv := self, out := m }
      else
        let (ok1, t_raw) := checkCrc (fun j => raw (3 + j)) 0
        if !ok1 then { ok := false, drv := self, out := m }
        else
          let (ok2, rh_raw) := checkCrc (fun j => raw (6 + j)) 0
          if !ok2 then { ok := false, drv := self, out := m }
          else
            { ok := true, drv := self,
              out := { co2_ppm := co2_raw,
                       temp_c := roundF32 (-45 + roundF32 (roundF32 (175 * (t_raw : ℚ)) / 65535)),
                       rh_percent := roundF32 (roundF32 (100 * (rh_raw : ℚ)) / 65535) } }

/-- The function `readSerialNumber(sn)`; `sn` is the output parameter before
the call. -/
def readSerialNumber (self : Driver) (sn : Nat) : Ret Nat :=
  let r := sendCommand self GET_SERIAL_NUMBER_CMD_ID
  if !r.ok then { ok := false, drv := r.drv, out := sn }
  else
    let self := r.drv
    let i2c := self.i2c.delay 1
    let i2c := i2c.requestFrom self.address 9
    if i2c.available ≠ 9 then { ok := false, drv := { self with i2c := i2c }, out := sn }
    else
      let (i2c, raw) := readRawLoop 9 0 i2c (fun _ => 0)
      let self := { self with i2c := i2c }
      let (ok0, w0) := checkCrc (fun j => raw (0 + j)) 0
      if !ok0 then { ok := false, drv := self, out := sn }
      else
        let (ok1, w1) := checkCrc (fun j => raw (3 + j)) 0
        if !ok1 then { ok := false, drv := self, out := sn }
        else
          let (ok2, w2) := checkCrc (fun j => raw (6 + j)) 0
          if !ok2 then { ok := false, drv := self, out := sn }
          else
            { ok := true, drv := self,
              out := ((w0 <<< 32) ||| (w1 <<< 16) ||| w2) % 2 ^ 64 }

/-- A one-word read into a single variable: `readNData(cmd, &v, 1)`. The
memory from `&v` on is the variable itself followed by cells the call never
touches. -/
def readWord (self : Driver) (cmd : Nat) (v : Nat) : Ret Nat :=
  let r := readNData self cmd (fun _ => v) 1
  { ok := r.ok, drv := r.drv, out := r.out 0 }

/-- The function `getDataReadyStatus(status_raw)`. -/
def getDataReadyStatus (self : Driver) (status_raw : Nat) : Ret Nat :=
  readWord self GET_DATA_READY_STATUS_RAW_CMD_ID status_raw

/-- The function `getTemperatureOffset(degC)`; the conversion
`175.0f * (float)raw / 65535.0f` is a product and a quotient in binary32. -/
def getTemperatureOffset (self : Driver) (degC : ℚ) : Ret ℚ :=
  let r := readWord self GET_TEMPERATURE_OFFSET_RAW_CMD_ID 0
  if !r.ok then { ok := false, drv := r.drv, out := degC }
  else { ok := true, drv := r.drv, out := roundF32 (roundF32 (175 * (r.out : ℚ)) / 65535) }

/-- The function `getSensorAltitude(meters)`. -/
def getSensorAltitude (self : Driver) (meters : Nat) : Ret Nat :=
  readWord self GET_SENSOR_ALTITUDE_CMD_ID meters

/-- The function `getAmbientPressureRaw(mbar_raw)`. -/
def getAmbientPressureRaw (self : Driver) (mbar_raw : Nat) : Ret Nat :=
  readWord self GET_AMBIENT_PRESSURE_RAW_CMD_ID mbar_raw

/-- The function `getAutomaticSelfCalibrationEnabled(enabled)`. -/
def getAutomaticSelfCalibrationEnabled (self : Driver) (enabled : Bool) : Ret Bool :=
  let r := readWord self GET_AUTOMATIC_SELF_CALIBRATION_ENABLED_CMD_ID 0
  if !r.ok then { ok := false, drv := r.drv, out := enabled }
  else { ok := true, drv := r.drv, out := r.out != 0 }

/-- The function `getAutomaticSelfCalibrationTarget(ppm)`. -/
def getAutomaticSelfCalibrationTarget (self : Driver) (ppm : Nat) : Ret Nat :=
  readWord self GET_AUTOMATIC_SELF_CALIBRATION_TARGET_CMD_ID ppm

/-- The function `getAutomaticSelfCalibrationInitialPeriod(hours)`. -/
def getAutomaticSelfCalibrationInitialPeriod (self : Driver) (hours : Nat) : Ret Nat :=
  readWord self GET_AUTOMATIC_SELF_CALIBRATION_INITIAL_PERIOD_CMD_ID hours

/-- The function `getAutomaticSelfCalibrationStandardPeriod(hours)`. -/
def getAutomaticSelfCalibrationStandardPeriod (self : Driver) (hours : Nat) : Ret Nat :=
  readWord self GET_AUTOMATIC_SELF_CALIBRATION_STANDARD_PERIOD_CMD_ID hours

/-- The function `getSensorVariantRaw(variant)`. -/
def getSensorVariantRaw (self : Driver) (variant : Nat) : Ret Nat :=
  readWord self GET_SENSOR_VARIANT_RAW_CMD_ID variant

/-- The function `performSelfTest(status_word)`. -/
def performSelfTest (self : Driver) (status_word : Nat) : Ret Nat :=
  readWord self PERFORM_SELF_TEST_CMD_ID status_word

/-- The function `performForcedRecalibration(reference_ppm, frc_result)`:
`frc_result` is `none` for a null pointer and `some v` for a pointer to a
variable holding `v` before the call. -/
def performForcedRecalibration (self : Driver) (reference_ppm : Nat)
    (frc_result : Option Nat) : Ret (Option Nat) :=
  let r := writeCommand self PERFORM_FORCED_RECALIBRATION_CMD_ID [reference_ppm]
  if !r.ok then { ok := false, drv := r.drv, out := frc_result }
  else
    match frc_result with
    | none => { ok := true, drv := r.drv, out := none }
    | some v =>
      let self := r.drv
      let self := { self with i2c := self.i2c.delay 1 }
      let r := readWord self PERFORM_FORCED_RECALIBRATION_CMD_ID v
      if !r.ok then { ok := false, drv := r.drv, out := some r.out }
      else { ok := true, drv := r.drv, out := some r.out }

/-- The function `startPeriodicMeasurement()`. -/
def startPeriodicMeasurement (self : Driver) : Ret Unit :=
  sendCommand self START_PERIODIC_MEASUREMENT_CMD_ID

/-- The function `startLowPowerPeriodicMeasurement()`. -/
def startLowPowerPeriodicMeasurement (self : Driver) : Ret Unit :=
  sendCommand self START_LOW_POWER_PERIODIC_MEASUREMENT_CMD_ID

/-- The function `stopPeriodicMeasurement()`. -/
def stopPeriodicMeasurement (self : Driver) : Ret Unit :=
  sendCommand self STOP_PERIODIC_MEASUREMENT_CMD_ID

/-- The function `measureSingleShot()`. -/
def measureSingleShot (self : Driver) : Ret Unit :=
  sendCommand self MEASURE_SINGLE_SHOT_CMD_ID

/-- The function `measureSingleShotRhtOnly()`. -/
def measureSingleShotRhtOnly (self : Driver) : Ret Unit :=
  sendCommand self MEASURE_SINGLE_SHOT_RHT_ONLY_CMD_ID

/-- The function `persistSettings()`. -/
def persistSettings (self : Driver) : Ret Unit :=
  sendCommand self PERSIST_SETTINGS_CMD_ID

/-- The function `factoryReset()`. -/
def factoryReset (self : Driver) : Ret Unit :=
  sendCommand self PERFORM_FACTORY_RESET_CMD_ID

/-- The function `reInit()`. -/
def reInit (self : Driver) : Ret Unit :=
  sendCommand self REINIT_CMD_ID

/-- The function `powerDown()`. -/
def powerDown (self : Driver) : Ret Unit :=
  sendCommand self POWER_DOWN_CMD_ID

/-- The function `wakeUp()`. -/
def wakeUp (self : Driver) : Ret Unit :=
  sendCommand self WAKE_UP_CMD_ID

/-- The function `setSensorAltitude(meters)`. -/
def setSensorAltitude (self : Driver) (meters : Nat) : Ret Unit :=
  writeCommand self SET_SENSOR_ALTITUDE_CMD_ID [meters]

/-- The function `setAmbientPressureRaw(mbar_raw)`. -/
def setAmbientPressureRaw (self : Driver) (mbar_raw : Nat) : Ret Unit :=
  writeCommand self SET_AMBIENT_PRESSURE_RAW_CMD_ID [mbar_raw]

/-- The function `setAutomaticSelfCalibrationEnabled(enable)`; `on_` is the
local `on` of the source. -/
def setAutomaticSelfCalibrationEnabled (self : Driver) (enable : Bool) : Ret Unit :=
  let on_ := if enable then 1 else 0
  writeCommand self SET_AUTOMATIC_SELF_CALIBRATION_ENABLED_CMD_ID [on_]

/-- The function `setAutomaticSelfCalibrationTarget(ppm)`. -/
def setAutomaticSelfCalibrationTarget (self : Driver) (ppm : Nat) : Ret Unit :=
  writeCommand self SET_AUTOMATIC_SELF_CALIBRATION_TARGET_CMD_ID [ppm]

/-- The function `setAutomaticSelfCalibrationInitialPeriod(hours)`. -/
def setAutomaticSelfCalibrationInitialPeriod (self : Driver) (hours : Nat) : Ret Unit :=
  writeCommand self SET_AUTOMATIC_SELF_CALIBRATION_INITIAL_PERIOD_CMD_ID [hours]

/-- The function `setAutomaticSelfCalibrationStandardPeriod(hours)`. -/
def setAutomaticSelfCalibrationStandardPeriod (self : Driver) (hours : Nat) : Ret Unit :=
  writeCommand self SET_AUTOMATIC_SELF_CALIBRATION_STANDARD_PERIOD_CMD_ID [hours]

/-- The function `begin(sda, scl, i2cFreq)`. The calls `i2c->begin(...)` and
`i2c->setClock(...)` set up pins and clock and cause no traffic; the results
of `wakeUp()` and `reInit()` are discarded (`(void)`). -/
def begin (self : Driver) : Ret Unit :=
  let self := (wakeUp self).drv
  let self := { self with i2c := self.i2c.delay 2 }
  let self := (reInit self).drv
  let self := { self with i2c := self.i2c.delay 20 }
  let r := readSerialNumber self 0
  if r.ok then { ok := true, drv := r.drv, out := () }
  else { ok := false, drv := r.drv, out := () }

/-! ## What the device sees and answers

The histories at which the driver consults the device during a read
operation, spelled out so that statements can name "the status of the command
transmission" and "the bytes the bus holds after the request". -/

/-- The two bytes of a command on the wire, as `txCommand` writes them. -/
def cmdBytes (cmd : Nat) : List Nat := [(cmd >>> 8) % 256, (cmd &&& 0xFF) % 256]

/-- The bus history once the bare command `cmd` has been transmitted. -/
def historyAfterCommand (self : Driver) (cmd : Nat) : List BusEvent :=
  self.i2c.history ++ [BusEvent.transmission self.address (cmdBytes cmd)]

/-- The status `endTransmission` reports for the bare command `cmd`. -/
def commandStatus (self : Driver) (cmd : Nat) : Nat :=
  self.i2c.device.status (historyAfterCommand self cmd)

/-- The bus history once `quantity` bytes have been requested after `cmd`. -/
def historyAfterRequest (self : Driver) (cmd quantity : Nat) : List BusEvent :=
  historyAfterCommand self cmd
    ++ [BusEvent.delay 1, BusEvent.requestFrom self.address quantity]

/-- The receive buffer after `quantity` bytes have been requested following
`cmd`: its length is what `available()` reports. -/
def response (self : Driver) (cmd quantity : Nat) : List Nat :=
  self.i2c.device.reply (historyAfterRequest self cmd quantity)

/-- The `k`-th byte of a receive buffer as the driver stores it in a
`uint8_t`. -/
def byteAt (rx : List Nat) (k : Nat) : Nat := (rx.getD k 0) % 256

/-- The three-byte wire form of a data word: the bytes the payload loop of
`txCommand` writes for the single word `w`. -/
def wireForm (i2c : TwoWire) (w : Nat) : List Nat :=
  (txCommandLoop { i2c with txBuffer := [] } [w]).txBuffer

/-- A list of bytes seen as memory from a pointer on. -/
def memOf (l : List Nat) : Nat → Nat := fun i => l.getD i 0

/-- The `j`-th three-byte group of a receive buffer has a CRC byte that matches
`crc8` of its two data bytes. -/
def groupOk (rx : List Nat) (j : Nat) : Prop :=
  crc8 (byteAt rx (3 * j)) (byteAt rx (3 * j + 1)) = byteAt rx (3 * j + 2)

instance (rx : List Nat) (j : Nat) : Decidable (groupOk rx j) := by
  unfold groupOk
  infer_instance

/-- The big-endian word `(b0 << 8) | b1` of the `j`-th three-byte group of a
receive buffer. -/
def groupWord (rx : List Nat) (j : Nat) : Nat :=
  (byteAt rx (3 * j) <<< 8) ||| byteAt rx (3 * j + 1)

/-- The bus at the moment the driver calls `available()` in a read operation:
the bare command `cmd` has been sent, 1 ms has passed and `quantity` bytes
have been requested. -/
def busAfterRequest (self : Driver) (cmd quantity : Nat) : TwoWire :=
  ((sendCommand self cmd).drv.i2c.delay 1).requestFrom self.address quantity

/-! ## Concrete devices

Small devices on which the operations can be evaluated. -/

/-- A device that reports `status` for every transmission and fills the
receive buffer with `bytes` on every request. -/
def fixedDevice (status : Nat) (bytes : List Nat) : Device :=
  { status := fun _ => status, reply := fun _ => bytes }

/-- An idle bus attached to device `d`. -/
def busOf (d : Device) : TwoWire :=
  { device := d, history := [], txAddress := 0, txBuffer := [], rxBuffer := [] }

/-- A freshly constructed driver on a bus attached to `fixedDevice`. -/
def driverOn (status : Nat) (bytes : List Nat) : Driver :=
  new (some (busOf (fixedDevice status bytes))) (busOf (fixedDevice status bytes))

/-! ## Expressions of the source, named

The conversions of `readMeasurement` (lines 113-114), the assembly of the
serial number in `readSerialNumber` (line 288) and the table of command
identifiers of the header, in the order of the header. -/

/-- The serial number of `readSerialNumber`:
`((uint64_t)w0 << 32) | ((uint64_t)w1 << 16) | (uint64_t)w2`. -/
def serialFromWords (w0 w1 w2 : Nat) : Nat :=
  ((w0 <<< 32) ||| (w1 <<< 16) ||| w2) % 2 ^ 64

/-- The `*_CMD_ID` constants of `7Semi_SCD4x.h`, lines 23-52, in order. -/
def commandTable : List Nat :=
  [START_PERIODIC_MEASUREMENT_CMD_ID,
   READ_MEASUREMENT_RAW_CMD_ID,
   STOP_PERIODIC_MEASUREMENT_CMD_ID,
   SET_TEMPERATURE_OFFSET_RAW_CMD_ID,
   GET_TEMPERATURE_OFFSET_RAW_CMD_ID,
   SET_SENSOR_ALTITUDE_CMD_ID,
   GET_SENSOR_ALTITUDE_CMD_ID,
   SET_AMBIENT_PRESSURE_RAW_CMD_ID,
   GET_AMBIENT_PRESSURE_RAW_CMD_ID,
   PERFORM_FORCED_RECALIBRATION_CMD_ID,
   SET_AUTOMATIC_SELF_CALIBRATION_ENABLED_CMD_ID,
   GET_AUTOMATIC_SELF_CALIBRATION_ENABLED_CMD_ID,
   SET_AUTOMATIC_SELF_CALIBRATION_TARGET_CMD_ID,
   GET_AUTOMATIC_SELF_CALIBRATION_TARGET_CMD_ID,
   START_LOW_POWER_PERIODIC_MEASUREMENT_CMD_ID,
   GET_DATA_READY_STATUS_RAW_CMD_ID,
   PERSIST_SETTINGS_CMD_ID,
   GET_SERIAL_NUMBER_CMD_ID,
   PERFORM_SELF_TEST_CMD_ID,
   PERFORM_FACTORY_RESET_CMD_ID,
   REINIT_CMD_ID,
   GET_SENSOR_VARIANT_RAW_CMD_ID,
   MEASURE_SINGLE_SHOT_CMD_ID,
   MEASURE_SINGLE_SHOT_RHT_ONLY_CMD_ID,
   POWER_DOWN_CMD_ID,
   WAKE_UP_CMD_ID,
   SET_AUTOMATIC_SELF_CALIBRATION_INITIAL_PERIOD_CMD_ID,
   GET_AUTOMATIC_SELF_CALIBRATION_INITIAL_PERIOD_CMD_ID,
   SET_AUTOMATIC_SELF_CALIBRATION_STANDARD_PERIOD_CMD_ID,
   GET_AUTOMATIC_SELF_CALIBRATION_STANDARD_PERIOD_CMD_ID]

/-- The function `setTemperatureOffset(degC)`. The argument is a `float`; the
raw word is `(uint16_t)((degC / 175.0f) * 65535.0f)`: a quotient and a product
in binary32, then truncation. The conversion to `uint16_t` is undefined in C
for a value of `-1` or below or of `65536` or above, taken here as 0 and
modulo `2^16`. -/
def setTemperatureOffset (self : Driver) (degC : ℚ) : Ret Unit :=
  let raw := (Int.toNat ⌊roundF32 (roundF32 (roundF32 degC / 175) * 65535)⌋) % 65536
  writeCommand self SET_TEMPERATURE_OFFSET_RAW_CMD_ID [raw]

/-! ## The two phases of forced recalibration and the steps of `begin` -/

/-- The write transaction of `performForcedRecalibration`: command `0x362F`
followed by the reference word and its CRC. -/
def frcWriteEvent (self : Driver) (reference_ppm : Nat) : BusEvent :=
  BusEvent.transmission self.address
    [0x36, 0x2F, reference_ppm >>> 8, reference_ppm &&& 0xFF,
      crc8 (reference_ppm >>> 8) (reference_ppm &&& 0xFF)]

/-- The driver at the start of the read phase of `performForcedRecalibration`:
the write transaction is in the history, followed by the delay of 1 ms. -/
def frcReadStart (self : Driver) (reference_ppm : Nat) : Driver :=
  { i2c := { self.i2c with
               history := self.i2c.history
                 ++ [frcWriteEvent self reference_ppm, BusEvent.delay 1],
               txAddress := self.address,
               txBuffer := [] },
    address := self.address }

/-- The driver at the point where `begin` calls `readSerialNumber`: the wake-up
command `0x36F6`, 2 ms, the re-initialisation command `0x3646` and 20 ms are in
the history. -/
def beginReadStart (self : Driver) : Driver :=
  { i2c := { self.i2c with
               history := self.i2c.history
                 ++ [BusEvent.transmission self.address [0x36, 0xF6], BusEvent.delay 2,
                     BusEvent.transmission self.address [0x36, 0x46], BusEvent.delay 20],
               txAddress := self.address,
               txBuffer := [] },
    address := self.address }

/-- The same driver on a bus whose device reports statuses by `status`
instead, all else equal. -/
def withStatus (self : Driver) (status : List BusEvent → Nat) : Driver :=
  { self with i2c := { self.i2c with device := { self.i2c.device with status := status } } }

/-- A device that acknowledges only the transmission that is the `n`-th event
on the bus and answers every request with `bytes`. -/
def ackOnlyAt (n : Nat) (bytes : List Nat) : Device :=
  { status := fun h => if h.length = n then 0 else 2, reply := fun _ => bytes }

/-! ## The public interface as a whole

The calls a client can make on a driver object (the public member functions
of the header, lines 56-145), and the driver after a sequence of calls. -/

/-- Whether a bus event is addressed to `a`; a delay involves no address. -/
def addressedTo (a : Nat) : BusEvent → Prop
  | BusEvent.transmission address _ => address = a
  | BusEvent.requestFrom address _ => address = a
  | BusEvent.delay _ => True

instance (a : Nat) (e : BusEvent) : Decidable (addressedTo a e) := by
  cases e <;> unfold addressedTo <;> infer_instance

/-- The driver `d'` is `d` after some bus traffic addressed to the address of
`d`: same address, and a history extended by events addressed to it. -/
def keepsAddress (d d' : Driver) : Prop :=
  d'.address = d.address
    ∧ ∃ es : List BusEvent, d'.i2c.history = d.i2c.history ++ es
        ∧ ∀ e ∈ es, addressedTo d.address e

/-- A call of a public member function, with the values of its parameters
(for an output parameter: the value the variable holds before the call). -/
inductive Call where
  | begin
  | startPeriodicMeasurement
  | startLowPowerPeriodicMeasurement
  | stopPeriodicMeasurement
  | getDataReadyStatus (status_raw : Nat)
  | readMeasurement (m : Measurement)
  | measureSingleShot
  | measureSingleShotRhtOnly
  | setTemperatureOffset (degC : ℚ)
  | getTemperatureOffset (degC : ℚ)
  | setSensorAltitude (meters : Nat)
  | getSensorAltitude (meters : Nat)
  | setAmbientPressureRaw (mbar_raw : Nat)
  | getAmbientPressureRaw (mbar_raw : Nat)
  | setAutomaticSelfCalibrationEnabled (enable : Bool)
  | getAutomaticSelfCalibrationEnabled (enabled : Bool)
  | setAutomaticSelfCalibrationTarget (ppm : Nat)
  | getAutomaticSelfCalibrationTarget (ppm : Nat)
  | setAutomaticSelfCalibrationInitialPeriod (hours : Nat)
  | getAutomaticSelfCalibrationInitialPeriod (hours : Nat)
  | setAutomaticSelfCalibrationStandardPeriod (hours : Nat)
  | getAutomaticSelfCalibrationStandardPeriod (hours : Nat)
  | performForcedRecalibration (reference_ppm : Nat) (frc_result : Option Nat)
  | persistSettings
  | readSerialNumber (sn : Nat)
  | getSensorVariantRaw (variant : Nat)
  | performSelfTest (status_word : Nat)
  | factoryReset
  | reInit
  | powerDown
  | wakeUp

/-- The driver after a call. -/
def Call.run : Call → Driver → Driver
  | Call.begin, self => (SCD4x_7Semi.begin self).drv
  | Call.startPeriodicMeasurement, self => (SCD4x_7Semi.startPeriodicMeasurement self).drv
  | Call.startLowPowerPeriodicMeasurement, self =>
    (SCD4x_7Semi.startLowPowerPeriodicMeasurement self).drv
  | Call.stopPeriodicMeasurement, self => (SCD4x_7Semi.stopPeriodicMeasurement self).drv
  | Call.getDataReadyStatus v, self => (SCD4x_7Semi.getDataReadyStatus self v).drv
  | Call.readMeasurement m, self => (SCD4x_7Semi.readMeasurement self m).drv
  | Call.measureSingleShot, self => (SCD4x_7Semi.measureSingleShot self).drv
  | Call.measureSingleShotRhtOnly, self => (SCD4x_7Semi.measureSingleShotRhtOnly self).drv
  | Call.setTemperatureOffset degC, self => (SCD4x_7Semi.setTemperatureOffset self degC).drv
  | Call.getTemperatureOffset degC, self => (SCD4x_7Semi.getTemperatureOffset self degC).drv
  | Call.setSensorAltitude v, self => (SCD4x_7Semi.setSensorAltitude self v).drv
  | Call.getSensorAltitude v, self => (SCD4x_7Semi.getSensorAltitude self v).drv
  | Call.setAmbientPressureRaw v, self => (SCD4x_7Semi.setAmbientPressureRaw self v).drv
  | Call.getAmbientPressureRaw v, self => (SCD4x_7Semi.getAmbientPressureRaw self v).drv
  | Call.setAutomaticSelfCalibrationEnabled b, self =>
    (SCD4x_7Semi.setAutomaticSelfCalibrationEnabled self b).drv
  | Call.getAutomaticSelfCalibrationEnabled b, self =>
    (SCD4x_7Semi.getAutomaticSelfCalibrationEnabled self b).drv
  | Call.setAutomaticSelfCalibrationTarget v, self =>
    (SCD4x_7Semi.setAutomaticSelfCalibrationTarget self v).drv
  | Call.getAutomaticSelfCalibrationTarget v, self =>
    (SCD4x_7Semi.getAutomaticSelfCalibrationTarget self v).drv
  | Call.setAutomaticSelfCalibrationInitialPeriod v, self =>
    (SCD4x_7Semi.setAutomaticSelfCalibrationInitialPeriod self v).drv
  | Call.getAutomaticSelfCalibrationInitialPeriod v, self =>
    (SCD4x_7Semi.getAutomaticSelfCalibrationInitialPeriod self v).drv
  | Call.setAutomaticSelfCalibrationStandardPeriod v, self =>
    (SCD4x_7Semi.setAutomaticSelfCalibrationStandardPeriod self v).drv
  | Call.getAutomaticSelfCalibrationStandardPeriod v, self =>
    (SCD4x_7Semi.getAutomaticSelfCalibrationStandardPeriod self v).drv
  | Call.performForcedRecalibration r f, self =>
    (SCD4x_7Semi.performForcedRecalibration self r f).drv
  | Call.persistSettings, self => (SCD4x_7Semi.persistSettings self).drv
  | Call.readSerialNumber sn, self => (SCD4x_7Semi.readSerialNumber self sn).drv
  | Call.getSensorVariantRaw v, self => (SCD4x_7Semi.getSensorVariantRaw self v).drv
  | Call.performSelfTest v, self => (SCD4x_7Semi.performSelfTest self v).drv
  | Call.factoryReset, self => (SCD4x_7Semi.factoryReset self).drv
  | Call.reInit, self => (SCD4x_7Semi.reInit self).drv
  | Call.powerDown, self => (SCD4x_7Semi.powerDown self).drv
  | Call.wakeUp, self => (SCD4x_7Semi.wakeUp self).drv

/-- The driver after a sequence of calls, first call first. -/
def runCalls (self : Driver) (calls : List Call) : Driver :=
  calls.foldl (fun d c => c.run d) self

/-! ## Solving the CRC for the low byte -/

/-- The byte whose CRC step is `y`: the step undone. -/
def crc8Unstep (y : Nat) : Nat :=
  if y % 2 = 1 then (y ^^^ 0x31) / 2 + 128 else y / 2

/-- The low byte that gives the high byte `b0` the checksum `c`. -/
def lsbWithCrc (b0 c : Nat) : Nat :=
  crc8Unstep^[8] c ^^^ crc8Step^[8] (0xFF ^^^ b0)

/-! ## Operations and their command identifiers -/

/-- The public member functions of the class, by name. -/
inductive Operation where
  | begin
  | startPeriodicMeasurement
  | startLowPowerPeriodicMeasurement
  | stopPeriodicMeasurement
  | getDataReadyStatus
  | readMeasurement
  | measureSingleShot
  | measureSingleShotRhtOnly
  | setTemperatureOffset
  | getTemperatureOffset
  | setSensorAltitude
  | getSensorAltitude
  | setAmbientPressureRaw
  | getAmbientPressureRaw
  | setAutomaticSelfCalibrationEnabled
  | getAutomaticSelfCalibrationEnabled
  | setAutomaticSelfCalibrationTarget
  | getAutomaticSelfCalibrationTarget
  | setAutomaticSelfCalibrationInitialPeriod
  | getAutomaticSelfCalibrationInitialPeriod
  | setAutomaticSelfCalibrationStandardPeriod
  | getAutomaticSelfCalibrationStandardPeriod
  | performForcedRecalibration
  | persistSettings
  | readSerialNumber
  | getSensorVariantRaw
  | performSelfTest
  | factoryReset
  | reInit
  | powerDown
  | wakeUp
  deriving DecidableEq

/-- The member function a call is a call of. -/
def Call.operation : Call → Operation
  | Call.begin => Operation.begin
  | Call.startPeriodicMeasurement => Operation.startPeriodicMeasurement
  | Call.startLowPowerPeriodicMeasurement => Operation.startLowPowerPeriodicMeasurement
  | Call.stopPeriodicMeasurement => Operation.stopPeriodicMeasurement
  | Call.getDataReadyStatus _ => Operation.getDataReadyStatus
  | Call.readMeasurement _ => Operation.readMeasurement
  | Call.measureSingleShot => Operation.measureSingleShot
  | Call.measureSingleShotRhtOnly => Operation.measureSingleShotRhtOnly
  | Call.setTemperatureOffset _ => Operation.setTemperatureOffset
  | Call.getTemperatureOffset _ => Operation.getTemperatureOffset
  | Call.setSensorAltitude _ => Operation.setSensorAltitude
  | Call.getSensorAltitude _ => Operation.getSensorAltitude
  | Call.setAmbientPressureRaw _ => Operation.setAmbientPressureRaw
  | Call.getAmbientPressureRaw _ => Operation.getAmbientPressureRaw
  | Call.setAutomaticSelfCalibrationEnabled _ => Operation.setAutomaticSelfCalibrationEnabled
  | Call.getAutomaticSelfCalibrationEnabled _ => Operation.getAutomaticSelfCalibrationEnabled
  | Call.setAutomaticSelfCalibrationTarget _ => Operation.setAutomaticSelfCalibrationTarget
  | Call.getAutomaticSelfCalibrationTarget _ => Operation.getAutomaticSelfCalibrationTarget
  | Call.setAutomaticSelfCalibrationInitialPeriod _ =>
    Operation.setAutomaticSelfCalibrationInitialPeriod
  | Call.getAutomaticSelfCalibrationInitialPeriod _ =>
    Operation.getAutomaticSelfCalibrationInitialPeriod
  | Call.setAutomaticSelfCalibrationStandardPeriod _ =>
    Operation.setAutomaticSelfCalibrationStandardPeriod
  | Call.getAutomaticSelfCalibrationStandardPeriod _ =>
    Operation.getAutomaticSelfCalibrationStandardPeriod
  | Call.performForcedRecalibration _ _ => Operation.performForcedRecalibration
  | Call.persistSettings => Operation.persistSettings
  | Call.readSerialNumber _ => Operation.readSerialNumber
  | Call.getSensorVariantRaw _ => Operation.getSensorVariantRaw
  | Call.performSelfTest _ => Operation.performSelfTest
  | Call.factoryReset => Operation.factoryReset
  | Call.reInit => Operation.reInit
  | Call.powerDown => Operation.powerDown
  | Call.wakeUp => Operation.wakeUp

/-- The command identifier the body of a member function names in the source
(`7Semi_SCD4x.cpp`, lines 62-334). `begin` names none: it calls `wakeUp`,
`reInit` and `readSerialNumber`. -/
def Operation.commandId : Operation → Option Nat
  | Operation.begin => none
  | Operation.startPeriodicMeasurement => some START_PERIODIC_MEASUREMENT_CMD_ID
  | Operation.startLowPowerPeriodicMeasurement =>
    some START_LOW_POWER_PERIODIC_MEASUREMENT_CMD_ID
  | Operation.stopPeriodicMeasurement => some STOP_PERIODIC_MEASUREMENT_CMD_ID
  | Operation.getDataReadyStatus => some GET_DATA_READY_STATUS_RAW_CMD_ID
  | Operation.readMeasurement => some READ_MEASUREMENT_RAW_CMD_ID
  | Operation.measureSingleShot => some MEASURE_SINGLE_SHOT_CMD_ID
  | Operation.measureSingleShotRhtOnly => some MEASURE_SINGLE_SHOT_RHT_ONLY_CMD_ID
  | Operation.setTemperatureOffset => some SET_TEMPERATURE_OFFSET_RAW_CMD_ID
  | Operation.getTemperatureOffset => some GET_TEMPERATURE_OFFSET_RAW_CMD_ID
  | Operation.setSensorAltitude => some SET_SENSOR_ALTITUDE_CMD_ID
  | Operation.getSensorAltitude => some GET_SENSOR_ALTITUDE_CMD_ID
  | Operation.setAmbientPressureRaw => some SET_AMBIENT_PRESSURE_RAW_CMD_ID
  | Operation.getAmbientPressureRaw => some GET_AMBIENT_PRESSURE_RAW_CMD_ID
  | Operation.setAutomaticSelfCalibrationEnabled =>
    some SET_AUTOMATIC_SELF_CALIBRATION_ENABLED_CMD_ID
  | Operation.getAutomaticSelfCalibrationEnabled =>
    some GET_AUTOMATIC_SELF_CALIBRATION_ENABLED_CMD_ID
  | Operation.setAutomaticSelfCalibrationTarget =>
    some SET_AUTOMATIC_SELF_CALIBRATION_TARGET_CMD_ID
  | Operation.getAutomaticSelfCalibrationTarget =>
    some GET_AUTOMATIC_SELF_CALIBRATION_TARGET_CMD_ID
  | Operation.setAutomaticSelfCalibrationInitialPeriod =>
    some SET_AUTOMATIC_SELF_CALIBRATION_INITIAL_PERIOD_CMD_ID
  | Operation.getAutomaticSelfCalibrationInitialPeriod =>
    some GET_AUTOMATIC_SELF_CALIBRATION_INITIAL_PERIOD_CMD_ID
  | Operation.setAutomaticSelfCalibrationStandardPeriod =>
    some SET_AUTOMATIC_SELF_CALIBRATION_STANDARD_PERIOD_CMD_ID
  | Operation.getAutomaticSelfCalibrationStandardPeriod =>
    some GET_AUTOMATIC_SELF_CALIBRATION_STANDARD_PERIOD_CMD_ID
  | Operation.performForcedRecalibration => some PERFORM_FORCED_RECALIBRATION_CMD_ID
  | Operation.persistSettings => some PERSIST_SETTINGS_CMD_ID
  | Operation.readSerialNumber => some GET_SERIAL_NUMBER_CMD_ID
  | Operation.getSensorVariantRaw => some GET_SENSOR_VARIANT_RAW_CMD_ID
  | Operation.performSelfTest => some PERFORM_SELF_TEST_CMD_ID
  | Operation.factoryReset => some PERFORM_FACTORY_RESET_CMD_ID
  | Operation.reInit => some REINIT_CMD_ID
  | Operation.powerDown => some POWER_DOWN_CMD_ID
  | Operation.wakeUp => some WAKE_UP_CMD_ID

/-- All member functions, in the order of the header. -/
def allOperations : List Operation :=
  [Operation.begin, Operation.startPeriodicMeasurement,
   Operation.startLowPowerPeriodicMeasurement, Operation.stopPeriodicMeasurement,
   Operation.getDataReadyStatus, Operation.readMeasurement, Operation.measureSingleShot,
   Operation.measureSingleShotRhtOnly, Operation.setTemperatureOffset,
   Operation.getTemperatureOffset, Operation.setSensorAltitude, Operation.getSensorAltitude,
   Operation.setAmbientPressureRaw, Operation.getAmbientPressureRaw,
   Operation.setAutomaticSelfCalibrationEnabled, Operation.getAutomaticSelfCalibrationEnabled,
   Operation.setAutomaticSelfCalibrationTarget, Operation.getAutomaticSelfCalibrationTarget,
   Operation.setAutomaticSelfCalibrationInitialPeriod,
   Operation.getAutomaticSelfCalibrationInitialPeriod,
   Operation.setAutomaticSelfCalibrationStandardPeriod,
   Operation.getAutomaticSelfCalibrationStandardPeriod,
   Operation.performForcedRecalibration, Operation.persistSettings,
   Operation.readSerialNumber, Operation.getSensorVariantRaw, Operation.performSelfTest,
   Operation.factoryReset, Operation.reInit, Operation.powerDown, Operation.wakeUp]

/-- The driver `d'` is `d` after bus traffic that begins with a transmission of
the command `cmd` to the address of `d`, the two command bytes first. -/
def beginsWithCommand (cmd : Nat) (d d' : Driver) : Prop :=
  ∃ payload : List Nat, ∃ rest : List BusEvent,
    d'.i2c.history
      = d.i2c.history ++ BusEvent.transmission d.address (cmdBytes cmd ++ payload) :: rest

/-! ## Reference CRC-8, following the words of the specification

"Sensirion CRC-8, polynomial 0x31, initial value 0xFF, no final XOR, processed
MSB-first one bit at a time over each input byte sequentially". The reference
is the bit-serial shift register: the message is a stream of bits, and each
message bit is fed into the register on its own. -/

/-- The bits of a byte, most significant first. -/
def msbFirstBits (b : Nat) : List Bool :=
  (List.range 8).map fun i => b.testBit (7 - i)

/-- Feed one message bit into an 8-bit CRC register with polynomial `poly`:
the register is shifted left by one and the polynomial is added when the bit
shifted out differs from the message bit. -/
def refCrcBit (poly : Nat) (reg : Nat) (m : Bool) : Nat :=
  let shifted := (2 * reg) % 256
  if (reg.testBit 7 != m) then shifted ^^^ poly else shifted

/-- Reference CRC-8 of a message of bytes: register initialised to `init`,
bytes in order, bits of each byte MSB-first, no final XOR. -/
def refCrc8 (poly init : Nat) (msg : List Nat) : Nat :=
  (msg.flatMap msbFirstBits).foldl (refCrcBit poly) init

/-- The Sensirion CRC-8: polynomial 0x31, initial value 0xFF. -/
def sensirionCrc8 (msg : List Nat) : Nat := refCrc8 0x31 0xFF msg

/-- The `n` leading bits of a byte, read by shifting the byte left. -/
def topBits : Nat → Nat → List Bool
  | 0, _ => []
  | n + 1, b => b.testBit 7 :: topBits n ((2 * b) % 256)

/-! ## Lemmas on the CRC step -/

theorem crc8Step_lt (x : Nat) : crc8Step x < 256 := by
  unfold crc8Step
  split <;> exact Nat.mod_lt _ (by decide)

theorem crc8Step_iterate_lt (n x : Nat) (hx : x < 256) : crc8Step^[n] x < 256 := by
  induction n generalizing x with
  | zero => simpa using hx
  | succ n ih =>
    rw [Function.iterate_succ_apply]
    exact ih _ (crc8Step_lt x)

set_option maxRecDepth 100000 in
/-- The step as a shift followed by a conditional addition of the polynomial. -/
theorem crc8Step_eq : ∀ x < 256,
    crc8Step x = ((2 * x) % 256) ^^^ (if x.testBit 7 then 0x31 else 0) := by
  decide

theorem two_mul_xor_mod (c b : Nat) :
    (2 * (c ^^^ b)) % 256 = ((2 * c) % 256) ^^^ ((2 * b) % 256) := by
  have h : ∀ x : Nat, 2 * x = x <<< 1 := fun x => by
    rw [Nat.shiftLeft_eq]; omega
  rw [h, h, h]
  apply Nat.eq_of_testBit_eq
  intro i
  have e : (256 : Nat) = 2 ^ 8 := by norm_num
  simp only [e, Nat.testBit_mod_two_pow, Nat.testBit_xor, Nat.testBit_shiftLeft]
  cases decide (i < 8) <;> cases decide (1 ≤ i) <;> simp

theorem refCrcBit_lt (reg : Nat) (m : Bool) : refCrcBit 0x31 reg m < 256 := by
  unfold refCrcBit
  have h : (2 * reg) % 256 < 2 ^ 8 := Nat.mod_lt _ (by decide)
  simp only
  split
  · exact Nat.xor_lt_two_pow h (by decide)
  · exact h

/-- Feeding the top bit of `b` into the register and shifting `b` is the code's
step on the XOR of register and byte. -/
theorem refCrcBit_xor (c b : Nat) (hc : c < 256) (hb : b < 256) :
    refCrcBit 0x31 c (b.testBit 7) ^^^ ((2 * b) % 256) = crc8Step (c ^^^ b) := by
  have hcb : c ^^^ b < 256 := Nat.xor_lt_two_pow (n := 8) hc hb
  rw [crc8Step_eq _ hcb, two_mul_xor_mod, Nat.testBit_xor]
  unfold refCrcBit
  cases c.testBit 7 <;> cases b.testBit 7 <;> simp <;> ac_rfl

set_option maxRecDepth 100000 in
theorem msbFirstBits_eq_topBits : ∀ b < 256, msbFirstBits b = topBits 8 b := by
  decide

/-- Feeding `n` leading bits of `b` one at a time agrees with `n` steps of the
code on the XOR of register and byte, up to the part of `b` not yet consumed. -/
theorem foldl_topBits (n : Nat) : ∀ c b : Nat, c < 256 → b < 256 →
    (topBits n b).foldl (refCrcBit 0x31) c ^^^ ((2 ^ n * b) % 256)
      = crc8Step^[n] (c ^^^ b) := by
  induction n with
  | zero =>
    intro c b _ hb
    simp [topBits, Nat.mod_eq_of_lt hb]
  | succ n ih =>
    intro c b hc hb
    have hb2 : (2 * b) % 256 < 256 := Nat.mod_lt _ (by decide)
    have key := ih (refCrcBit 0x31 c (b.testBit 7)) ((2 * b) % 256)
      (refCrcBit_lt c _) hb2
    rw [refCrcBit_xor c b hc hb] at key
    rw [Function.iterate_succ_apply, ← key]
    have e : (2 ^ n * ((2 * b) % 256)) % 256 = (2 ^ (n + 1) * b) % 256 := by
      rw [Nat.mul_mod, Nat.mod_mod, ← Nat.mul_mod, pow_succ, Nat.mul_assoc]
    simp only [topBits, List.foldl_cons, e]

/-- One message byte: the bit-serial register and the code's byte step agree. -/
theorem foldl_msbFirstBits (c b : Nat) (hc : c < 256) (hb : b < 256) :
    (msbFirstBits b).foldl (refCrcBit 0x31) c = crc8Step^[8] (c ^^^ b) := by
  have h := foldl_topBits 8 c b hc hb
  have z : (2 ^ 8 * b) % 256 = 0 := by omega
  rw [z, Nat.xor_zero] at h
  rw [msbFirstBits_eq_topBits b hb, h]

theorem crc8_lt (b0 b1 : Nat) : crc8 b0 b1 < 256 := by
  unfold crc8
  exact crc8Step_iterate_lt 8 _ (Nat.mod_lt _ (by decide))

/-! ## Lemmas on the bus and the transmit path -/

theorem toUInt8_natCast (b : Nat) : toUInt8 (b : Int) = b % 256 := by
  unfold toUInt8
  omega

/-- The three bytes the payload loop writes for one word. -/
theorem txCommandLoop_eq (words : List Nat) : ∀ i2c : TwoWire,
    txCommandLoop i2c words =
      { i2c with txBuffer := i2c.txBuffer ++ words.flatMap fun w =>
          [(w >>> 8) % 256, (w &&& 0xFF) % 256,
            crc8 ((w >>> 8) % 256) ((w &&& 0xFF) % 256)] } := by
  induction words with
  | nil => intro i2c; simp [txCommandLoop]
  | cons w ws ih =>
    intro i2c
    simp [txCommandLoop, ih, TwoWire.write, List.append_assoc]

/-- What `txCommand` does: one transmission event appended to the history, the
status of the device at that history compared with 0. -/
theorem txCommand_eq (self : Driver) (cmd : Nat) (words : List Nat) :
    txCommand self cmd words =
      { ok := self.i2c.device.status
              (self.i2c.history ++ [BusEvent.transmission self.address
                (cmdBytes cmd ++ words.flatMap fun w =>
                  [(w >>> 8) % 256, (w &&& 0xFF) % 256,
                    crc8 ((w >>> 8) % 256) ((w &&& 0xFF) % 256)])]) == 0,
        drv := { i2c := { self.i2c with
                    history := self.i2c.history ++ [BusEvent.transmission self.address
                      (cmdBytes cmd ++ words.flatMap fun w =>
                        [(w >>> 8) % 256, (w &&& 0xFF) % 256,
                          crc8 ((w >>> 8) % 256) ((w &&& 0xFF) % 256)])],
                    txAddress := self.address,
                    txBuffer := [] },
                 address := self.address },
        out := () } := by
  simp [txCommand, txCommandLoop_eq, TwoWire.beginTransmission, TwoWire.write,
    TwoWire.endTransmission, cmdBytes]

theorem sendCommand_eq (self : Driver) (cmd : Nat) :
    sendCommand self cmd =
      { ok := commandStatus self cmd == 0,
        drv := { i2c := { self.i2c with
                    history := historyAfterCommand self cmd,
                    txAddress := self.address,
                    txBuffer := [] },
                 address := self.address },
        out := () } := by
  simp [sendCommand, txCommand_eq, commandStatus, historyAfterCommand]

theorem byte_mod_shift (w : Nat) (hw : w < 65536) : (w >>> 8) % 256 = w >>> 8 := by
  apply Nat.mod_eq_of_lt
  rw [Nat.shiftRight_eq_div_pow]
  omega

theorem byte_mod_and (w : Nat) : (w &&& 0xFF) % 256 = w &&& 0xFF :=
  Nat.mod_eq_of_lt (Nat.and_lt_two_pow w (by decide : 0xFF < 2 ^ 8))

theorem word_of_bytes (w : Nat) (hw : w < 65536) :
    (((w >>> 8) <<< 8) ||| (w &&& 0xFF)) % 65536 = w := by
  rw [Nat.mod_eq_of_lt]
  · apply Nat.eq_of_testBit_eq
    intro i
    have e : (0xFF : Nat) = 2 ^ 8 - 1 := by norm_num
    simp only [e, Nat.testBit_or, Nat.testBit_shiftLeft, Nat.testBit_shiftRight,
      Nat.and_pow_two_sub_one_eq_mod, Nat.testBit_mod_two_pow]
    by_cases h : i < 8
    · simp [h, Nat.not_le.mpr h]
    · have h8 : 8 ≤ i := Nat.le_of_not_lt h
      simp [h, h8, Nat.add_sub_cancel' h8]
  · have h1 : (w >>> 8) <<< 8 < 2 ^ 16 := by
      rw [Nat.shiftRight_eq_div_pow, Nat.shiftLeft_eq]; omega
    have h2 : w &&& 0xFF < 2 ^ 16 :=
      Nat.lt_of_lt_of_le (Nat.and_lt_two_pow w (by decide : 0xFF < 2 ^ 8)) (by decide)
    exact Nat.or_lt_two_pow h1 h2

theorem word_lt (b0 b1 : Nat) (h0 : b0 < 256) (h1 : b1 < 256) :
    ((b0 <<< 8) ||| b1) % 65536 = (b0 <<< 8) ||| b1 := by
  apply Nat.mod_eq_of_lt
  have h2 : b0 <<< 8 < 2 ^ 16 := by rw [Nat.shiftLeft_eq]; omega
  exact Nat.or_lt_two_pow h2 (Nat.lt_of_lt_of_le h1 (by decide))

/-! ## Lemmas on the receive path -/

theorem byteAt_lt (rx : List Nat) (k : Nat) : byteAt rx k < 256 :=
  Nat.mod_lt _ (by decide)

theorem byteAt_cons3 (a b c : Nat) (rest : List Nat) (j t : Nat) :
    byteAt (a :: b :: c :: rest) (3 * (j + 1) + t) = byteAt rest (3 * j + t) := by
  have e : 3 * (j + 1) + t = (3 * j + t) + 1 + 1 + 1 := by omega
  simp only [byteAt, e, List.getD_cons_succ]

theorem read_cons (w : TwoWire) (b : Nat) (rest : List Nat) (h : w.rxBuffer = b :: rest) :
    w.read = ((b : Int), { w with rxBuffer := rest }) := by
  unfold TwoWire.read
  rw [h]

/-- One round of the word loop of `readNData` on a buffer holding at least
three bytes. -/
theorem readNDataLoop_succ (k i : Nat) (w : TwoWire) (out : Nat → Nat)
    (a b c : Nat) (rest : List Nat) (h : w.rxBuffer = a :: b :: c :: rest) :
    readNDataLoop (k + 1) i w out =
      if crc8 (a % 256) (b % 256) ≠ c % 256 then (false, { w with rxBuffer := rest }, out)
      else readNDataLoop k (i + 1) { w with rxBuffer := rest }
        (Function.update out i (((a % 256) <<< 8 ||| (b % 256)) % 65536)) := by
  rw [readNDataLoop, read_cons w a (b :: c :: rest) h]
  simp only [toUInt8_natCast]
  rw [read_cons { w with rxBuffer := b :: c :: rest } b (c :: rest) rfl]
  simp only [toUInt8_natCast]
  rw [read_cons { w with rxBuffer := c :: rest } c rest rfl]
  simp only [toUInt8_natCast]

theorem groupOk_cons3 (a b c : Nat) (rest : List Nat) (j : Nat) :
    groupOk (a :: b :: c :: rest) (j + 1) ↔ groupOk rest j := by
  have e0 := byteAt_cons3 a b c rest j 0
  have e1 := byteAt_cons3 a b c rest j 1
  have e2 := byteAt_cons3 a b c rest j 2
  simp only [Nat.add_zero] at e0
  unfold groupOk
  rw [e0, e1, e2]

theorem groupWord_cons3 (a b c : Nat) (rest : List Nat) (j : Nat) :
    groupWord (a :: b :: c :: rest) (j + 1) = groupWord rest j := by
  have e0 := byteAt_cons3 a b c rest j 0
  have e1 := byteAt_cons3 a b c rest j 1
  simp only [Nat.add_zero] at e0
  unfold groupWord
  rw [e0, e1]

theorem groupOk_zero (a b c : Nat) (rest : List Nat) :
    groupOk (a :: b :: c :: rest) 0 ↔ crc8 (a % 256) (b % 256) = c % 256 := by
  simp [groupOk, byteAt]

theorem groupWord_zero (a b c : Nat) (rest : List Nat) :
    groupWord (a :: b :: c :: rest) 0 = ((a % 256) <<< 8 ||| (b % 256)) := by
  simp [groupWord, byteAt]

theorem exists_cons3 (l : List Nat) (k : Nat) (h : 3 * (k + 1) ≤ l.length) :
    ∃ a b c rest, l = a :: b :: c :: rest ∧ 3 * k ≤ rest.length := by
  match l, h with
  | a :: b :: c :: rest, h => exact ⟨a, b, c, rest, rfl, by simp at h; omega⟩
  | [], h => simp at h
  | [_], h => simp at h; omega
  | [_, _], h => simp at h; omega

/-- The word loop on a buffer whose first `k` groups all pass the CRC check:
it succeeds, consumes `3 * k` bytes and stores the `k` words at `out[i..]`. -/
theorem readNDataLoop_good (k : Nat) : ∀ (i : Nat) (w : TwoWire) (out : Nat → Nat),
    3 * k ≤ w.rxBuffer.length → (∀ j < k, groupOk w.rxBuffer j) →
    readNDataLoop k i w out =
      (true, { w with rxBuffer := w.rxBuffer.drop (3 * k) },
        fun x => if i ≤ x ∧ x < i + k then groupWord w.rxBuffer (x - i) else out x) := by
  induction k with
  | zero =>
    intro i w out _ _
    simp only [readNDataLoop, Nat.mul_zero, List.drop_zero, Nat.add_zero]
    congr 2
    funext x
    have h2 : ¬ (i ≤ x ∧ x < i) := by omega
    rw [if_neg h2]
  | succ k ih =>
    intro i w out hlen hok
    obtain ⟨a, b, c, rest, hl, hrest⟩ := exists_cons3 _ k hlen
    have h0 : crc8 (a % 256) (b % 256) = c % 256 := by
      have := hok 0 (Nat.succ_pos k)
      rwa [hl, groupOk_zero] at this
    have hrestok : ∀ j < k, groupOk rest j := by
      intro j hj
      have := hok (j + 1) (Nat.succ_lt_succ hj)
      rwa [hl, groupOk_cons3] at this
    rw [readNDataLoop_succ k i w out a b c rest hl, if_neg (by simpa using h0),
      ih (i + 1) { w with rxBuffer := rest } _ hrest hrestok]
    have hd : List.drop (3 * (k + 1)) w.rxBuffer = List.drop (3 * k) rest := by
      rw [hl]; simp [Nat.mul_succ]
    simp only [hd]
    congr 2
    funext x
    by_cases hx : x = i
    · subst hx
      have h1 : ¬ (x + 1 ≤ x ∧ x < x + 1 + k) := by omega
      have h2 : x ≤ x ∧ x < x + (k + 1) := by omega
      rw [if_neg h1, if_pos h2, Function.update_same, Nat.sub_self, hl, groupWord_zero,
        word_lt _ _ (Nat.mod_lt _ (by decide)) (Nat.mod_lt _ (by decide))]
    · by_cases hr : i + 1 ≤ x ∧ x < i + 1 + k
      · have h2 : i ≤ x ∧ x < i + (k + 1) := by omega
        have e : x - i = (x - (i + 1)) + 1 := by omega
        rw [if_pos hr, if_pos h2, hl, e, groupWord_cons3]
      · have h2 : ¬ (i ≤ x ∧ x < i + (k + 1)) := by omega
        rw [if_neg hr, if_neg h2, Function.update_noteq hx]

/-- The word loop on a buffer whose first bad group is the `j`-th: it fails,
having stored exactly the `j` words before the bad group. -/
theorem readNDataLoop_bad (k : Nat) : ∀ (j i : Nat) (w : TwoWire) (out : Nat → Nat),
    3 * k ≤ w.rxBuffer.length → j < k → (∀ t < j, groupOk w.rxBuffer t) →
    ¬ groupOk w.rxBuffer j →
    readNDataLoop k i w out =
      (false, { w with rxBuffer := w.rxBuffer.drop (3 * (j + 1)) },
        fun x => if i ≤ x ∧ x < i + j then groupWord w.rxBuffer (x - i) else out x) := by
  induction k with
  | zero => intro j i w out _ hj; omega
  | succ k ih =>
    intro j i w out hlen hj hok hbad
    obtain ⟨a, b, c, rest, hl, hrest⟩ := exists_cons3 _ k hlen
    cases j with
    | zero =>
      have h0 : crc8 (a % 256) (b % 256) ≠ c % 256 := by
        rwa [hl, groupOk_zero] at hbad
      rw [readNDataLoop_succ k i w out a b c rest hl, if_pos h0]
      have hd : List.drop (3 * (0 + 1)) w.rxBuffer = rest := by rw [hl]; simp
      simp only [hd]
      congr 2
      funext x
      have h2 : ¬ (i ≤ x ∧ x < i + 0) := by omega
      rw [if_neg h2]
    | succ j =>
      have h0 : crc8 (a % 256) (b % 256) = c % 256 := by
        have := hok 0 (Nat.succ_pos j)
        rwa [hl, groupOk_zero] at this
      have hrestok : ∀ t < j, groupOk rest t := by
        intro t ht
        have := hok (t + 1) (Nat.succ_lt_succ ht)
        rwa [hl, groupOk_cons3] at this
      have hrestbad : ¬ groupOk rest j := by
        rwa [hl, groupOk_cons3] at hbad
      rw [readNDataLoop_succ k i w out a b c rest hl, if_neg (by simpa using h0),
        ih j (i + 1) { w with rxBuffer := rest } _ hrest (Nat.lt_of_succ_lt_succ hj)
          hrestok hrestbad]
      have hd : List.drop (3 * (j + 1 + 1)) w.rxBuffer = List.drop (3 * (j + 1)) rest := by
        rw [hl]; simp [Nat.mul_succ]
      simp only [hd]
      congr 2
      funext x
      by_cases hx : x = i
      · subst hx
        have h1 : ¬ (x + 1 ≤ x ∧ x < x + 1 + j) := by omega
        have h2 : x ≤ x ∧ x < x + (j + 1) := by omega
        rw [if_neg h1, if_pos h2, Function.update_same, Nat.sub_self, hl, groupWord_zero,
          word_lt _ _ (Nat.mod_lt _ (by decide)) (Nat.mod_lt _ (by decide))]
      · by_cases hr : i + 1 ≤ x ∧ x < i + 1 + j
        · have h2 : i ≤ x ∧ x < i + (j + 1) := by omega
          have e : x - i = (x - (i + 1)) + 1 := by omega
          rw [if_pos hr, if_pos h2, hl, e, groupWord_cons3]
        · have h2 : ¬ (i ≤ x ∧ x < i + (j + 1)) := by omega
          rw [if_neg hr, if_neg h2, Function.update_noteq hx]

theorem busAfterRequest_eq (self : Driver) (cmd q : Nat) :
    busAfterRequest self cmd q =
      { self.i2c with
        history := historyAfterRequest self cmd q,
        txAddress := self.address,
        txBuffer := [],
        rxBuffer := response self cmd q } := by
  simp [busAfterRequest, sendCommand_eq, TwoWire.delay, TwoWire.requestFrom, response,
    historyAfterRequest, List.append_assoc]

theorem busAfterRequest_rxBuffer (self : Driver) (cmd q : Nat) :
    (busAfterRequest self cmd q).rxBuffer = response self cmd q := by
  rw [busAfterRequest_eq]

theorem busAfterRequest_history (self : Driver) (cmd q : Nat) :
    (busAfterRequest self cmd q).history = historyAfterRequest self cmd q := by
  rw [busAfterRequest_eq]

theorem sendCommand_address (self : Driver) (cmd : Nat) :
    (sendCommand self cmd).drv.address = self.address := by
  rw [sendCommand_eq]

theorem sendCommand_ok (self : Driver) (cmd : Nat) :
    (sendCommand self cmd).ok = (commandStatus self cmd == 0) := by
  rw [sendCommand_eq]

/-- The three ways through `readNData`: the command is not acknowledged. -/
theorem readNData_of_nack (self : Driver) (cmd : Nat) (out : Nat → Nat) (n : Nat)
    (h : commandStatus self cmd ≠ 0) :
    readNData self cmd out n =
      { ok := false, drv := (sendCommand self cmd).drv, out := out } := by
  have hs : (sendCommand self cmd).ok = false := by
    rw [sendCommand_ok]; simpa using h
  simp [readNData, hs]

/-- The three ways through `readNData`: the byte count is not `3 * n`. -/
theorem readNData_of_short (self : Driver) (cmd : Nat) (out : Nat → Nat) (n : Nat)
    (h : commandStatus self cmd = 0)
    (hlen : (response self cmd ((n * 3) % 256)).length ≠ n * 3) :
    readNData self cmd out n =
      { ok := false,
        drv := { (sendCommand self cmd).drv with
                   i2c := busAfterRequest self cmd ((n * 3) % 256) },
        out := out } := by
  have hs : (sendCommand self cmd).ok = true := by
    rw [sendCommand_ok]; simpa using h
  have ha : (busAfterRequest self cmd ((n * 3) % 256)).available ≠ ((n * 3 : Nat) : Int) := by
    unfold TwoWire.available
    rw [busAfterRequest_rxBuffer]
    exact_mod_cast hlen
  unfold busAfterRequest at ha
  simp only [readNData, hs, sendCommand_address]
  simp only [Bool.not_true, Bool.false_eq_true, if_false]
  rw [if_pos ha]
  rfl

/-- The three ways through `readNData`: the word loop runs. -/
theorem readNData_of_full (self : Driver) (cmd : Nat) (out : Nat → Nat) (n : Nat)
    (h : commandStatus self cmd = 0)
    (hlen : (response self cmd ((n * 3) % 256)).length = n * 3) :
    readNData self cmd out n =
      { ok := (readNDataLoop n 0 (busAfterRequest self cmd ((n * 3) % 256)) out).1,
        drv := { (sendCommand self cmd).drv with
                   i2c := (readNDataLoop n 0 (busAfterRequest self cmd ((n * 3) % 256)) out).2.1 },
        out := (readNDataLoop n 0 (busAfterRequest self cmd ((n * 3) % 256)) out).2.2 } := by
  have hs : (sendCommand self cmd).ok = true := by
    rw [sendCommand_ok]; simpa using h
  have ha : ¬ (busAfterRequest self cmd ((n * 3) % 256)).available ≠ ((n * 3 : Nat) : Int) := by
    unfold TwoWire.available
    rw [busAfterRequest_rxBuffer]
    simp [hlen]
  unfold busAfterRequest at ha
  simp only [readNData, hs, sendCommand_address]
  simp only [Bool.not_true, Bool.false_eq_true, if_false]
  rw [if_neg ha]
  rfl

theorem read_history (w : TwoWire) : w.read.2.history = w.history := by
  unfold TwoWire.read
  split <;> rfl

theorem readNDataLoop_history (k : Nat) : ∀ (i : Nat) (w : TwoWire) (out : Nat → Nat),
    (readNDataLoop k i w out).2.1.history = w.history := by
  induction k with
  | zero => intro i w out; rfl
  | succ k ih =>
    intro i w out
    rw [readNDataLoop]
    simp only
    split
    · simp only [read_history]
    · rw [ih]; simp only [read_history]

/-- The byte loop of `readMeasurement` and `readSerialNumber` on a buffer that
holds at least `k` bytes. -/
theorem readRawLoop_eq (k : Nat) : ∀ (i : Nat) (w : TwoWire) (raw : Nat → Nat),
    k ≤ w.rxBuffer.length →
    readRawLoop k i w raw =
      ({ w with rxBuffer := w.rxBuffer.drop k },
        fun x => if i ≤ x ∧ x < i + k then byteAt w.rxBuffer (x - i) else raw x) := by
  induction k with
  | zero =>
    intro i w raw _
    simp only [readRawLoop, List.drop_zero, Nat.add_zero]
    congr 1
    funext x
    have h2 : ¬ (i ≤ x ∧ x < i) := by omega
    rw [if_neg h2]
  | succ k ih =>
    intro i w raw hlen
    match hl : w.rxBuffer, hlen with
    | [], hlen => simp at hlen
    | a :: rest, hlen =>
      have hrest : k ≤ rest.length := by simpa using hlen
      rw [readRawLoop, read_cons w a rest hl]
      simp only [toUInt8_natCast]
      rw [ih (i + 1) { w with rxBuffer := rest } _ hrest]
      simp only [List.drop_succ_cons]
      congr 1
      funext x
      by_cases hx : x = i
      · subst hx
        have h1 : ¬ (x + 1 ≤ x ∧ x < x + 1 + k) := by omega
        have h2 : x ≤ x ∧ x < x + (k + 1) := by omega
        rw [if_neg h1, if_pos h2, Function.update_same, Nat.sub_self]
        simp [byteAt]
      · by_cases hr : i + 1 ≤ x ∧ x < i + 1 + k
        · have h2 : i ≤ x ∧ x < i + (k + 1) := by omega
          have e : x - i = (x - (i + 1)) + 1 := by omega
          rw [if_pos hr, if_pos h2, e]
          simp [byteAt]
        · have h2 : ¬ (i ≤ x ∧ x < i + (k + 1)) := by omega
          rw [if_neg hr, if_neg h2, Function.update_noteq hx]

theorem checkCrc_eq (p : Nat → Nat) (word : Nat) :
    checkCrc p word =
      if crc8 (p 0) (p 1) = p 2 then (true, ((p 0 <<< 8) ||| p 1) % 65536)
      else (false, word) := by
  unfold checkCrc
  by_cases h : crc8 (p 0) (p 1) = p 2 <;> simp [h]

/-- The check of the `g`-th group of a nine-byte buffer copied into `raw`. -/
theorem checkCrc_group (rx : List Nat) (raw : Nat → Nat) (g : Nat) (word : Nat)
    (hraw : ∀ x < 3, raw (3 * g + x) = byteAt rx (3 * g + x)) :
    checkCrc (fun j => raw (3 * g + j)) word =
      if groupOk rx g then (true, groupWord rx g) else (false, word) := by
  have h0 : raw (3 * g) = byteAt rx (3 * g) := hraw 0 (by decide)
  rw [checkCrc_eq]
  simp only [Nat.add_zero, h0, hraw 1 (by decide), hraw 2 (by decide)]
  unfold groupOk groupWord
  rw [word_lt _ _ (byteAt_lt _ _) (byteAt_lt _ _)]

/-- The nine bytes `readMeasurement` and `readSerialNumber` copy into `raw`
when the buffer holds exactly nine bytes. -/
theorem readRawLoop_nine (w : TwoWire) (h : w.rxBuffer.length = 9) :
    readRawLoop 9 0 w (fun _ => 0) =
      ({ w with rxBuffer := [] },
        fun x => if 0 ≤ x ∧ x < 0 + 9 then byteAt w.rxBuffer (x - 0) else 0) := by
  rw [readRawLoop_eq 9 0 w _ (by omega)]
  have hd : List.drop 9 w.rxBuffer = [] := List.drop_eq_nil_of_le (by omega)
  rw [hd]

/-- The check of the group at offset `off = 3 * g` of the nine copied bytes. -/
theorem checkCrc_raw (rx : List Nat) (g : Nat) (hg : g < 3) (off : Nat) (hoff : off = 3 * g) :
    checkCrc (fun j => if 0 ≤ off + j ∧ off + j < 0 + 9 then byteAt rx (off + j - 0) else 0) 0
      = if groupOk rx g then (true, groupWord rx g) else (false, 0) := by
  subst hoff
  apply checkCrc_group rx
    (fun x => if 0 ≤ x ∧ x < 0 + 9 then byteAt rx (x - 0) else 0) g 0
  intro x hx
  have h2 : 0 ≤ 3 * g + x ∧ 3 * g + x < 0 + 9 := by omega
  simp only [if_pos h2, Nat.sub_zero]

theorem readMeasurement_of_nack (self : Driver) (m : Measurement)
    (h : commandStatus self READ_MEASUREMENT_RAW_CMD_ID ≠ 0) :
    readMeasurement self m =
      { ok := false, drv := (sendCommand self READ_MEASUREMENT_RAW_CMD_ID).drv, out := m } := by
  have hs : (sendCommand self READ_MEASUREMENT_RAW_CMD_ID).ok = false := by
    rw [sendCommand_ok]; simpa using h
  simp [readMeasurement, hs]

theorem readMeasurement_of_short (self : Driver) (m : Measurement)
    (h : commandStatus self READ_MEASUREMENT_RAW_CMD_ID = 0)
    (hlen : (response self READ_MEASUREMENT_RAW_CMD_ID 9).length ≠ 9) :
    readMeasurement self m =
      { ok := false,
        drv := { (sendCommand self READ_MEASUREMENT_RAW_CMD_ID).drv with
                   i2c := busAfterRequest self READ_MEASUREMENT_RAW_CMD_ID 9 },
        out := m } := by
  have hs : (sendCommand self READ_MEASUREMENT_RAW_CMD_ID).ok = true := by
    rw [sendCommand_ok]; simpa using h
  have ha : (busAfterRequest self READ_MEASUREMENT_RAW_CMD_ID 9).available ≠ 9 := by
    unfold TwoWire.available
    rw [busAfterRequest_rxBuffer]
    exact_mod_cast hlen
  unfold busAfterRequest at ha
  simp only [readMeasurement, hs, sendCommand_address]
  simp only [Bool.not_true, Bool.false_eq_true, if_false]
  rw [if_pos ha]
  rfl

theorem readMeasurement_of_full (self : Driver) (m : Measurement)
    (h : commandStatus self READ_MEASUREMENT_RAW_CMD_ID = 0)
    (hlen : (response self READ_MEASUREMENT_RAW_CMD_ID 9).length = 9) :
    readMeasurement self m =
      if groupOk (response self READ_MEASUREMENT_RAW_CMD_ID 9) 0
          ∧ groupOk (response self READ_MEASUREMENT_RAW_CMD_ID 9) 1
          ∧ groupOk (response self READ_MEASUREMENT_RAW_CMD_ID 9) 2 then
        { ok := true,
          drv := { (sendCommand self READ_MEASUREMENT_RAW_CMD_ID).drv with
                     i2c := { busAfterRequest self READ_MEASUREMENT_RAW_CMD_ID 9 with
                                rxBuffer := [] } },
          out := { co2_ppm := groupWord (response self READ_MEASUREMENT_RAW_CMD_ID 9) 0,
                   temp_c := -45 + 175 *
                     (groupWord (response self READ_MEASUREMENT_RAW_CMD_ID 9) 1 : ℚ) / 65535,
                   rh_percent := 100 *
                     (groupWord (response self READ_MEASUREMENT_RAW_CMD_ID 9) 2 : ℚ) / 65535 } }
      else
        { ok := false,
          drv := { (sendCommand self READ_MEASUREMENT_RAW_CMD_ID).drv with
                     i2c := { busAfterRequest self READ_MEASUREMENT_RAW_CMD_ID 9 with
                                rxBuffer := [] } },
          out := m } := by
  have hs : (sendCommand self READ_MEASUREMENT_RAW_CMD_ID).ok = true := by
    rw [sendCommand_ok]; simpa using h
  have hb : (busAfterRequest self READ_MEASUREMENT_RAW_CMD_ID 9).rxBuffer.length = 9 := by
    rw [busAfterRequest_rxBuffer]; exact hlen
  have ha : ¬ (busAfterRequest self READ_MEASUREMENT_RAW_CMD_ID 9).available ≠ 9 := by
    unfold TwoWire.available
    simp [hb]
  have hr := readRawLoop_nine _ hb
  rw [busAfterRequest_rxBuffer] at hr
  unfold busAfterRequest at ha hr
  simp only [readMeasurement, hs, sendCommand_address]
  simp only [Bool.not_true, Bool.false_eq_true, if_false]
  rw [if_neg ha, hr]
  simp only
  rw [checkCrc_raw _ 0 (by decide) 0 rfl, checkCrc_raw _ 1 (by decide) 3 rfl,
    checkCrc_raw _ 2 (by decide) 6 rfl]
  by_cases g0 : groupOk (response self READ_MEASUREMENT_RAW_CMD_ID 9) 0 <;>
  by_cases g1 : groupOk (response self READ_MEASUREMENT_RAW_CMD_ID 9) 1 <;>
  by_cases g2 : groupOk (response self READ_MEASUREMENT_RAW_CMD_ID 9) 2 <;>
  simp [g0, g1, g2, busAfterRequest]

theorem readSerialNumber_of_nack (self : Driver) (sn : Nat)
    (h : commandStatus self GET_SERIAL_NUMBER_CMD_ID ≠ 0) :
    readSerialNumber self sn =
      { ok := false, drv := (sendCommand self GET_SERIAL_NUMBER_CMD_ID).drv, out := sn } := by
  have hs : (sendCommand self GET_SERIAL_NUMBER_CMD_ID).ok = false := by
    rw [sendCommand_ok]; simpa using h
  simp [readSerialNumber, hs]

theorem readSerialNumber_of_short (self : Driver) (sn : Nat)
    (h : commandStatus self GET_SERIAL_NUMBER_CMD_ID = 0)
    (hlen : (response self GET_SERIAL_NUMBER_CMD_ID 9).length ≠ 9) :
    readSerialNumber self sn =
      { ok := false,
        drv := { (sendCommand self GET_SERIAL_NUMBER_CMD_ID).drv with
                   i2c := busAfterRequest self GET_SERIAL_NUMBER_CMD_ID 9 },
        out := sn } := by
  have hs : (sendCommand self GET_SERIAL_NUMBER_CMD_ID).ok = true := by
    rw [sendCommand_ok]; simpa using h
  have ha : (busAfterRequest self GET_SERIAL_NUMBER_CMD_ID 9).available ≠ 9 := by
    unfold TwoWire.available
    rw [busAfterRequest_rxBuffer]
    exact_mod_cast hlen
  unfold busAfterRequest at ha
  simp only [readSerialNumber, hs, sendCommand_address]
  simp only [Bool.not_true, Bool.false_eq_true, if_false]
  rw [if_pos ha]
  rfl

theorem readSerialNumber_of_full (self : Driver) (sn : Nat)
    (h : commandStatus self GET_SERIAL_NUMBER_CMD_ID = 0)
    (hlen : (response self GET_SERIAL_NUMBER_CMD_ID 9).length = 9) :
    readSerialNumber self sn =
      if groupOk (response self GET_SERIAL_NUMBER_CMD_ID 9) 0
          ∧ groupOk (response self GET_SERIAL_NUMBER_CMD_ID 9) 1
          ∧ groupOk (response self GET_SERIAL_NUMBER_CMD_ID 9) 2 then
        { ok := true,
          drv := { (sendCommand self GET_SERIAL_NUMBER_CMD_ID).drv with
                     i2c := { busAfterRequest self GET_SERIAL_NUMBER_CMD_ID 9 with
                                rxBuffer := [] } },
          out := ((groupWord (response self GET_SERIAL_NUMBER_CMD_ID 9) 0 <<< 32)
                   ||| (groupWord (response self GET_SERIAL_NUMBER_CMD_ID 9) 1 <<< 16)
                   ||| groupWord (response self GET_SERIAL_NUMBER_CMD_ID 9) 2) % 2 ^ 64 }
      else
        { ok := false,
          drv := { (sendCommand self GET_SERIAL_NUMBER_CMD_ID).drv with
                     i2c := { busAfterRequest self GET_SERIAL_NUMBER_CMD_ID 9 with
                                rxBuffer := [] } },
          out := sn } := by
  have hs : (sendCommand self GET_SERIAL_NUMBER_CMD_ID).ok = true := by
    rw [sendCommand_ok]; simpa using h
  have hb : (busAfterRequest self GET_SERIAL_NUMBER_CMD_ID 9).rxBuffer.length = 9 := by
    rw [busAfterRequest_rxBuffer]; exact hlen
  have ha : ¬ (busAfterRequest self GET_SERIAL_NUMBER_CMD_ID 9).available ≠ 9 := by
    unfold TwoWire.available
    simp [hb]
  have hr := readRawLoop_nine _ hb
  rw [busAfterRequest_rxBuffer] at hr
  unfold busAfterRequest at ha hr
  simp only [readSerialNumber, hs, sendCommand_address]
  simp only [Bool.not_true, Bool.false_eq_true, if_false]
  rw [if_neg ha, hr]
  simp only
  rw [checkCrc_raw _ 0 (by decide) 0 rfl, checkCrc_raw _ 1 (by decide) 3 rfl,
    checkCrc_raw _ 2 (by decide) 6 rfl]
  by_cases g0 : groupOk (response self GET_SERIAL_NUMBER_CMD_ID 9) 0 <;>
  by_cases g1 : groupOk (response self GET_SERIAL_NUMBER_CMD_ID 9) 1 <;>
  by_cases g2 : groupOk (response self GET_SERIAL_NUMBER_CMD_ID 9) 2 <;>
  simp [g0, g1, g2, busAfterRequest]

/-! ## Failure of a read leaves outputs alone: shared lemmas -/

/-- How `readNData` can fail, and what the output buffer holds then. -/
theorem readNData_fail_cases (self : Driver) (cmd : Nat) (out : Nat → Nat) (n : Nat)
    (hfail : (readNData self cmd out n).ok = false) :
    ((commandStatus self cmd ≠ 0 ∨ (response self cmd ((3 * n) % 256)).length ≠ 3 * n)
        ∧ (readNData self cmd out n).out = out)
    ∨ (∃ j, j < n ∧ (∀ t < j, groupOk (response self cmd ((3 * n) % 256)) t)
        ∧ ¬ groupOk (response self cmd ((3 * n) % 256)) j
        ∧ ∀ i, (readNData self cmd out n).out i
            = if i < j then groupWord (response self cmd ((3 * n) % 256)) i else out i) := by
  rw [Nat.mul_comm 3 n] at *
  by_cases hst : commandStatus self cmd = 0
  · by_cases hlen : (response self cmd ((n * 3) % 256)).length = n * 3
    · have hb : 3 * n ≤ (busAfterRequest self cmd ((n * 3) % 256)).rxBuffer.length := by
        rw [busAfterRequest_rxBuffer, hlen]; omega
      rw [readNData_of_full self cmd out n hst hlen] at hfail ⊢
      by_cases hall : ∀ i < n, groupOk (response self cmd ((n * 3) % 256)) i
      · have hall2 : ∀ i < n, groupOk (busAfterRequest self cmd ((n * 3) % 256)).rxBuffer i := by
          rw [busAfterRequest_rxBuffer]; exact hall
        rw [readNDataLoop_good n 0 _ out hb hall2] at hfail
        simp at hfail
      · have hex : ∃ j, j < n ∧ ¬ groupOk (response self cmd ((n * 3) % 256)) j := by
          by_contra hcon
          apply hall
          intro i hi
          by_contra hbad
          exact hcon ⟨i, hi, hbad⟩
        have hj := Nat.find_spec hex
        have hmin : ∀ t < Nat.find hex, groupOk (response self cmd ((n * 3) % 256)) t := by
          intro t ht
          by_contra hbad
          exact Nat.find_min hex ht ⟨Nat.lt_trans ht hj.1, hbad⟩
        have hmin2 : ∀ t < Nat.find hex,
            groupOk (busAfterRequest self cmd ((n * 3) % 256)).rxBuffer t := by
          rw [busAfterRequest_rxBuffer]; exact hmin
        have hbad : ¬ groupOk (busAfterRequest self cmd ((n * 3) % 256)).rxBuffer (Nat.find hex) := by
          rw [busAfterRequest_rxBuffer]; exact hj.2
        right
        refine ⟨Nat.find hex, hj.1, hmin, hj.2, ?_⟩
        intro i
        rw [readNDataLoop_bad n (Nat.find hex) 0 _ out hb hj.1 hmin2 hbad]
        simp only [busAfterRequest_rxBuffer, Nat.zero_le, true_and, Nat.zero_add, Nat.sub_zero]
    · left
      rw [readNData_of_short self cmd out n hst hlen]
      exact ⟨Or.inr hlen, rfl⟩
  · left
    rw [readNData_of_nack self cmd out n hst]
    exact ⟨Or.inl hst, rfl⟩

/-- A failed read of at most one word leaves the output buffer as it was. -/
theorem readNData_fail_le_one (self : Driver) (cmd : Nat) (out : Nat → Nat) (n : Nat)
    (hn : n ≤ 1) (hfail : (readNData self cmd out n).ok = false) :
    (readNData self cmd out n).out = out := by
  rcases readNData_fail_cases self cmd out n hfail with h | ⟨j, hj, _, _, hout⟩
  · exact h.2
  · funext i
    have hj0 : ¬ i < j := by omega
    rw [hout i, if_neg hj0]

theorem readWord_fail (self : Driver) (cmd v : Nat)
    (hfail : (readWord self cmd v).ok = false) : (readWord self cmd v).out = v := by
  unfold readWord at hfail ⊢
  simp only at hfail ⊢
  rw [readNData_fail_le_one self cmd _ 1 (Nat.le_refl 1) hfail]

theorem readMeasurement_fail (self : Driver) (m : Measurement)
    (hfail : (readMeasurement self m).ok = false) : (readMeasurement self m).out = m := by
  by_cases hst : commandStatus self READ_MEASUREMENT_RAW_CMD_ID = 0
  · by_cases hlen : (response self READ_MEASUREMENT_RAW_CMD_ID 9).length = 9
    · rw [readMeasurement_of_full self m hst hlen] at hfail ⊢
      split
      · rename_i h; rw [if_pos h] at hfail; simp at hfail
      · rfl
    · rw [readMeasurement_of_short self m hst hlen]
  · rw [readMeasurement_of_nack self m hst]

theorem readSerialNumber_fail (self : Driver) (sn : Nat)
    (hfail : (readSerialNumber self sn).ok = false) : (readSerialNumber self sn).out = sn := by
  by_cases hst : commandStatus self GET_SERIAL_NUMBER_CMD_ID = 0
  · by_cases hlen : (response self GET_SERIAL_NUMBER_CMD_ID 9).length = 9
    · rw [readSerialNumber_of_full self sn hst hlen] at hfail ⊢
      split
      · rename_i h; rw [if_pos h] at hfail; simp at hfail
      · rfl
    · rw [readSerialNumber_of_short self sn hst hlen]
  · rw [readSerialNumber_of_nack self sn hst]

/-- When `readMeasurement` succeeds. -/
theorem readMeasurement_ok (self : Driver) (m : Measurement) :
    (readMeasurement self m).ok = true ↔
      commandStatus self READ_MEASUREMENT_RAW_CMD_ID = 0
      ∧ (response self READ_MEASUREMENT_RAW_CMD_ID 9).length = 9
      ∧ groupOk (response self READ_MEASUREMENT_RAW_CMD_ID 9) 0
      ∧ groupOk (response self READ_MEASUREMENT_RAW_CMD_ID 9) 1
      ∧ groupOk (response self READ_MEASUREMENT_RAW_CMD_ID 9) 2 := by
  by_cases hst : commandStatus self READ_MEASUREMENT_RAW_CMD_ID = 0
  · by_cases hlen : (response self READ_MEASUREMENT_RAW_CMD_ID 9).length = 9
    · rw [readMeasurement_of_full self m hst hlen]
      split
      · rename_i h; simp [hst, hlen, h]
      · rename_i h
        constructor
        · intro h2; simp at h2
        · intro h2; exact absurd h2.2.2 h
    · rw [readMeasurement_of_short self m hst hlen]
      simp [hlen]
  · rw [readMeasurement_of_nack self m hst]
    simp [hst]

/-- When `readSerialNumber` succeeds. -/
theorem readSerialNumber_ok (self : Driver) (sn : Nat) :
    (readSerialNumber self sn).ok = true ↔
      commandStatus self GET_SERIAL_NUMBER_CMD_ID = 0
      ∧ (response self GET_SERIAL_NUMBER_CMD_ID 9).length = 9
      ∧ groupOk (response self GET_SERIAL_NUMBER_CMD_ID 9) 0
      ∧ groupOk (response self GET_SERIAL_NUMBER_CMD_ID 9) 1
      ∧ groupOk (response self GET_SERIAL_NUMBER_CMD_ID 9) 2 := by
  by_cases hst : commandStatus self GET_SERIAL_NUMBER_CMD_ID = 0
  · by_cases hlen : (response self GET_SERIAL_NUMBER_CMD_ID 9).length = 9
    · rw [readSerialNumber_of_full self sn hst hlen]
      split
      · rename_i h; simp [hst, hlen, h]
      · rename_i h
        constructor
        · intro h2; simp at h2
        · intro h2; exact absurd h2.2.2 h
    · rw [readSerialNumber_of_short self sn hst hlen]
      simp [hlen]
  · rw [readSerialNumber_of_nack self sn hst]
    simp [hst]

/-- The bus history after `readNData` once the command was acknowledged. -/
theorem readNData_history (self : Driver) (cmd : Nat) (out : Nat → Nat) (n : Nat)
    (hst : commandStatus self cmd = 0) :
    (readNData self cmd out n).drv.i2c.history
      = historyAfterRequest self cmd ((n * 3) % 256) := by
  by_cases hlen : (response self cmd ((n * 3) % 256)).length = n * 3
  · rw [readNData_of_full self cmd out n hst hlen]
    simp only [readNDataLoop_history, busAfterRequest_history]
  · rw [readNData_of_short self cmd out n hst hlen]
    simp only [busAfterRequest_history]

/-! ## Lemmas on successful reads and on the named expressions -/

theorem groupWord_lt (rx : List Nat) (j : Nat) : groupWord rx j < 65536 := by
  have h := word_lt _ _ (byteAt_lt rx (3 * j)) (byteAt_lt rx (3 * j + 1))
  unfold groupWord
  rw [← h]
  exact Nat.mod_lt _ (by decide)

/-- What `readSerialNumber` stores when it succeeds. -/
theorem readSerialNumber_out_of_ok (self : Driver) (sn : Nat)
    (hok : (readSerialNumber self sn).ok = true) :
    (readSerialNumber self sn).out =
      serialFromWords (groupWord (response self GET_SERIAL_NUMBER_CMD_ID 9) 0)
        (groupWord (response self GET_SERIAL_NUMBER_CMD_ID 9) 1)
        (groupWord (response self GET_SERIAL_NUMBER_CMD_ID 9) 2) := by
  have h := (readSerialNumber_ok self sn).mp hok
  rw [readSerialNumber_of_full self sn h.1 h.2.1, if_pos h.2.2]
  rfl

/-- For 16-bit words the three shifted words do not overlap: the bitwise OR is
the sum, and nothing is cut off by the 64-bit width. -/
theorem serialFromWords_eq (w0 w1 w2 : Nat) (h0 : w0 < 65536) (h1 : w1 < 65536)
    (h2 : w2 < 65536) :
    serialFromWords w0 w1 w2 = w0 * 2 ^ 32 + w1 * 2 ^ 16 + w2 := by
  unfold serialFromWords
  have e1 : w0 <<< 32 ||| w1 <<< 16 = (w0 <<< 16 ||| w1) <<< 16 := by
    apply Nat.eq_of_testBit_eq
    intro i
    simp only [Nat.testBit_or, Nat.testBit_shiftLeft]
    by_cases h16 : 16 ≤ i
    · by_cases h32 : 32 ≤ i
      · have h3 : 16 ≤ i - 16 := by omega
        have e : i - 16 - 16 = i - 32 := by omega
        simp [h16, h32, h3, e]
      · have h3 : ¬ 16 ≤ i - 16 := by omega
        simp [h16, h32, h3]
    · have h32 : ¬ 32 ≤ i := by omega
      simp [h16, h32]
  have a1 : w0 <<< 16 ||| w1 = 2 ^ 16 * w0 + w1 := by
    rw [Nat.shiftLeft_eq, Nat.mul_comm w0, Nat.mul_add_lt_is_or (by omega : w1 < 2 ^ 16)]
  have a2 : (2 ^ 16 * w0 + w1) <<< 16 ||| w2 = 2 ^ 16 * (2 ^ 16 * w0 + w1) + w2 := by
    rw [Nat.shiftLeft_eq, Nat.mul_comm (2 ^ 16 * w0 + w1),
      Nat.mul_add_lt_is_or (by omega : w2 < 2 ^ 16)]
  rw [e1, a1, a2]
  have hs : 2 ^ 16 * (2 ^ 16 * w0 + w1) + w2 < 2 ^ 64 := by omega
  rw [Nat.mod_eq_of_lt hs]
  ring

/-! ## Lemmas on commands without a response -/

theorem cmdBytes_eq (cmd : Nat) (hcmd : cmd < 65536) :
    cmdBytes cmd = [cmd >>> 8, cmd &&& 0xFF] := by
  simp only [cmdBytes, byte_mod_shift cmd hcmd, byte_mod_and cmd]

theorem sendCommand_history (self : Driver) (cmd : Nat) :
    (sendCommand self cmd).drv.i2c.history
      = self.i2c.history ++ [BusEvent.transmission self.address (cmdBytes cmd)] := by
  rw [sendCommand_eq]
  rfl

theorem sendCommand_ok_iff (self : Driver) (cmd : Nat) :
    (sendCommand self cmd).ok = true ↔
      self.i2c.device.status
        (self.i2c.history ++ [BusEvent.transmission self.address (cmdBytes cmd)]) = 0 := by
  rw [sendCommand_ok]
  simp [commandStatus, historyAfterCommand]

/-- When `readNData` succeeds and what it stores then. -/
theorem readNData_ok_spec (self : Driver) (cmd : Nat) (out : Nat → Nat) (n : Nat) :
    ((readNData self cmd out n).ok = true ↔
        commandStatus self cmd = 0
        ∧ (response self cmd ((n * 3) % 256)).length = n * 3
        ∧ ∀ i < n, groupOk (response self cmd ((n * 3) % 256)) i)
    ∧ ((readNData self cmd out n).ok = true →
        ∀ i < n, (readNData self cmd out n).out i
          = groupWord (response self cmd ((n * 3) % 256)) i) := by
  have key : (commandStatus self cmd = 0
        ∧ (response self cmd ((n * 3) % 256)).length = n * 3
        ∧ ∀ i < n, groupOk (response self cmd ((n * 3) % 256)) i) →
      (readNData self cmd out n).ok = true
        ∧ ∀ i < n, (readNData self cmd out n).out i
            = groupWord (response self cmd ((n * 3) % 256)) i := by
    rintro ⟨hst, hlen, hall⟩
    have hb : 3 * n ≤ (busAfterRequest self cmd ((n * 3) % 256)).rxBuffer.length := by
      rw [busAfterRequest_rxBuffer, hlen]; omega
    have hall2 : ∀ i < n, groupOk (busAfterRequest self cmd ((n * 3) % 256)).rxBuffer i := by
      rw [busAfterRequest_rxBuffer]; exact hall
    rw [readNData_of_full self cmd out n hst hlen, readNDataLoop_good n 0 _ out hb hall2]
    refine ⟨rfl, ?_⟩
    intro i hi
    have h2 : 0 ≤ i ∧ i < 0 + n := by omega
    simp only [if_pos h2, Nat.sub_zero, busAfterRequest_rxBuffer]
  have conv : (readNData self cmd out n).ok = true →
      commandStatus self cmd = 0
        ∧ (response self cmd ((n * 3) % 256)).length = n * 3
        ∧ ∀ i < n, groupOk (response self cmd ((n * 3) % 256)) i := by
    intro hok
    have hfalse : (readNData self cmd out n).ok ≠ false := by simp [hok]
    by_contra hcon
    apply hfalse
    by_cases hst : commandStatus self cmd = 0
    · by_cases hlen : (response self cmd ((n * 3) % 256)).length = n * 3
      · have hex : ∃ j, j < n ∧ ¬ groupOk (response self cmd ((n * 3) % 256)) j := by
          by_contra hno
          apply hcon
          refine ⟨hst, hlen, ?_⟩
          intro i hi
          by_contra hbad
          exact hno ⟨i, hi, hbad⟩
        have hj := Nat.find_spec hex
        have hb : 3 * n ≤ (busAfterRequest self cmd ((n * 3) % 256)).rxBuffer.length := by
          rw [busAfterRequest_rxBuffer, hlen]; omega
        have hmin : ∀ t < Nat.find hex,
            groupOk (busAfterRequest self cmd ((n * 3) % 256)).rxBuffer t := by
          intro t ht
          rw [busAfterRequest_rxBuffer]
          by_contra hbad
          exact Nat.find_min hex ht ⟨Nat.lt_trans ht hj.1, hbad⟩
        have hbad : ¬ groupOk (busAfterRequest self cmd ((n * 3) % 256)).rxBuffer
            (Nat.find hex) := by
          rw [busAfterRequest_rxBuffer]; exact hj.2
        rw [readNData_of_full self cmd out n hst hlen,
          readNDataLoop_bad n (Nat.find hex) 0 _ out hb hj.1 hmin hbad]
      · rw [readNData_of_short self cmd out n hst hlen]
    · rw [readNData_of_nack self cmd out n hst]
  exact ⟨⟨conv, fun h => (key h).1⟩, fun hok => (key (conv hok)).2⟩

/-- The bus history after `readMeasurement` once the command was acknowledged. -/
theorem readMeasurement_history (self : Driver) (m : Measurement)
    (hst : commandStatus self READ_MEASUREMENT_RAW_CMD_ID = 0) :
    (readMeasurement self m).drv.i2c.history
      = historyAfterRequest self READ_MEASUREMENT_RAW_CMD_ID 9 := by
  by_cases hlen : (response self READ_MEASUREMENT_RAW_CMD_ID 9).length = 9
  · rw [readMeasurement_of_full self m hst hlen]
    split <;> simp only [busAfterRequest_history]
  · rw [readMeasurement_of_short self m hst hlen]
    simp only [busAfterRequest_history]

/-- The bus history after `readSerialNumber` once the command was
acknowledged. -/
theorem readSerialNumber_history (self : Driver) (sn : Nat)
    (hst : commandStatus self GET_SERIAL_NUMBER_CMD_ID = 0) :
    (readSerialNumber self sn).drv.i2c.history
      = historyAfterRequest self GET_SERIAL_NUMBER_CMD_ID 9 := by
  by_cases hlen : (response self GET_SERIAL_NUMBER_CMD_ID 9).length = 9
  · rw [readSerialNumber_of_full self sn hst hlen]
    split <;> simp only [busAfterRequest_history]
  · rw [readSerialNumber_of_short self sn hst hlen]
    simp only [busAfterRequest_history]

/-! ## Lemmas on the address of the bus traffic -/

theorem keepsAddress_refl (d : Driver) : keepsAddress d d :=
  ⟨rfl, [], by simp, by simp⟩

theorem keepsAddress_trans (a b c : Driver) (h1 : keepsAddress a b) (h2 : keepsAddress b c) :
    keepsAddress a c := by
  obtain ⟨ha, es1, he1, hall1⟩ := h1
  obtain ⟨hb, es2, he2, hall2⟩ := h2
  refine ⟨hb.trans ha, es1 ++ es2, ?_, ?_⟩
  · rw [he2, he1, List.append_assoc]
  · intro e he
    rcases List.mem_append.mp he with h | h
    · exact hall1 e h
    · rw [← ha]; exact hall2 e h

theorem keepsAddress_delay (d : Driver) (ms : Nat) :
    keepsAddress d { d with i2c := d.i2c.delay ms } := by
  refine ⟨rfl, [BusEvent.delay ms], rfl, ?_⟩
  intro e he
  simp only [List.mem_singleton] at he
  subst he
  trivial

theorem keepsAddress_txCommand (self : Driver) (cmd : Nat) (words : List Nat) :
    keepsAddress self (txCommand self cmd words).drv := by
  rw [txCommand_eq]
  refine ⟨rfl, _, rfl, ?_⟩
  intro e he
  simp only [List.mem_singleton] at he
  subst he
  rfl

theorem keepsAddress_sendCommand (self : Driver) (cmd : Nat) :
    keepsAddress self (sendCommand self cmd).drv :=
  keepsAddress_txCommand self cmd []

theorem addressedTo_historyAfterRequest (self : Driver) (cmd q : Nat) :
    ∃ es : List BusEvent, historyAfterRequest self cmd q = self.i2c.history ++ es
      ∧ ∀ e ∈ es, addressedTo self.address e := by
  refine ⟨[BusEvent.transmission self.address (cmdBytes cmd), BusEvent.delay 1,
    BusEvent.requestFrom self.address q], ?_, ?_⟩
  · simp [historyAfterRequest, historyAfterCommand]
  · intro e he
    simp only [List.mem_cons, List.mem_singleton, List.not_mem_nil, or_false] at he
    rcases he with h | h | h <;> subst h
    · rfl
    · trivial
    · rfl

theorem readNData_address (self : Driver) (cmd : Nat) (out : Nat → Nat) (n : Nat) :
    (readNData self cmd out n).drv.address = self.address := by
  by_cases hst : commandStatus self cmd = 0
  · by_cases hlen : (response self cmd ((n * 3) % 256)).length = n * 3
    · rw [readNData_of_full self cmd out n hst hlen]
      exact sendCommand_address self cmd
    · rw [readNData_of_short self cmd out n hst hlen]
      exact sendCommand_address self cmd
  · rw [readNData_of_nack self cmd out n hst]
    exact sendCommand_address self cmd

theorem keepsAddress_readNData (self : Driver) (cmd : Nat) (out : Nat → Nat) (n : Nat) :
    keepsAddress self (readNData self cmd out n).drv := by
  by_cases hst : commandStatus self cmd = 0
  · refine ⟨readNData_address self cmd out n, ?_⟩
    rw [readNData_history self cmd out n hst]
    exact addressedTo_historyAfterRequest self cmd _
  · rw [readNData_of_nack self cmd out n hst]
    exact keepsAddress_sendCommand self cmd

theorem keepsAddress_readWord (self : Driver) (cmd v : Nat) :
    keepsAddress self (readWord self cmd v).drv :=
  keepsAddress_readNData self cmd _ 1

theorem readMeasurement_address (self : Driver) (m : Measurement) :
    (readMeasurement self m).drv.address = self.address := by
  by_cases hst : commandStatus self READ_MEASUREMENT_RAW_CMD_ID = 0
  · by_cases hlen : (response self READ_MEASUREMENT_RAW_CMD_ID 9).length = 9
    · rw [readMeasurement_of_full self m hst hlen]
      split <;> exact sendCommand_address self READ_MEASUREMENT_RAW_CMD_ID
    · rw [readMeasurement_of_short self m hst hlen]
      exact sendCommand_address self READ_MEASUREMENT_RAW_CMD_ID
  · rw [readMeasurement_of_nack self m hst]
    exact sendCommand_address self READ_MEASUREMENT_RAW_CMD_ID

theorem keepsAddress_readMeasurement (self : Driver) (m : Measurement) :
    keepsAddress self (readMeasurement self m).drv := by
  by_cases hst : commandStatus self READ_MEASUREMENT_RAW_CMD_ID = 0
  · refine ⟨readMeasurement_address self m, ?_⟩
    rw [readMeasurement_history self m hst]
    exact addressedTo_historyAfterRequest self _ _
  · rw [readMeasurement_of_nack self m hst]
    exact keepsAddress_sendCommand self _

theorem readSerialNumber_address (self : Driver) (sn : Nat) :
    (readSerialNumber self sn).drv.address = self.address := by
  by_cases hst : commandStatus self GET_SERIAL_NUMBER_CMD_ID = 0
  · by_cases hlen : (response self GET_SERIAL_NUMBER_CMD_ID 9).length = 9
    · rw [readSerialNumber_of_full self sn hst hlen]
      split <;> exact sendCommand_address self GET_SERIAL_NUMBER_CMD_ID
    · rw [readSerialNumber_of_short self sn hst hlen]
      exact sendCommand_address self GET_SERIAL_NUMBER_CMD_ID
  · rw [readSerialNumber_of_nack self sn hst]
    exact sendCommand_address self GET_SERIAL_NUMBER_CMD_ID

theorem keepsAddress_readSerialNumber (self : Driver) (sn : Nat) :
    keepsAddress self (readSerialNumber self sn).drv := by
  by_cases hst : commandStatus self GET_SERIAL_NUMBER_CMD_ID = 0
  · refine ⟨readSerialNumber_address self sn, ?_⟩
    rw [readSerialNumber_history self sn hst]
    exact addressedTo_historyAfterRequest self _ _
  · rw [readSerialNumber_of_nack self sn hst]
    exact keepsAddress_sendCommand self _

theorem keepsAddress_getTemperatureOffset (self : Driver) (degC : ℚ) :
    keepsAddress self (getTemperatureOffset self degC).drv := by
  have h : (getTemperatureOffset self degC).drv
      = (readWord self GET_TEMPERATURE_OFFSET_RAW_CMD_ID 0).drv := by
    unfold getTemperatureOffset
    simp only
    split <;> rfl
  rw [h]
  exact keepsAddress_readWord self _ 0

theorem keepsAddress_getAutomaticSelfCalibrationEnabled (self : Driver) (enabled : Bool) :
    keepsAddress self (getAutomaticSelfCalibrationEnabled self enabled).drv := by
  have h : (getAutomaticSelfCalibrationEnabled self enabled).drv
      = (readWord self GET_AUTOMATIC_SELF_CALIBRATION_ENABLED_CMD_ID 0).drv := by
    unfold getAutomaticSelfCalibrationEnabled
    simp only
    split <;> rfl
  rw [h]
  exact keepsAddress_readWord self _ 0

theorem keepsAddress_performForcedRecalibration (self : Driver) (ref : Nat)
    (frc_result : Option Nat) :
    keepsAddress self (performForcedRecalibration self ref frc_result).drv := by
  have hw := keepsAddress_txCommand self PERFORM_FORCED_RECALIBRATION_CMD_ID [ref]
  unfold performForcedRecalibration
  simp only
  split
  · exact hw
  · cases frc_result with
    | none => exact hw
    | some v =>
      have hd := keepsAddress_delay
        (writeCommand self PERFORM_FORCED_RECALIBRATION_CMD_ID [ref]).drv 1
      have hr := keepsAddress_readWord
        { (writeCommand self PERFORM_FORCED_RECALIBRATION_CMD_ID [ref]).drv with
          i2c := (writeCommand self PERFORM_FORCED_RECALIBRATION_CMD_ID [ref]).drv.i2c.delay 1 }
        PERFORM_FORCED_RECALIBRATION_CMD_ID v
      have hall := keepsAddress_trans _ _ _ hw (keepsAddress_trans _ _ _ hd hr)
      simp only
      split <;> exact hall

theorem keepsAddress_begin (self : Driver) : keepsAddress self (begin self).drv := by
  have h1 := keepsAddress_sendCommand self WAKE_UP_CMD_ID
  have h2 := keepsAddress_delay (sendCommand self WAKE_UP_CMD_ID).drv 2
  have h3 := keepsAddress_sendCommand
    { (sendCommand self WAKE_UP_CMD_ID).drv with
      i2c := (sendCommand self WAKE_UP_CMD_ID).drv.i2c.delay 2 } REINIT_CMD_ID
  have h4 := keepsAddress_delay (sendCommand
    { (sendCommand self WAKE_UP_CMD_ID).drv with
      i2c := (sendCommand self WAKE_UP_CMD_ID).drv.i2c.delay 2 } REINIT_CMD_ID).drv 20
  have h5 := keepsAddress_readSerialNumber
    { (sendCommand { (sendCommand self WAKE_UP_CMD_ID).drv with
          i2c := (sendCommand self WAKE_UP_CMD_ID).drv.i2c.delay 2 } REINIT_CMD_ID).drv with
      i2c := (sendCommand { (sendCommand self WAKE_UP_CMD_ID).drv with
          i2c := (sendCommand self WAKE_UP_CMD_ID).drv.i2c.delay 2 }
        REINIT_CMD_ID).drv.i2c.delay 20 } 0
  have hall := keepsAddress_trans _ _ _ h1 (keepsAddress_trans _ _ _ h2
    (keepsAddress_trans _ _ _ h3 (keepsAddress_trans _ _ _ h4 h5)))
  unfold begin wakeUp reInit
  simp only
  split <;> exact hall

/-- Every public call keeps the address and talks only to it. -/
theorem keepsAddress_run (call : Call) (self : Driver) : keepsAddress self (call.run self) := by
  cases call with
  | begin => exact keepsAddress_begin self
  | startPeriodicMeasurement => exact keepsAddress_sendCommand self _
  | startLowPowerPeriodicMeasurement => exact keepsAddress_sendCommand self _
  | stopPeriodicMeasurement => exact keepsAddress_sendCommand self _
  | getDataReadyStatus v => exact keepsAddress_readWord self _ v
  | readMeasurement m => exact keepsAddress_readMeasurement self m
  | measureSingleShot => exact keepsAddress_sendCommand self _
  | measureSingleShotRhtOnly => exact keepsAddress_sendCommand self _
  | setTemperatureOffset degC => exact keepsAddress_txCommand self _ _
  | getTemperatureOffset degC => exact keepsAddress_getTemperatureOffset self degC
  | setSensorAltitude v => exact keepsAddress_txCommand self _ _
  | getSensorAltitude v => exact keepsAddress_readWord self _ v
  | setAmbientPressureRaw v => exact keepsAddress_txCommand self _ _
  | getAmbientPressureRaw v => exact keepsAddress_readWord self _ v
  | setAutomaticSelfCalibrationEnabled b => exact keepsAddress_txCommand self _ _
  | getAutomaticSelfCalibrationEnabled b =>
    exact keepsAddress_getAutomaticSelfCalibrationEnabled self b
  | setAutomaticSelfCalibrationTarget v => exact keepsAddress_txCommand self _ _
  | getAutomaticSelfCalibrationTarget v => exact keepsAddress_readWord self _ v
  | setAutomaticSelfCalibrationInitialPeriod v => exact keepsAddress_txCommand self _ _
  | getAutomaticSelfCalibrationInitialPeriod v => exact keepsAddress_readWord self _ v
  | setAutomaticSelfCalibrationStandardPeriod v => exact keepsAddress_txCommand self _ _
  | getAutomaticSelfCalibrationStandardPeriod v => exact keepsAddress_readWord self _ v
  | performForcedRecalibration r f => exact keepsAddress_performForcedRecalibration self r f
  | persistSettings => exact keepsAddress_sendCommand self _
  | readSerialNumber sn => exact keepsAddress_readSerialNumber self sn
  | getSensorVariantRaw v => exact keepsAddress_readWord self _ v
  | performSelfTest v => exact keepsAddress_readWord self _ v
  | factoryReset => exact keepsAddress_sendCommand self _
  | reInit => exact keepsAddress_sendCommand self _
  | powerDown => exact keepsAddress_sendCommand self _
  | wakeUp => exact keepsAddress_sendCommand self _

theorem keepsAddress_runCalls (calls : List Call) : ∀ self : Driver,
    keepsAddress self (runCalls self calls) := by
  induction calls with
  | nil => intro self; exact keepsAddress_refl self
  | cons c cs ih =>
    intro self
    exact keepsAddress_trans _ _ _ (keepsAddress_run c self) (ih (c.run self))

/-! ## Lemmas on binary32 rounding -/

theorem roundHalfEven_error (y : ℚ) : |((roundHalfEven y : ℤ) : ℚ) - y| ≤ 1 / 2 := by
  have h1 : ((⌊y⌋ : ℤ) : ℚ) ≤ y := Int.floor_le y
  have h2 : y < ((⌊y⌋ : ℤ) : ℚ) + 1 := Int.lt_floor_add_one y
  unfold roundHalfEven
  split
  · rw [abs_le]; constructor <;> linarith
  · split
    · rw [abs_le]; push_cast; constructor <;> linarith
    · have h3 : y - ((⌊y⌋ : ℤ) : ℚ) = 1 / 2 := by
        rename_i ha hb
        linarith [not_lt.mp ha, not_lt.mp hb]
      split
      · rw [abs_le]; constructor <;> linarith
      · rw [abs_le]; push_cast; constructor <;> linarith

/-- A rational within less than a half of an integer rounds to it. -/
theorem roundHalfEven_eq_of_near (y : ℚ) (k : ℤ) (h : |y - (k : ℚ)| < 1 / 2) :
    roundHalfEven y = k := by
  rw [abs_lt] at h
  by_cases hk : (k : ℚ) ≤ y
  · have hf : ⌊y⌋ = k := by
      rw [Int.floor_eq_iff]
      constructor
      · exact hk
      · linarith
    unfold roundHalfEven
    rw [hf, if_pos (by linarith)]
  · have hf : ⌊y⌋ = k - 1 := by
      rw [Int.floor_eq_iff]
      push_cast
      constructor <;> linarith
    unfold roundHalfEven
    rw [hf]
    push_cast
    rw [if_neg (by linarith), if_pos (by linarith)]
    ring

theorem roundHalfEven_intCast (k : ℤ) : roundHalfEven (k : ℚ) = k :=
  roundHalfEven_eq_of_near _ k (by simp)

theorem two_zpow_pos (e : ℤ) : (0 : ℚ) < (2 : ℚ) ^ e := zpow_pos (by norm_num) e

/-- The rounding error is at most half a unit in the last place. -/
theorem roundF32_error (x : ℚ) : |roundF32 x - x| ≤ (2 : ℚ) ^ ulpExp x / 2 := by
  have hu := two_zpow_pos (ulpExp x)
  unfold roundF32
  split
  · rename_i h0
    rw [h0]
    simp only [sub_self, abs_zero]
    exact le_of_lt (by positivity)
  · have he := roundHalfEven_error (x / (2 : ℚ) ^ ulpExp x)
    have hx : x = x / (2 : ℚ) ^ ulpExp x * (2 : ℚ) ^ ulpExp x := by
      field_simp
    have e1 : ((roundHalfEven (x / (2 : ℚ) ^ ulpExp x) : ℤ) : ℚ) * (2 : ℚ) ^ ulpExp x - x
        = (((roundHalfEven (x / (2 : ℚ) ^ ulpExp x) : ℤ) : ℚ) - x / (2 : ℚ) ^ ulpExp x)
            * (2 : ℚ) ^ ulpExp x := by
      field_simp
    rw [e1, abs_mul, abs_of_pos hu]
    calc |((roundHalfEven (x / (2 : ℚ) ^ ulpExp x) : ℤ) : ℚ) - x / (2 : ℚ) ^ ulpExp x|
            * (2 : ℚ) ^ ulpExp x
        ≤ 1 / 2 * (2 : ℚ) ^ ulpExp x := mul_le_mul_of_nonneg_right he (le_of_lt hu)
      _ = (2 : ℚ) ^ ulpExp x / 2 := by ring

/-- The unit in the last place of a value below `2 ^ B` in magnitude. -/
theorem ulpExp_le (x : ℚ) (hx : x ≠ 0) (B : ℤ) (hB : -125 ≤ B) (h : |x| < (2 : ℚ) ^ B) :
    ulpExp x ≤ B - 24 := by
  have hpos : 0 < |x| := abs_pos.mpr hx
  have hlog : Int.log 2 |x| < B := by
    have := (Int.lt_zpow_iff_log_lt (b := 2) (by norm_num) (x := B) hpos).mp
      (by exact_mod_cast h)
    exact this
  unfold ulpExp
  omega

/-- The rounding error of a value below `2 ^ B` in magnitude. -/
theorem roundF32_error_of_lt (x : ℚ) (B : ℤ) (hB : -125 ≤ B) (h : |x| < (2 : ℚ) ^ B) :
    |roundF32 x - x| ≤ (2 : ℚ) ^ (B - 25) := by
  by_cases hx : x = 0
  · rw [hx]
    simp only [roundF32, if_true, sub_self, abs_zero]
    exact le_of_lt (two_zpow_pos _)
  · have h1 := roundF32_error x
    have h2 := ulpExp_le x hx B hB h
    have h3 : (2 : ℚ) ^ ulpExp x ≤ (2 : ℚ) ^ (B - 24) :=
      zpow_le_zpow_right₀ (by norm_num) h2
    have h4 : (2 : ℚ) ^ (B - 24) = 2 * (2 : ℚ) ^ (B - 25) := by
      rw [show B - 24 = (B - 25) + 1 by ring, zpow_add_one₀ (by norm_num)]
      ring
    linarith

/-- The binade of a value. -/
theorem ulpExp_eq (x : ℚ) (e : ℤ) (he : -126 ≤ e) (hlo : (2 : ℚ) ^ e ≤ |x|)
    (hhi : |x| < (2 : ℚ) ^ (e + 1)) : ulpExp x = e - 23 := by
  have hpos : 0 < |x| := lt_of_lt_of_le (two_zpow_pos e) hlo
  have h1 : e ≤ Int.log 2 |x| :=
    (Int.zpow_le_iff_le_log (b := 2) (by norm_num) (x := e) hpos).mp (by exact_mod_cast hlo)
  have h2 : Int.log 2 |x| < e + 1 :=
    (Int.lt_zpow_iff_log_lt (b := 2) (by norm_num) (x := e + 1) hpos).mp (by exact_mod_cast hhi)
  unfold ulpExp
  omega

/-- Evaluation of a rounding: binade `e`, nearest multiple `k`. -/
theorem roundF32_eq (x : ℚ) (e k : ℤ) (he : -126 ≤ e) (hlo : (2 : ℚ) ^ e ≤ |x|)
    (hhi : |x| < (2 : ℚ) ^ (e + 1))
    (hk : |x / (2 : ℚ) ^ (e - 23) - (k : ℚ)| < 1 / 2) :
    roundF32 x = (k : ℚ) * (2 : ℚ) ^ (e - 23) := by
  have hpos : 0 < |x| := lt_of_lt_of_le (two_zpow_pos e) hlo
  have hx : x ≠ 0 := abs_pos.mp hpos
  unfold roundF32
  rw [if_neg hx, ulpExp_eq x e he hlo hhi, roundHalfEven_eq_of_near _ k hk]

/-- A natural number below `2 ^ 24` is a binary32 value. -/
theorem roundF32_natCast (n : Nat) (h : n < 2 ^ 24) : roundF32 (n : ℚ) = n := by
  by_cases h0 : n = 0
  · subst h0
    simp [roundF32]
  · have hn : (0 : ℚ) < (n : ℚ) := by exact_mod_cast Nat.pos_of_ne_zero h0
    have habs : |(n : ℚ)| = n := abs_of_pos hn
    have hlog0 : 0 ≤ Int.log 2 |(n : ℚ)| := by
      rw [habs]
      apply (Int.zpow_le_iff_le_log (b := 2) (by norm_num) (x := 0) hn).mp
      have : (1 : ℚ) ≤ n := by exact_mod_cast Nat.pos_of_ne_zero h0
      simpa using this
    have hlog1 : Int.log 2 |(n : ℚ)| < 24 := by
      rw [habs]
      apply (Int.lt_zpow_iff_log_lt (b := 2) (by norm_num) (x := 24) hn).mp
      have h24 : (n : ℚ) < 2 ^ 24 := by exact_mod_cast h
      have e24 : ((2 : Nat) : ℚ) ^ (24 : ℤ) = 2 ^ 24 := by norm_num
      rw [e24]
      exact h24
    obtain ⟨j, hj⟩ : ∃ j : Nat, (j : ℤ) = 23 - Int.log 2 |(n : ℚ)| :=
      ⟨(23 - Int.log 2 |(n : ℚ)|).toNat, by omega⟩
    have hu : ulpExp (n : ℚ) = -(j : ℤ) := by
      unfold ulpExp
      omega
    have hz : (2 : ℚ) ^ (-(j : ℤ)) = ((2 : ℚ) ^ j)⁻¹ := by
      rw [zpow_neg, zpow_natCast]
    have hp : (0 : ℚ) < (2 : ℚ) ^ j := by positivity
    have hy : (n : ℚ) / ((2 : ℚ) ^ j)⁻¹ = (((n * 2 ^ j : Nat) : ℤ) : ℚ) := by
      push_cast
      field_simp
    unfold roundF32
    rw [if_neg (ne_of_gt hn), hu, hz, hy, roundHalfEven_intCast]
    push_cast
    field_simp

theorem tempF32_zero : tempF32 0 = -45 := by
  unfold tempF32
  have h0 : roundF32 (175 * ((0 : Nat) : ℚ)) = 0 := by simp [roundF32]
  have h1 : roundF32 ((0 : ℚ) / 65535) = 0 := by simp [roundF32]
  rw [h0, h1, add_zero, roundF32_eq (-45) 5 (-45 * 2 ^ 18) (by norm_num)]
  · norm_num
  · norm_num [abs_of_neg]
  · norm_num [abs_of_neg]
  · norm_num

theorem rhF32_zero : rhF32 0 = 0 := by
  unfold rhF32
  have h0 : roundF32 (100 * ((0 : Nat) : ℚ)) = 0 := by simp [roundF32]
  have h1 : roundF32 ((0 : ℚ) / 65535) = 0 := by simp [roundF32]
  rw [h0, h1]

theorem tempF32_max : tempF32 65535 = 130 := by
  unfold tempF32
  have h0 : roundF32 (175 * ((65535 : Nat) : ℚ)) = ((11468625 : Nat) : ℚ) := by
    rw [show (175 : ℚ) * ((65535 : Nat) : ℚ) = ((11468625 : Nat) : ℚ) by norm_num]
    exact roundF32_natCast _ (by norm_num)
  have h1 : roundF32 (((11468625 : Nat) : ℚ) / 65535) = ((175 : Nat) : ℚ) := by
    rw [show ((11468625 : Nat) : ℚ) / 65535 = ((175 : Nat) : ℚ) by norm_num]
    exact roundF32_natCast _ (by norm_num)
  have h2 : roundF32 (-45 + ((175 : Nat) : ℚ)) = ((130 : Nat) : ℚ) := by
    rw [show (-45 : ℚ) + ((175 : Nat) : ℚ) = ((130 : Nat) : ℚ) by norm_num]
    exact roundF32_natCast _ (by norm_num)
  rw [h0, h1, h2]
  norm_num

theorem rhF32_max : rhF32 65535 = 100 := by
  unfold rhF32
  have h0 : roundF32 (100 * ((65535 : Nat) : ℚ)) = ((6553500 : Nat) : ℚ) := by
    rw [show (100 : ℚ) * ((65535 : Nat) : ℚ) = ((6553500 : Nat) : ℚ) by norm_num]
    exact roundF32_natCast _ (by norm_num)
  have h1 : roundF32 (((6553500 : Nat) : ℚ) / 65535) = ((100 : Nat) : ℚ) := by
    rw [show ((6553500 : Nat) : ℚ) / 65535 = ((100 : Nat) : ℚ) by norm_num]
    exact roundF32_natCast _ (by norm_num)
  rw [h0, h1]
  norm_num

/-- The temperature the code computes for the raw word `0xBEEF`. -/
theorem tempF32_beef : tempF32 0xBEEF = 1401209 / 16384 := by
  unfold tempF32
  have h0 : roundF32 (175 * ((0xBEEF : Nat) : ℚ)) = ((8553825 : Nat) : ℚ) := by
    rw [show (175 : ℚ) * ((0xBEEF : Nat) : ℚ) = ((8553825 : Nat) : ℚ) by norm_num]
    exact roundF32_natCast _ (by norm_num)
  have h1 : roundF32 (((8553825 : Nat) : ℚ) / 65535) = 8553956 / 65536 := by
    rw [roundF32_eq _ 7 8553956 (by norm_num)]
    · norm_num
    · rw [abs_of_pos (by norm_num)]; norm_num
    · rw [abs_of_pos (by norm_num)]; norm_num
    · norm_num [abs_lt]
  have h2 : roundF32 (-45 + 8553956 / 65536) = 1401209 / 16384 := by
    rw [roundF32_eq _ 6 11209672 (by norm_num)]
    · norm_num
    · rw [abs_of_pos (by norm_num)]; norm_num
    · rw [abs_of_pos (by norm_num)]; norm_num
    · norm_num [abs_lt]
  rw [h0, h1, h2]

/-- The binary32 temperature is within `2 ^ -16` of the exact formula. -/
theorem tempF32_error (t : Nat) (ht : t < 65536) :
    |tempF32 t - (-45 + 175 * (t : ℚ) / 65535)| ≤ 1 / 65536 := by
  unfold tempF32
  have htq : (t : ℚ) ≤ 65535 := by exact_mod_cast Nat.le_of_lt_succ ht
  have ht0 : (0 : ℚ) ≤ (t : ℚ) := Nat.cast_nonneg t
  have h0 : roundF32 (175 * (t : ℚ)) = 175 * (t : ℚ) := by
    have := roundF32_natCast (175 * t) (by omega)
    push_cast at this
    exact this
  rw [h0]
  have hx2 : |175 * (t : ℚ) / 65535| < (2 : ℚ) ^ (8 : ℤ) := by
    rw [abs_of_nonneg (by positivity)]
    have : 175 * (t : ℚ) / 65535 ≤ 175 := by
      rw [div_le_iff₀ (by norm_num)]; linarith
    norm_num
    linarith
  have e2 := roundF32_error_of_lt _ 8 (by norm_num) hx2
  have e2' : |roundF32 (175 * (t : ℚ) / 65535) - 175 * (t : ℚ) / 65535| ≤ 1 / 131072 := by
    have : (2 : ℚ) ^ ((8 : ℤ) - 25) = 1 / 131072 := by norm_num
    rw [this] at e2
    exact e2
  have hq := abs_le.mp e2'
  have hxnn : (0 : ℚ) ≤ 175 * (t : ℚ) / 65535 := by positivity
  have hxle : 175 * (t : ℚ) / 65535 ≤ 175 := by
    rw [div_le_iff₀ (by norm_num)]; linarith
  have hx3 : |(-45 : ℚ) + roundF32 (175 * (t : ℚ) / 65535)| < (2 : ℚ) ^ (8 : ℤ) := by
    rw [abs_lt]
    norm_num
    constructor <;> linarith [hq.1, hq.2]
  have e3 := roundF32_error_of_lt _ 8 (by norm_num) hx3
  have e3' : |roundF32 (-45 + roundF32 (175 * (t : ℚ) / 65535))
      - (-45 + roundF32 (175 * (t : ℚ) / 65535))| ≤ 1 / 131072 := by
    have : (2 : ℚ) ^ ((8 : ℤ) - 25) = 1 / 131072 := by norm_num
    rw [this] at e3
    exact e3
  have hs := abs_le.mp e3'
  rw [abs_le]
  constructor <;> linarith [hq.1, hq.2, hs.1, hs.2]

/-- The binary32 humidity is within `2 ^ -18` of the exact formula. -/
theorem rhF32_error (r : Nat) (hr : r < 65536) :
    |rhF32 r - 100 * (r : ℚ) / 65535| ≤ 1 / 262144 := by
  unfold rhF32
  have hrq : (r : ℚ) ≤ 65535 := by exact_mod_cast Nat.le_of_lt_succ hr
  have hr0 : (0 : ℚ) ≤ (r : ℚ) := Nat.cast_nonneg r
  have h0 : roundF32 (100 * (r : ℚ)) = 100 * (r : ℚ) := by
    have := roundF32_natCast (100 * r) (by omega)
    push_cast at this
    exact this
  rw [h0]
  have hx2 : |100 * (r : ℚ) / 65535| < (2 : ℚ) ^ (7 : ℤ) := by
    rw [abs_of_nonneg (by positivity)]
    have : 100 * (r : ℚ) / 65535 ≤ 100 := by
      rw [div_le_iff₀ (by norm_num)]; linarith
    norm_num
    linarith
  have e2 := roundF32_error_of_lt _ 7 (by norm_num) hx2
  have : (2 : ℚ) ^ ((7 : ℤ) - 25) = 1 / 262144 := by norm_num
  rw [this] at e2
  exact e2

/-! ## Lemmas on the binary32 measurement read -/

theorem readMeasurementF32_of_nack (self : Driver) (m : Measurement)
    (h : commandStatus self READ_MEASUREMENT_RAW_CMD_ID ≠ 0) :
    readMeasurementF32 self m =
      { ok := false, drv := (sendCommand self READ_MEASUREMENT_RAW_CMD_ID).drv, out := m } := by
  have hs : (sendCommand self READ_MEASUREMENT_RAW_CMD_ID).ok = false := by
    rw [sendCommand_ok]; simpa using h
  simp [readMeasurementF32, hs]

theorem readMeasurementF32_of_short (self : Driver) (m : Measurement)
    (h : commandStatus self READ_MEASUREMENT_RAW_CMD_ID = 0)
    (hlen : (response self READ_MEASUREMENT_RAW_CMD_ID 9).length ≠ 9) :
    readMeasurementF32 self m =
      { ok := false,
        drv := { (sendCommand self READ_MEASUREMENT_RAW_CMD_ID).drv with
                   i2c := busAfterRequest self READ_MEASUREMENT_RAW_CMD_ID 9 },
        out := m } := by
  have hs : (sendCommand self READ_MEASUREMENT_RAW_CMD_ID).ok = true := by
    rw [sendCommand_ok]; simpa using h
  have ha : (busAfterRequest self READ_MEASUREMENT_RAW_CMD_ID 9).available ≠ 9 := by
    unfold TwoWire.available
    rw [busAfterRequest_rxBuffer]
    exact_mod_cast hlen
  unfold busAfterRequest at ha
  simp only [readMeasurementF32, hs, sendCommand_address]
  simp only [Bool.not_true, Bool.false_eq_true, if_false]
  rw [if_pos ha]
  rfl

theorem readMeasurementF32_of_full (self : Driver) (m : Measurement)
    (h : commandStatus self READ_MEASUREMENT_RAW_CMD_ID = 0)
    (hlen : (response self READ_MEASUREMENT_RAW_CMD_ID 9).length = 9) :
    readMeasurementF32 self m =
      if groupOk (response self READ_MEASUREMENT_RAW_CMD_ID 9) 0
          ∧ groupOk (response self READ_MEASUREMENT_RAW_CMD_ID 9) 1
          ∧ groupOk (response self READ_MEASUREMENT_RAW_CMD_ID 9) 2 then
        { ok := true,
          drv := { (sendCommand self READ_MEASUREMENT_RAW_CMD_ID).drv with
                     i2c := { busAfterRequest self READ_MEASUREMENT_RAW_CMD_ID 9 with
                                rxBuffer := [] } },
          out := { co2_ppm := groupWord (response self READ_MEASUREMENT_RAW_CMD_ID 9) 0,
                   temp_c := tempF32 (groupWord (response self READ_MEASUREMENT_RAW_CMD_ID 9) 1),
                   rh_percent :=
                     rhF32 (groupWord (response self READ_MEASUREMENT_RAW_CMD_ID 9) 2) } }
      else
        { ok := false,
          drv := { (sendCommand self READ_MEASUREMENT_RAW_CMD_ID).drv with
                     i2c := { busAfterRequest self READ_MEASUREMENT_RAW_CMD_ID 9 with
                                rxBuffer := [] } },
          out := m } := by
  have hs : (sendCommand self READ_MEASUREMENT_RAW_CMD_ID).ok = true := by
    rw [sendCommand_ok]; simpa using h
  have hb : (busAfterRequest self READ_MEASUREMENT_RAW_CMD_ID 9).rxBuffer.length = 9 := by
    rw [busAfterRequest_rxBuffer]; exact hlen
  have ha : ¬ (busAfterRequest self READ_MEASUREMENT_RAW_CMD_ID 9).available ≠ 9 := by
    unfold TwoWire.available
    simp [hb]
  have hr := readRawLoop_nine _ hb
  rw [busAfterRequest_rxBuffer] at hr
  unfold busAfterRequest at ha hr
  simp only [readMeasurementF32, hs, sendCommand_address]
  simp only [Bool.not_true, Bool.false_eq_true, if_false]
  rw [if_neg ha, hr]
  simp only
  rw [checkCrc_raw _ 0 (by decide) 0 rfl, checkCrc_raw _ 1 (by decide) 3 rfl,
    checkCrc_raw _ 2 (by decide) 6 rfl]
  by_cases g0 : groupOk (response self READ_MEASUREMENT_RAW_CMD_ID 9) 0 <;>
  by_cases g1 : groupOk (response self READ_MEASUREMENT_RAW_CMD_ID 9) 1 <;>
  by_cases g2 : groupOk (response self READ_MEASUREMENT_RAW_CMD_ID 9) 2 <;>
  simp [g0, g1, g2, busAfterRequest, tempF32, rhF32]

/-- When `readMeasurementF32` succeeds. -/
theorem readMeasurementF32_ok (self : Driver) (m : Measurement) :
    (readMeasurementF32 self m).ok = true ↔
      commandStatus self READ_MEASUREMENT_RAW_CMD_ID = 0
      ∧ (response self READ_MEASUREMENT_RAW_CMD_ID 9).length = 9
      ∧ groupOk (response self READ_MEASUREMENT_RAW_CMD_ID 9) 0
      ∧ groupOk (response self READ_MEASUREMENT_RAW_CMD_ID 9) 1
      ∧ groupOk (response self READ_MEASUREMENT_RAW_CMD_ID 9) 2 := by
  by_cases hst : commandStatus self READ_MEASUREMENT_RAW_CMD_ID = 0
  · by_cases hlen : (response self READ_MEASUREMENT_RAW_CMD_ID 9).length = 9
    · rw [readMeasurementF32_of_full self m hst hlen]
      split
      · rename_i h; simp [hst, hlen, h]
      · rename_i h
        constructor
        · intro h2; simp at h2
        · intro h2; exact absurd h2.2.2 h
    · rw [readMeasurementF32_of_short self m hst hlen]
      simp [hlen]
  · rw [readMeasurementF32_of_nack self m hst]
    simp [hst]

/-- What `readMeasurementF32` stores when it succeeds. -/
theorem readMeasurementF32_out_of_ok (self : Driver) (m : Measurement)
    (hok : (readMeasurementF32 self m).ok = true) :
    (readMeasurementF32 self m).out =
      { co2_ppm := groupWord (response self READ_MEASUREMENT_RAW_CMD_ID 9) 0,
        temp_c := tempF32 (groupWord (response self READ_MEASUREMENT_RAW_CMD_ID 9) 1),
        rh_percent := rhF32 (groupWord (response self READ_MEASUREMENT_RAW_CMD_ID 9) 2) } := by
  have h := (readMeasurementF32_ok self m).mp hok
  rw [readMeasurementF32_of_full self m h.1 h.2.1, if_pos h.2.2]

/-- The binary32 version of `readMeasurement` returns the same value, leaves
the same driver and stores the same `co2_ppm` as the one with exact
conversions, and like it leaves the outputs alone when it fails. -/
theorem readMeasurementF32_agrees (self : Driver) (m : Measurement) :
    (readMeasurementF32 self m).ok = (readMeasurement self m).ok
    ∧ (readMeasurementF32 self m).drv = (readMeasurement self m).drv
    ∧ (readMeasurementF32 self m).out.co2_ppm = (readMeasurement self m).out.co2_ppm
    ∧ ((readMeasurementF32 self m).ok = false → (readMeasurementF32 self m).out = m) := by
  by_cases hst : commandStatus self READ_MEASUREMENT_RAW_CMD_ID = 0
  · by_cases hlen : (response self READ_MEASUREMENT_RAW_CMD_ID 9).length = 9
    · rw [readMeasurementF32_of_full self m hst hlen, readMeasurement_of_full self m hst hlen]
      split
      · exact ⟨rfl, rfl, rfl, fun h => by simp at h⟩
      · exact ⟨rfl, rfl, rfl, fun _ => rfl⟩
    · rw [readMeasurementF32_of_short self m hst hlen, readMeasurement_of_short self m hst hlen]
      exact ⟨rfl, rfl, rfl, fun _ => rfl⟩
  · rw [readMeasurementF32_of_nack self m hst, readMeasurement_of_nack self m hst]
    exact ⟨rfl, rfl, rfl, fun _ => rfl⟩

/-! ## Lemmas on the command an operation issues -/

theorem beginsWithCommand_txCommand (self : Driver) (cmd : Nat) (words : List Nat) :
    beginsWithCommand cmd self (txCommand self cmd words).drv := by
  rw [txCommand_eq]
  exact ⟨_, [], rfl⟩

theorem beginsWithCommand_sendCommand (self : Driver) (cmd : Nat) :
    beginsWithCommand cmd self (sendCommand self cmd).drv :=
  beginsWithCommand_txCommand self cmd []

theorem beginsWithCommand_historyAfterRequest (self : Driver) (cmd q : Nat) :
    ∃ payload : List Nat, ∃ rest : List BusEvent,
      historyAfterRequest self cmd q
        = self.i2c.history
            ++ BusEvent.transmission self.address (cmdBytes cmd ++ payload) :: rest :=
  ⟨[], [BusEvent.delay 1, BusEvent.requestFrom self.address q], by
    simp [historyAfterRequest, historyAfterCommand]⟩

theorem beginsWithCommand_readNData (self : Driver) (cmd : Nat) (out : Nat → Nat) (n : Nat) :
    beginsWithCommand cmd self (readNData self cmd out n).drv := by
  by_cases hst : commandStatus self cmd = 0
  · unfold beginsWithCommand
    rw [readNData_history self cmd out n hst]
    exact beginsWithCommand_historyAfterRequest self cmd _
  · rw [readNData_of_nack self cmd out n hst]
    exact beginsWithCommand_sendCommand self cmd

theorem beginsWithCommand_readWord (self : Driver) (cmd v : Nat) :
    beginsWithCommand cmd self (readWord self cmd v).drv :=
  beginsWithCommand_readNData self cmd _ 1

theorem beginsWithCommand_readMeasurement (self : Driver) (m : Measurement) :
    beginsWithCommand READ_MEASUREMENT_RAW_CMD_ID self (readMeasurement self m).drv := by
  by_cases hst : commandStatus self READ_MEASUREMENT_RAW_CMD_ID = 0
  · unfold beginsWithCommand
    rw [readMeasurement_history self m hst]
    exact beginsWithCommand_historyAfterRequest self _ _
  · rw [readMeasurement_of_nack self m hst]
    exact beginsWithCommand_sendCommand self _

theorem beginsWithCommand_readSerialNumber (self : Driver) (sn : Nat) :
    beginsWithCommand GET_SERIAL_NUMBER_CMD_ID self (readSerialNumber self sn).drv := by
  by_cases hst : commandStatus self GET_SERIAL_NUMBER_CMD_ID = 0
  · unfold beginsWithCommand
    rw [readSerialNumber_history self sn hst]
    exact beginsWithCommand_historyAfterRequest self _ _
  · rw [readSerialNumber_of_nack self sn hst]
    exact beginsWithCommand_sendCommand self _

theorem beginsWithCommand_getTemperatureOffset (self : Driver) (degC : ℚ) :
    beginsWithCommand GET_TEMPERATURE_OFFSET_RAW_CMD_ID self
      (getTemperatureOffset self degC).drv := by
  have h : (getTemperatureOffset self degC).drv
      = (readWord self GET_TEMPERATURE_OFFSET_RAW_CMD_ID 0).drv := by
    unfold getTemperatureOffset
    simp only
    split <;> rfl
  rw [h]
  exact beginsWithCommand_readWord self _ 0

theorem beginsWithCommand_getAutomaticSelfCalibrationEnabled (self : Driver) (enabled : Bool) :
    beginsWithCommand GET_AUTOMATIC_SELF_CALIBRATION_ENABLED_CMD_ID self
      (getAutomaticSelfCalibrationEnabled self enabled).drv := by
  have h : (getAutomaticSelfCalibrationEnabled self enabled).drv
      = (readWord self GET_AUTOMATIC_SELF_CALIBRATION_ENABLED_CMD_ID 0).drv := by
    unfold getAutomaticSelfCalibrationEnabled
    simp only
    split <;> rfl
  rw [h]
  exact beginsWithCommand_readWord self _ 0

/-- Traffic that begins with a command still does after more traffic. -/
theorem beginsWithCommand_of_keepsAddress (cmd : Nat) (a b c : Driver)
    (h1 : beginsWithCommand cmd a b) (h2 : keepsAddress b c) : beginsWithCommand cmd a c := by
  obtain ⟨payload, rest, hb⟩ := h1
  obtain ⟨_, es, hc, _⟩ := h2
  exact ⟨payload, rest ++ es, by rw [hc, hb]; simp⟩

theorem beginsWithCommand_performForcedRecalibration (self : Driver) (ref : Nat)
    (frc_result : Option Nat) :
    beginsWithCommand PERFORM_FORCED_RECALIBRATION_CMD_ID self
      (performForcedRecalibration self ref frc_result).drv := by
  have hw := beginsWithCommand_txCommand self PERFORM_FORCED_RECALIBRATION_CMD_ID [ref]
  unfold performForcedRecalibration
  simp only
  split
  · exact hw
  · cases frc_result with
    | none => exact hw
    | some v =>
      have hd := keepsAddress_delay
        (writeCommand self PERFORM_FORCED_RECALIBRATION_CMD_ID [ref]).drv 1
      have hr := keepsAddress_readWord
        { (writeCommand self PERFORM_FORCED_RECALIBRATION_CMD_ID [ref]).drv with
          i2c := (writeCommand self PERFORM_FORCED_RECALIBRATION_CMD_ID [ref]).drv.i2c.delay 1 }
        PERFORM_FORCED_RECALIBRATION_CMD_ID v
      have hall := beginsWithCommand_of_keepsAddress _ _ _ _ hw
        (keepsAddress_trans _ _ _ hd hr)
      simp only
      split <;> exact hall

/-- Every call of a member function that names a command identifier begins
its bus traffic with a transmission of that command. -/
theorem beginsWithCommand_run (call : Call) (self : Driver) (cmd : Nat)
    (h : call.operation.commandId = some cmd) :
    beginsWithCommand cmd self (call.run self) := by
  cases call <;> simp only [Call.operation, Operation.commandId, Option.some.injEq] at h
    <;> try subst h
  case begin => exact absurd h (by simp)
  case startPeriodicMeasurement => exact beginsWithCommand_sendCommand self _
  case startLowPowerPeriodicMeasurement => exact beginsWithCommand_sendCommand self _
  case stopPeriodicMeasurement => exact beginsWithCommand_sendCommand self _
  case getDataReadyStatus v => exact beginsWithCommand_readWord self _ v
  case readMeasurement m => exact beginsWithCommand_readMeasurement self m
  case measureSingleShot => exact beginsWithCommand_sendCommand self _
  case measureSingleShotRhtOnly => exact beginsWithCommand_sendCommand self _
  case setTemperatureOffset degC => exact beginsWithCommand_txCommand self _ _
  case getTemperatureOffset degC => exact beginsWithCommand_getTemperatureOffset self degC
  case setSensorAltitude v => exact beginsWithCommand_txCommand self _ _
  case getSensorAltitude v => exact beginsWithCommand_readWord self _ v
  case setAmbientPressureRaw v => exact beginsWithCommand_txCommand self _ _
  case getAmbientPressureRaw v => exact beginsWithCommand_readWord self _ v
  case setAutomaticSelfCalibrationEnabled b => exact beginsWithCommand_txCommand self _ _
  case getAutomaticSelfCalibrationEnabled b =>
    exact beginsWithCommand_getAutomaticSelfCalibrationEnabled self b
  case setAutomaticSelfCalibrationTarget v => exact beginsWithCommand_txCommand self _ _
  case getAutomaticSelfCalibrationTarget v => exact beginsWithCommand_readWord self _ v
  case setAutomaticSelfCalibrationInitialPeriod v => exact beginsWithCommand_txCommand self _ _
  case getAutomaticSelfCalibrationInitialPeriod v => exact beginsWithCommand_readWord self _ v
  case setAutomaticSelfCalibrationStandardPeriod v => exact beginsWithCommand_txCommand self _ _
  case getAutomaticSelfCalibrationStandardPeriod v => exact beginsWithCommand_readWord self _ v
  case performForcedRecalibration r f =>
    exact beginsWithCommand_performForcedRecalibration self r f
  case persistSettings => exact beginsWithCommand_sendCommand self _
  case readSerialNumber sn => exact beginsWithCommand_readSerialNumber self sn
  case getSensorVariantRaw v => exact beginsWithCommand_readWord self _ v
  case performSelfTest v => exact beginsWithCommand_readWord self _ v
  case factoryReset => exact beginsWithCommand_sendCommand self _
  case reInit => exact beginsWithCommand_sendCommand self _
  case powerDown => exact beginsWithCommand_sendCommand self _
  case wakeUp => exact beginsWithCommand_sendCommand self _

theorem commandId_mem_commandTable (o : Operation) (cmd : Nat)
    (h : o.commandId = some cmd) : cmd ∈ commandTable := by
  cases o <;> simp only [Operation.commandId, Option.some.injEq] at h <;> try subst h
  case begin => exact absurd h (by simp)
  all_goals decide

theorem commandTable_lt (cmd : Nat) (h : cmd ∈ commandTable) : cmd < 65536 := by
  revert cmd
  decide

/-- The driver `begin` leaves behind is the one `readSerialNumber` leaves
behind after the wake-up and re-initialisation commands. -/
theorem begin_drv (self : Driver) :
    (begin self).drv = (readSerialNumber (beginReadStart self) 0).drv := by
  have hw : cmdBytes WAKE_UP_CMD_ID = [0x36, 0xF6] := by decide
  have hr : cmdBytes REINIT_CMD_ID = [0x36, 0x46] := by decide
  have hstart : ({ ((reInit { (wakeUp self).drv with
                      i2c := (wakeUp self).drv.i2c.delay 2 }).drv) with
                    i2c := (reInit { (wakeUp self).drv with
                      i2c := (wakeUp self).drv.i2c.delay 2 }).drv.i2c.delay 20 } : Driver)
      = beginReadStart self := by
    unfold wakeUp reInit
    simp only [sendCommand_eq, historyAfterCommand, hw, hr, TwoWire.delay, List.append_assoc,
      List.cons_append, List.nil_append, beginReadStart]
  unfold begin
  simp only [hstart]
  split <;> rfl

/-- The traffic of `begin`: wake-up, 2 ms, re-initialisation, 20 ms, and then
the serial-number command. -/
theorem begin_history (self : Driver) :
    ∃ rest : List BusEvent,
      (begin self).drv.i2c.history
        = self.i2c.history
            ++ BusEvent.transmission self.address [0x36, 0xF6] :: BusEvent.delay 2
              :: BusEvent.transmission self.address [0x36, 0x46] :: BusEvent.delay 20
              :: BusEvent.transmission self.address [0x36, 0x82] :: rest := by
  obtain ⟨payload, rest, h⟩ := beginsWithCommand_readNData (beginReadStart self)
    GET_SERIAL_NUMBER_CMD_ID (fun _ => 0) 0
  have hs : cmdBytes GET_SERIAL_NUMBER_CMD_ID = [0x36, 0x82] := by decide
  by_cases hst : commandStatus (beginReadStart self) GET_SERIAL_NUMBER_CMD_ID = 0
  · refine ⟨[BusEvent.delay 1, BusEvent.requestFrom self.address 9], ?_⟩
    rw [begin_drv, readSerialNumber_history _ 0 hst]
    simp [historyAfterRequest, historyAfterCommand, hs, beginReadStart]
  · refine ⟨[], ?_⟩
    rw [begin_drv, readSerialNumber_of_nack _ 0 hst, sendCommand_eq]
    simp [historyAfterCommand, hs, beginReadStart]

/-- The single transmission of `setAmbientPressureRaw`. -/
theorem setAmbientPressureRaw_history (self : Driver) (v : Nat) (hv : v < 65536) :
    (setAmbientPressureRaw self v).drv.i2c.history
      = self.i2c.history
          ++ [BusEvent.transmission self.address
                [0xE0, 0x00, v >>> 8, v &&& 0xFF, crc8 (v >>> 8) (v &&& 0xFF)]] := by
  have hc : cmdBytes SET_AMBIENT_PRESSURE_RAW_CMD_ID = [0xE0, 0x00] := by decide
  unfold setAmbientPressureRaw writeCommand
  rw [txCommand_eq]
  simp [hc, byte_mod_shift v hv, byte_mod_and v]

/-- The traffic of `getAmbientPressureRaw`: the bare command, and when it is
acknowledged 1 ms and a request for three bytes. -/
theorem getAmbientPressureRaw_history (self : Driver) (v : Nat) :
    (getAmbientPressureRaw self v).drv.i2c.history
      = self.i2c.history
          ++ BusEvent.transmission self.address [0xE0, 0x00]
            :: (if self.i2c.device.status
                    (self.i2c.history ++ [BusEvent.transmission self.address [0xE0, 0x00]]) = 0
                then [BusEvent.delay 1, BusEvent.requestFrom self.address 3] else []) := by
  have hc : cmdBytes GET_AMBIENT_PRESSURE_RAW_CMD_ID = [0xE0, 0x00] := by decide
  have hcs : commandStatus self GET_AMBIENT_PRESSURE_RAW_CMD_ID
      = self.i2c.device.status
          (self.i2c.history ++ [BusEvent.transmission self.address [0xE0, 0x00]]) := by
    simp [commandStatus, historyAfterCommand, hc]
  unfold getAmbientPressureRaw readWord
  simp only
  by_cases hst : commandStatus self GET_AMBIENT_PRESSURE_RAW_CMD_ID = 0
  · rw [readNData_history self _ _ 1 hst, if_pos (hcs ▸ hst)]
    simp [historyAfterRequest, historyAfterCommand, hc]
  · rw [readNData_of_nack self _ _ 1 hst, if_neg (hcs ▸ hst), sendCommand_eq]
    simp [historyAfterCommand, hc]

/-! ## C1 -/

/-- C1: for every pair of bytes the code's `crc8` is the reference Sensirion
CRC-8 (polynomial 0x31, initial value 0xFF, no final XOR, bits MSB-first, `b0`
before `b1`) of the two-byte message, and `crc8(0xBE, 0xEF) = 0x92`. -/
theorem crc8_eq_sensirionCrc8 :
    (∀ b0 b1 : Nat, b0 < 256 → b1 < 256 → crc8 b0 b1 = sensirionCrc8 [b0, b1])
      ∧ crc8 0xBE 0xEF = 0x92 := by
  refine ⟨?_, by decide⟩
  intro b0 b1 h0 h1
  have x0 : 0xFF ^^^ b0 < 256 := Nat.xor_lt_two_pow (by decide : 0xFF < 2 ^ 8) h0
  have s0 : crc8Step^[8] (0xFF ^^^ b0) < 256 := crc8Step_iterate_lt 8 _ x0
  have x1 : crc8Step^[8] (0xFF ^^^ b0) ^^^ b1 < 256 :=
    Nat.xor_lt_two_pow (by simpa using s0 : _ < 2 ^ 8) h1
  unfold sensirionCrc8 refCrc8
  simp only [List.flatMap_cons, List.flatMap_nil, List.append_nil, List.foldl_append]
  rw [foldl_msbFirstBits 0xFF b0 (by decide) h0, foldl_msbFirstBits _ b1 s0 h1]
  simp only [crc8, Nat.mod_eq_of_lt x0, Nat.mod_eq_of_lt x1]

/-- Witness for C1 at the known vector `0xBE, 0xEF`. -/
theorem crc8_eq_sensirionCrc8_witness :
    crc8 0xBE 0xEF = sensirionCrc8 [0xBE, 0xEF] :=
  crc8_eq_sensirionCrc8.1 0xBE 0xEF (by decide) (by decide)

/-! ## C2 -/

theorem wireForm_eq (i2c : TwoWire) (w : Nat) (hw : w < 65536) :
    wireForm i2c w = [w >>> 8, w &&& 0xFF, crc8 (w >>> 8) (w &&& 0xFF)] := by
  simp [wireForm, txCommandLoop_eq, byte_mod_shift w hw, byte_mod_and w]

/-- C2: round trip. For every 16-bit word `w` the three bytes the payload loop
of `txCommand` emits for `w` are `[w >> 8, w & 0xFF, crc8(w >> 8, w & 0xFF)]`;
`checkCrc` on them succeeds and yields `w`; and one round of the word loop of
`readNData` on a receive buffer starting with them succeeds, consumes exactly
these three bytes and stores `w`. -/
theorem wire_roundtrip (w : Nat) (hw : w < 65536) (i2c : TwoWire) :
    wireForm i2c w = [w >>> 8, w &&& 0xFF, crc8 (w >>> 8) (w &&& 0xFF)]
    ∧ (∀ word : Nat, checkCrc (memOf (wireForm i2c w)) word = (true, w))
    ∧ (∀ (bus : TwoWire) (rest : List Nat) (out : Nat → Nat) (i : Nat),
        bus.rxBuffer = wireForm i2c w ++ rest →
        readNDataLoop 1 i bus out
          = (true, { bus with rxBuffer := rest }, Function.update out i w)) := by
  have hf := wireForm_eq i2c w hw
  have hb0 : (w >>> 8) % 256 = w >>> 8 := byte_mod_shift w hw
  have hb1 : (w &&& 0xFF) % 256 = w &&& 0xFF := byte_mod_and w
  have hc : crc8 (w >>> 8) (w &&& 0xFF) % 256 = crc8 (w >>> 8) (w &&& 0xFF) :=
    Nat.mod_eq_of_lt (crc8_lt _ _)
  refine ⟨hf, ?_, ?_⟩
  · intro word
    rw [hf, checkCrc_eq]
    simp only [memOf, List.getD_cons_zero, List.getD_cons_succ, if_true]
    rw [word_of_bytes w hw]
  · intro bus rest out i hbus
    rw [hf] at hbus
    rw [readNDataLoop_succ 0 i bus out _ _ _ rest hbus, hb0, hb1, hc,
      if_neg (by simp), word_of_bytes w hw, readNDataLoop]

/-- Witness for C2 at the word `0xBEEF`. -/
theorem wire_roundtrip_witness :
    checkCrc (memOf (wireForm (busOf (fixedDevice 0 [])) 0xBEEF)) 0 = (true, 0xBEEF) :=
  (wire_roundtrip 0xBEEF (by decide) (busOf (fixedDevice 0 []))).2.1 0

/-! ## C3 -/

set_option maxRecDepth 100000 in
/-- The CRC step is invertible on bytes. -/
theorem crc8Step_leftInverse :
    ∀ x < 256, (fun y => if y % 2 = 1 then (y ^^^ 0x31) / 2 + 128 else y / 2) (crc8Step x) = x := by
  decide

theorem crc8Step_inj (x y : Nat) (hx : x < 256) (hy : y < 256)
    (h : crc8Step x = crc8Step y) : x = y := by
  have h1 := crc8Step_leftInverse x hx
  have h2 := crc8Step_leftInverse y hy
  rw [h] at h1
  exact h1.symm.trans h2

theorem crc8Step_iterate_inj (n : Nat) : ∀ x y : Nat, x < 256 → y < 256 →
    crc8Step^[n] x = crc8Step^[n] y → x = y := by
  induction n with
  | zero => intro x y _ _ h; simpa using h
  | succ n ih =>
    intro x y hx hy h
    rw [Function.iterate_succ_apply, Function.iterate_succ_apply] at h
    exact crc8Step_inj x y hx hy (ih _ _ (crc8Step_lt x) (crc8Step_lt y) h)

theorem crc8_unfold (b0 b1 : Nat) (h0 : b0 < 256) (h1 : b1 < 256) :
    crc8 b0 b1 = crc8Step^[8] (crc8Step^[8] (0xFF ^^^ b0) ^^^ b1) := by
  have x0 : 0xFF ^^^ b0 < 256 := Nat.xor_lt_two_pow (by decide : 0xFF < 2 ^ 8) h0
  have s0 : crc8Step^[8] (0xFF ^^^ b0) < 2 ^ 8 := crc8Step_iterate_lt 8 _ x0
  have x1 : crc8Step^[8] (0xFF ^^^ b0) ^^^ b1 < 256 := Nat.xor_lt_two_pow s0 h1
  simp only [crc8, Nat.mod_eq_of_lt x0, Nat.mod_eq_of_lt x1]

/-- For bytes, `crc8` is injective in its second argument. -/
theorem crc8_inj_right (b0 b1 c1 : Nat) (h0 : b0 < 256) (h1 : b1 < 256) (hc : c1 < 256)
    (h : crc8 b0 b1 = crc8 b0 c1) : b1 = c1 := by
  rw [crc8_unfold b0 b1 h0 h1, crc8_unfold b0 c1 h0 hc] at h
  have x0 : 0xFF ^^^ b0 < 256 := Nat.xor_lt_two_pow (by decide : 0xFF < 2 ^ 8) h0
  have s0 : crc8Step^[8] (0xFF ^^^ b0) < 2 ^ 8 := crc8Step_iterate_lt 8 _ x0
  have := crc8Step_iterate_inj 8 _ _ (Nat.xor_lt_two_pow s0 h1) (Nat.xor_lt_two_pow s0 hc) h
  exact Nat.xor_right_injective this

/-- For bytes, `crc8` is injective in its first argument. -/
theorem crc8_inj_left (b0 c0 b1 : Nat) (h0 : b0 < 256) (hc : c0 < 256) (h1 : b1 < 256)
    (h : crc8 b0 b1 = crc8 c0 b1) : b0 = c0 := by
  rw [crc8_unfold b0 b1 h0 h1, crc8_unfold c0 b1 hc h1] at h
  have x0 : 0xFF ^^^ b0 < 2 ^ 8 := Nat.xor_lt_two_pow (by decide : 0xFF < 2 ^ 8) h0
  have y0 : 0xFF ^^^ c0 < 2 ^ 8 := Nat.xor_lt_two_pow (by decide : 0xFF < 2 ^ 8) hc
  have s0 : crc8Step^[8] (0xFF ^^^ b0) < 2 ^ 8 := crc8Step_iterate_lt 8 _ x0
  have t0 : crc8Step^[8] (0xFF ^^^ c0) < 2 ^ 8 := crc8Step_iterate_lt 8 _ y0
  have e1 := crc8Step_iterate_inj 8 _ _ (Nat.xor_lt_two_pow s0 h1) (Nat.xor_lt_two_pow t0 h1) h
  have e2 := crc8Step_iterate_inj 8 _ _ x0 y0 (Nat.xor_left_injective e1)
  exact Nat.xor_right_injective e2

/-- C3: corruption detection. For every 16-bit word `w`, replacing any one of
the three bytes of its wire form `[MSB, LSB, CRC]` by a different byte value
(the other two kept) makes `checkCrc` return false. -/
theorem single_byte_corruption_detected (w : Nat) (hw : w < 65536) (i2c : TwoWire)
    (k : Nat) (hk : k < 3) (b : Nat) (hb : b < 256)
    (hne : b ≠ (wireForm i2c w).getD k 0) (word : Nat) :
    (checkCrc (memOf ((wireForm i2c w).set k b)) word).1 = false := by
  rw [wireForm_eq i2c w hw] at hne ⊢
  have hb0 : w >>> 8 < 256 := by rw [Nat.shiftRight_eq_div_pow]; omega
  have hb1 : w &&& 0xFF < 256 := Nat.and_lt_two_pow w (by decide : 0xFF < 2 ^ 8)
  rw [checkCrc_eq]
  match k, hk with
  | 0, _ =>
    simp only [List.getD_cons_zero] at hne
    simp only [List.set_cons_zero, memOf, List.getD_cons_zero, List.getD_cons_succ]
    rw [if_neg]
    intro h
    exact hne (crc8_inj_left b (w >>> 8) (w &&& 0xFF) hb hb0 hb1 h)
  | 1, _ =>
    simp only [List.getD_cons_zero, List.getD_cons_succ] at hne
    simp only [List.set_cons_succ, List.set_cons_zero, memOf, List.getD_cons_zero,
      List.getD_cons_succ]
    rw [if_neg]
    intro h
    exact hne (crc8_inj_right (w >>> 8) b (w &&& 0xFF) hb0 hb hb1 h)
  | 2, _ =>
    simp only [List.getD_cons_zero, List.getD_cons_succ] at hne
    simp only [List.set_cons_succ, List.set_cons_zero, memOf, List.getD_cons_zero,
      List.getD_cons_succ]
    rw [if_neg]
    intro h
    exact hne h.symm

/-- Witness for C3: the wire form of `0xBEEF` with its CRC byte `0x92`
replaced by `0x93`. -/
theorem single_byte_corruption_detected_witness :
    (checkCrc (memOf ((wireForm (busOf (fixedDevice 0 [])) 0xBEEF).set 2 0x93)) 0).1 = false :=
  single_byte_corruption_detected 0xBEEF (by decide) (busOf (fixedDevice 0 [])) 2 (by decide)
    0x93 (by decide) (by decide) 0

/-! ## C4 -/

theorem flatMap_frames (words : List Nat) (hwords : ∀ w ∈ words, w < 65536) :
    (words.flatMap fun w =>
        [(w >>> 8) % 256, (w &&& 0xFF) % 256, crc8 ((w >>> 8) % 256) ((w &&& 0xFF) % 256)])
      = words.flatMap fun w => [w >>> 8, w &&& 0xFF, crc8 (w >>> 8) (w &&& 0xFF)] := by
  induction words with
  | nil => rfl
  | cons w ws ih =>
    have hw : w < 65536 := hwords w (List.mem_cons_self w ws)
    have hws : ∀ v ∈ ws, v < 65536 := fun v hv => hwords v (List.mem_cons_of_mem w hv)
    simp only [List.flatMap_cons, ih hws, byte_mod_shift w hw, byte_mod_and w]

theorem length_flatMap_frames (words : List Nat) :
    (words.flatMap fun w => [w >>> 8, w &&& 0xFF, crc8 (w >>> 8) (w &&& 0xFF)]).length
      = 3 * words.length := by
  induction words with
  | nil => rfl
  | cons w ws ih =>
    simp only [List.flatMap_cons, List.length_append, ih, List.length_cons, List.length_nil]
    omega

/-- C4: for every 16-bit command code and every list of 16-bit payload words,
`txCommand` (and `writeCommand`, which is `txCommand`) adds exactly one
transmission to the bus history, whose bytes are `[cmd >> 8, cmd & 0xFF]`
followed, for each payload word `w` in order, by
`[w >> 8, w & 0xFF, crc8(w >> 8, w & 0xFF)]`; these are `2 + 3 * n` bytes, and
just the two command bytes when there is no payload. -/
theorem txCommand_bytes (self : Driver) (cmd : Nat) (words : List Nat)
    (hcmd : cmd < 65536) (hwords : ∀ w ∈ words, w < 65536) :
    (txCommand self cmd words).drv.i2c.history
        = self.i2c.history ++ [BusEvent.transmission self.address
            ([cmd >>> 8, cmd &&& 0xFF] ++ words.flatMap fun w =>
              [w >>> 8, w &&& 0xFF, crc8 (w >>> 8) (w &&& 0xFF)])]
    ∧ ([cmd >>> 8, cmd &&& 0xFF] ++ words.flatMap fun w =>
          [w >>> 8, w &&& 0xFF, crc8 (w >>> 8) (w &&& 0xFF)]).length = 2 + 3 * words.length
    ∧ writeCommand self cmd words = txCommand self cmd words
    ∧ (txCommand self cmd []).drv.i2c.history
        = self.i2c.history ++ [BusEvent.transmission self.address [cmd >>> 8, cmd &&& 0xFF]] := by
  have hc : cmdBytes cmd = [cmd >>> 8, cmd &&& 0xFF] := by
    simp only [cmdBytes, byte_mod_shift cmd hcmd, byte_mod_and cmd]
  refine ⟨?_, ?_, rfl, ?_⟩
  · rw [txCommand_eq, flatMap_frames words hwords, hc]
  · rw [List.length_append, length_flatMap_frames]
    simp only [List.length_cons, List.length_nil]
  · rw [txCommand_eq, hc]
    simp

/-- Witness for C4: command `0x241D` with the payload word `0xBEEF` puts the
five bytes `24 1D BE EF 92` on the wire, addressed to `0x62`. -/
theorem txCommand_bytes_witness :
    (txCommand (driverOn 0 []) 0x241D [0xBEEF]).drv.i2c.history
      = [BusEvent.transmission 0x62 [0x24, 0x1D, 0xBE, 0xEF, 0x92]] :=
  (txCommand_bytes (driverOn 0 []) 0x241D [0xBEEF] (by decide) (by decide)).1

/-! ## C5 -/

/-- C5: `readNData` returns true exactly when the transmission of the command
was reported with status 0, the number of bytes the bus holds after the request
is `3 * n`, and each of the `n` consecutive three-byte groups `(b0, b1, crc)`
satisfies `crc8(b0, b1) = crc`; and then `out[i]` is `(b0 << 8) | b1` of the
`i`-th group for every `i < n`. -/
theorem readNData_ok_iff (self : Driver) (cmd : Nat) (out : Nat → Nat) (n : Nat) :
    ((readNData self cmd out n).ok = true ↔
        commandStatus self cmd = 0
        ∧ (response self cmd ((3 * n) % 256)).length = 3 * n
        ∧ ∀ i < n, groupOk (response self cmd ((3 * n) % 256)) i)
    ∧ ((readNData self cmd out n).ok = true →
        ∀ i < n, (readNData self cmd out n).out i
          = groupWord (response self cmd ((3 * n) % 256)) i) := by
  rw [Nat.mul_comm 3 n]
  by_cases hst : commandStatus self cmd = 0
  · by_cases hlen : (response self cmd ((n * 3) % 256)).length = n * 3
    · have hb : 3 * n ≤ (busAfterRequest self cmd ((n * 3) % 256)).rxBuffer.length := by
        rw [busAfterRequest_rxBuffer, hlen]; omega
      rw [readNData_of_full self cmd out n hst hlen]
      by_cases hall : ∀ i < n, groupOk (response self cmd ((n * 3) % 256)) i
      · have hall2 : ∀ i < n, groupOk (busAfterRequest self cmd ((n * 3) % 256)).rxBuffer i := by
          rw [busAfterRequest_rxBuffer]; exact hall
        rw [readNDataLoop_good n 0 _ out hb hall2]
        refine ⟨⟨fun _ => ⟨hst, hlen, hall⟩, fun _ => rfl⟩, ?_⟩
        intro _ i hi
        have h2 : 0 ≤ i ∧ i < 0 + n := by omega
        simp only [if_pos h2, Nat.sub_zero, busAfterRequest_rxBuffer]
      · have hex : ∃ j, j < n ∧ ¬ groupOk (response self cmd ((n * 3) % 256)) j := by
          by_contra hcon
          apply hall
          intro i hi
          by_contra hbad
          exact hcon ⟨i, hi, hbad⟩
        have hj := Nat.find_spec hex
        have hmin : ∀ t < Nat.find hex, groupOk (busAfterRequest self cmd ((n * 3) % 256)).rxBuffer t := by
          intro t ht
          rw [busAfterRequest_rxBuffer]
          by_contra hbad
          exact Nat.find_min hex ht ⟨Nat.lt_trans ht hj.1, hbad⟩
        have hbad : ¬ groupOk (busAfterRequest self cmd ((n * 3) % 256)).rxBuffer (Nat.find hex) := by
          rw [busAfterRequest_rxBuffer]; exact hj.2
        rw [readNDataLoop_bad n (Nat.find hex) 0 _ out hb hj.1 hmin hbad]
        refine ⟨⟨fun h => ?_, fun h => absurd h.2.2 hall⟩, fun h => ?_⟩
        · simp at h
        · simp at h
    · rw [readNData_of_short self cmd out n hst hlen]
      refine ⟨⟨fun h => ?_, fun h => absurd h.2.1 hlen⟩, fun h => ?_⟩
      · simp at h
      · simp at h
  · rw [readNData_of_nack self cmd out n hst]
    refine ⟨⟨fun h => ?_, fun h => absurd h.1 hst⟩, fun h => ?_⟩
    · simp at h
    · simp at h

/-! ## C6 -/

/-- C6: byte-count mismatch. Whenever the bus holds a number of bytes different
from 9 after the request, `readMeasurement` and `readSerialNumber` return
false, whatever the bytes are; and `readNData` returns false whenever that
number differs from `3 * nwords`. -/
theorem byte_count_mismatch_fails (self : Driver) :
    (∀ m : Measurement, (response self READ_MEASUREMENT_RAW_CMD_ID 9).length ≠ 9 →
        (readMeasurement self m).ok = false)
    ∧ (∀ sn : Nat, (response self GET_SERIAL_NUMBER_CMD_ID 9).length ≠ 9 →
        (readSerialNumber self sn).ok = false)
    ∧ (∀ (cmd : Nat) (out : Nat → Nat) (nwords : Nat),
        (response self cmd ((3 * nwords) % 256)).length ≠ 3 * nwords →
        (readNData self cmd out nwords).ok = false) := by
  refine ⟨?_, ?_, ?_⟩
  · intro m hlen
    cases hok : (readMeasurement self m).ok with
    | false => rfl
    | true => exact absurd ((readMeasurement_ok self m).mp hok).2.1 hlen
  · intro sn hlen
    cases hok : (readSerialNumber self sn).ok with
    | false => rfl
    | true => exact absurd ((readSerialNumber_ok self sn).mp hok).2.1 hlen
  · intro cmd out n hlen
    rw [Nat.mul_comm 3 n] at hlen
    by_cases hst : commandStatus self cmd = 0
    · rw [readNData_of_short self cmd out n hst hlen]
    · rw [readNData_of_nack self cmd out n hst]

/-- Witness for C6: a device that acknowledges and delivers 8 bytes where 9 are
expected. -/
theorem byte_count_mismatch_fails_witness :
    (readMeasurement (driverOn 0 [0xBE, 0xEF, 0x92, 0xBE, 0xEF, 0x92, 0xBE, 0xEF])
        { co2_ppm := 1, temp_c := 2, rh_percent := 3 }).ok = false :=
  (byte_count_mismatch_fails
      (driverOn 0 [0xBE, 0xEF, 0x92, 0xBE, 0xEF, 0x92, 0xBE, 0xEF])).1
    { co2_ppm := 1, temp_c := 2, rh_percent := 3 } (by decide)

/-! ## C7 -/

/-- C7: for every nine-byte response in which at least one of the three groups
has a CRC byte that differs from `crc8` of its two data bytes, whichever group
it is, `readMeasurement` returns false. -/
theorem readMeasurement_crc_mismatch_fails (self : Driver) (m : Measurement)
    (_hlen : (response self READ_MEASUREMENT_RAW_CMD_ID 9).length = 9)
    (g : Nat) (hg : g < 3)
    (hbad : crc8 (byteAt (response self READ_MEASUREMENT_RAW_CMD_ID 9) (3 * g))
              (byteAt (response self READ_MEASUREMENT_RAW_CMD_ID 9) (3 * g + 1))
            ≠ byteAt (response self READ_MEASUREMENT_RAW_CMD_ID 9) (3 * g + 2)) :
    (readMeasurement self m).ok = false := by
  cases hok : (readMeasurement self m).ok with
  | false => rfl
  | true =>
    have h := (readMeasurement_ok self m).mp hok
    have hgood : groupOk (response self READ_MEASUREMENT_RAW_CMD_ID 9) g := by
      match g, hg with
      | 0, _ => exact h.2.2.1
      | 1, _ => exact h.2.2.2.1
      | 2, _ => exact h.2.2.2.2
    exact absurd hgood hbad

/-- Witness for C7: the first two groups are valid and only the CRC byte of the
last group is wrong (`0x93` for `0x92`). -/
theorem readMeasurement_crc_mismatch_fails_witness :
    (readMeasurement (driverOn 0 [0xBE, 0xEF, 0x92, 0xBE, 0xEF, 0x92, 0xBE, 0xEF, 0x93])
        { co2_ppm := 1, temp_c := 2, rh_percent := 3 }).ok = false :=
  readMeasurement_crc_mismatch_fails
    (driverOn 0 [0xBE, 0xEF, 0x92, 0xBE, 0xEF, 0x92, 0xBE, 0xEF, 0x93])
    { co2_ppm := 1, temp_c := 2, rh_percent := 3 } (by decide) 2 (by decide) (by decide)

/-! ## C8 -/

/-- C8: for every public operation with output parameters, a call that returns
false leaves every output parameter with the value it had before the call. -/
theorem outputs_kept_on_failure (self : Driver) :
    (∀ m : Measurement, (readMeasurement self m).ok = false →
        (readMeasurement self m).out = m)
    ∧ (∀ sn : Nat, (readSerialNumber self sn).ok = false →
        (readSerialNumber self sn).out = sn)
    ∧ (∀ v : Nat, (getDataReadyStatus self v).ok = false →
        (getDataReadyStatus self v).out = v)
    ∧ (∀ degC : ℚ, (getTemperatureOffset self degC).ok = false →
        (getTemperatureOffset self degC).out = degC)
    ∧ (∀ v : Nat, (getSensorAltitude self v).ok = false →
        (getSensorAltitude self v).out = v)
    ∧ (∀ v : Nat, (getAmbientPressureRaw self v).ok = false →
        (getAmbientPressureRaw self v).out = v)
    ∧ (∀ e : Bool, (getAutomaticSelfCalibrationEnabled self e).ok = false →
        (getAutomaticSelfCalibrationEnabled self e).out = e)
    ∧ (∀ v : Nat, (getAutomaticSelfCalibrationTarget self v).ok = false →
        (getAutomaticSelfCalibrationTarget self v).out = v)
    ∧ (∀ v : Nat, (getAutomaticSelfCalibrationInitialPeriod self v).ok = false →
        (getAutomaticSelfCalibrationInitialPeriod self v).out = v)
    ∧ (∀ v : Nat, (getAutomaticSelfCalibrationStandardPeriod self v).ok = false →
        (getAutomaticSelfCalibrationStandardPeriod self v).out = v)
    ∧ (∀ v : Nat, (getSensorVariantRaw self v).ok = false →
        (getSensorVariantRaw self v).out = v)
    ∧ (∀ v : Nat, (performSelfTest self v).ok = false →
        (performSelfTest self v).out = v)
    ∧ (∀ ref v : Nat, (performForcedRecalibration self ref (some v)).ok = false →
        (performForcedRecalibration self ref (some v)).out = some v) := by
  refine ⟨readMeasurement_fail self, readSerialNumber_fail self,
    fun v h => readWord_fail self _ v h, ?_,
    fun v h => readWord_fail self _ v h, fun v h => readWord_fail self _ v h, ?_,
    fun v h => readWord_fail self _ v h, fun v h => readWord_fail self _ v h,
    fun v h => readWord_fail self _ v h, fun v h => readWord_fail self _ v h,
    fun v h => readWord_fail self _ v h, ?_⟩
  · intro degC h
    unfold getTemperatureOffset at h ⊢
    cases hr : (readWord self GET_TEMPERATURE_OFFSET_RAW_CMD_ID 0).ok with
    | false => simp [hr]
    | true => simp [hr] at h
  · intro e h
    unfold getAutomaticSelfCalibrationEnabled at h ⊢
    cases hr : (readWord self GET_AUTOMATIC_SELF_CALIBRATION_ENABLED_CMD_ID 0).ok with
    | false => simp [hr]
    | true => simp [hr] at h
  · intro ref v h
    unfold performForcedRecalibration at h ⊢
    cases hw : (writeCommand self PERFORM_FORCED_RECALIBRATION_CMD_ID [ref]).ok with
    | false => simp [hw]
    | true =>
      simp only [hw, Bool.not_true, Bool.false_eq_true, if_false] at h ⊢
      generalize hd : ({ i2c := (writeCommand self PERFORM_FORCED_RECALIBRATION_CMD_ID
                                  [ref]).drv.i2c.delay 1,
                         address := (writeCommand self PERFORM_FORCED_RECALIBRATION_CMD_ID
                                  [ref]).drv.address } : Driver) = d at h ⊢
      cases hr : (readWord d PERFORM_FORCED_RECALIBRATION_CMD_ID v).ok with
      | false => simp [hr, readWord_fail d _ v hr]
      | true => simp [hr] at h

/-- Witness for C8: the device does not acknowledge (status 2), the measurement
read fails and the three outputs keep the values 1, 2, 3. -/
theorem outputs_kept_on_failure_witness :
    (readMeasurement (driverOn 2 []) { co2_ppm := 1, temp_c := 2, rh_percent := 3 }).out
      = { co2_ppm := 1, temp_c := 2, rh_percent := 3 } :=
  (outputs_kept_on_failure (driverOn 2 [])).1 { co2_ppm := 1, temp_c := 2, rh_percent := 3 }
    (by decide)

/-! ## C9 -/

/-- C9, counterexample: a two-word read whose first group `BE EF 92` is valid
and whose second group `00 00 00` has a wrong CRC byte (`crc8(0, 0) = 0x81`)
returns false, yet `out[0]`, which held 7, has been overwritten with `0xBEEF`. -/
theorem readNData_partial_store :
    (readNData (driverOn 0 [0xBE, 0xEF, 0x92, 0, 0, 0]) GET_DATA_READY_STATUS_RAW_CMD_ID
        (fun _ => 7) 2).ok = false
    ∧ (readNData (driverOn 0 [0xBE, 0xEF, 0x92, 0, 0, 0]) GET_DATA_READY_STATUS_RAW_CMD_ID
        (fun _ => 7) 2).out 0 = 0xBEEF
    ∧ (readNData (driverOn 0 [0xBE, 0xEF, 0x92, 0, 0, 0]) GET_DATA_READY_STATUS_RAW_CMD_ID
        (fun _ => 7) 2).out ≠ fun _ => 7 := by
  have h0 : (readNData (driverOn 0 [0xBE, 0xEF, 0x92, 0, 0, 0])
      GET_DATA_READY_STATUS_RAW_CMD_ID (fun _ => 7) 2).out 0 = 0xBEEF := by decide
  refine ⟨by decide, h0, ?_⟩
  intro h
  rw [h] at h0
  exact absurd h0 (by decide)

/-- C9, amended: when `readNData` returns false, either the command was not
acknowledged or the byte count was not `3 * n`, and then no element of the
output buffer has been modified; or some group `j < n` is the first whose CRC
byte does not match, and then `out[i]` is unmodified for every `i ≥ j` while
`out[i]` for `i < j` holds the word of group `i`. In particular a failed read
of at most one word modifies nothing. -/
theorem readNData_failure_frame (self : Driver) (cmd : Nat) (out : Nat → Nat) (n : Nat)
    (hfail : (readNData self cmd out n).ok = false) :
    (((commandStatus self cmd ≠ 0 ∨ (response self cmd ((3 * n) % 256)).length ≠ 3 * n)
          ∧ (readNData self cmd out n).out = out)
      ∨ (∃ j, j < n ∧ (∀ t < j, groupOk (response self cmd ((3 * n) % 256)) t)
          ∧ ¬ groupOk (response self cmd ((3 * n) % 256)) j
          ∧ ∀ i, (readNData self cmd out n).out i
              = if i < j then groupWord (response self cmd ((3 * n) % 256)) i else out i))
    ∧ (n ≤ 1 → (readNData self cmd out n).out = out) :=
  ⟨readNData_fail_cases self cmd out n hfail,
    fun hn => readNData_fail_le_one self cmd out n hn hfail⟩

/-- Witness for C9 (amended): a one-word read with a wrong CRC byte fails and
leaves the buffer as it was. -/
theorem readNData_failure_frame_witness :
    (readNData (driverOn 0 [0xBE, 0xEF, 0x93]) GET_DATA_READY_STATUS_RAW_CMD_ID
        (fun _ => 7) 1).out = fun _ => 7 :=
  (readNData_failure_frame (driverOn 0 [0xBE, 0xEF, 0x93]) GET_DATA_READY_STATUS_RAW_CMD_ID
    (fun _ => 7) 1 (by decide)).2 (by decide)

/-! ## C10 -/

/-- C10, counterexample: for `nwords = 86` the count `3 * 86 = 258` is cut to
eight bits by the cast `(uint8_t)nbytes`, and `requestFrom` is asked for 2
bytes. -/
theorem readNData_request_truncated :
    (readNData (driverOn 0 []) GET_DATA_READY_STATUS_RAW_CMD_ID (fun _ => 0) 86).drv.i2c.history
        = [BusEvent.transmission 0x62 [0xE4, 0xB8], BusEvent.delay 1,
            BusEvent.requestFrom 0x62 2]
    ∧ BusEvent.requestFrom 0x62 2 ≠ BusEvent.requestFrom 0x62 (3 * 86) := by
  constructor
  · rw [readNData_history _ _ _ _ (by decide)]
    decide
  · decide

/-- C10, amended: after a successful command transmission `readNData` asks the
bus for `(3 * n) mod 256` bytes, the count being passed as a `uint8_t`; this is
exactly `3 * n` bytes whenever `n ≤ 85`. -/
theorem readNData_request_quantity (self : Driver) (cmd : Nat) (out : Nat → Nat) (n : Nat)
    (hst : commandStatus self cmd = 0) :
    (readNData self cmd out n).drv.i2c.history
        = self.i2c.history ++ [BusEvent.transmission self.address (cmdBytes cmd),
            BusEvent.delay 1, BusEvent.requestFrom self.address ((3 * n) % 256)]
    ∧ (n ≤ 85 → (3 * n) % 256 = 3 * n) := by
  constructor
  · rw [readNData_history self cmd out n hst, Nat.mul_comm n 3]
    simp [historyAfterRequest, historyAfterCommand]
  · intro hn
    omega

/-- Witness for C10 (amended): a one-word read asks for 3 bytes. -/
theorem readNData_request_quantity_witness :
    (readNData (driverOn 0 []) GET_DATA_READY_STATUS_RAW_CMD_ID (fun _ => 0) 1).drv.i2c.history
        = (driverOn 0 []).i2c.history
            ++ [BusEvent.transmission (driverOn 0 []).address
                  (cmdBytes GET_DATA_READY_STATUS_RAW_CMD_ID),
                BusEvent.delay 1, BusEvent.requestFrom (driverOn 0 []).address ((3 * 1) % 256)] :=
  (readNData_request_quantity (driverOn 0 []) GET_DATA_READY_STATUS_RAW_CMD_ID (fun _ => 0) 1
    (by decide)).1

/-! ## C11 -/

/-- C11, counterexample: on the response `BE EF 92` three times the read
succeeds and the three decoded words are 48879, but the binary32 computation
of line 113 stores `temp_c = 1401209 / 16384`, which is not the exact value
`-45 + 175 * 48879 / 65535 = 373650 / 4369`. -/
theorem readMeasurementF32_not_exact :
    (readMeasurementF32
        (driverOn 0 [0xBE, 0xEF, 0x92, 0xBE, 0xEF, 0x92, 0xBE, 0xEF, 0x92])
        { co2_ppm := 1, temp_c := 2, rh_percent := 3 }).ok = true
    ∧ groupWord (response
          (driverOn 0 [0xBE, 0xEF, 0x92, 0xBE, 0xEF, 0x92, 0xBE, 0xEF, 0x92])
          READ_MEASUREMENT_RAW_CMD_ID 9) 1 = 48879
    ∧ (readMeasurementF32
        (driverOn 0 [0xBE, 0xEF, 0x92, 0xBE, 0xEF, 0x92, 0xBE, 0xEF, 0x92])
        { co2_ppm := 1, temp_c := 2, rh_percent := 3 }).out.temp_c = 1401209 / 16384
    ∧ (readMeasurementF32
        (driverOn 0 [0xBE, 0xEF, 0x92, 0xBE, 0xEF, 0x92, 0xBE, 0xEF, 0x92])
        { co2_ppm := 1, temp_c := 2, rh_percent := 3 }).out.temp_c
        ≠ -45 + 175 * ((48879 : Nat) : ℚ) / 65535 := by
  have hok : (readMeasurementF32
      (driverOn 0 [0xBE, 0xEF, 0x92, 0xBE, 0xEF, 0x92, 0xBE, 0xEF, 0x92])
      { co2_ppm := 1, temp_c := 2, rh_percent := 3 }).ok = true :=
    (readMeasurementF32_ok _ _).mpr (by decide)
  have g1 : groupWord (response
      (driverOn 0 [0xBE, 0xEF, 0x92, 0xBE, 0xEF, 0x92, 0xBE, 0xEF, 0x92])
      READ_MEASUREMENT_RAW_CMD_ID 9) 1 = 0xBEEF := by decide
  have ht : (readMeasurementF32
      (driverOn 0 [0xBE, 0xEF, 0x92, 0xBE, 0xEF, 0x92, 0xBE, 0xEF, 0x92])
      { co2_ppm := 1, temp_c := 2, rh_percent := 3 }).out.temp_c = 1401209 / 16384 := by
    rw [readMeasurementF32_out_of_ok _ _ hok]
    show tempF32 _ = _
    rw [g1, tempF32_beef]
  refine ⟨hok, g1, ht, ?_⟩
  rw [ht]
  norm_num

/-- C11, amended: when `readMeasurement` succeeds on a response whose three
decoded words are `(c, t, rh)`, it outputs `co2_ppm = c` unconverted, and
`temp_c` and `rh_percent` are the binary32 results of
`-45.0f + 175.0f * (float)t / 65535.0f` and `100.0f * (float)rh / 65535.0f`,
each operation rounded to nearest; they are within `2^-16` and `2^-18` of the
exact values `-45 + 175 * t / 65535` and `100 * rh / 65535`. On the response
whose words are all `0x0000` the outputs are exactly 0, -45 and 0, and on the
response whose words are all `0xFFFF` they are exactly 65535, 130 and 100. -/
theorem readMeasurementF32_conversion :
    (∀ (self : Driver) (m : Measurement), (readMeasurementF32 self m).ok = true →
        (readMeasurementF32 self m).out.co2_ppm
            = groupWord (response self READ_MEASUREMENT_RAW_CMD_ID 9) 0
        ∧ (readMeasurementF32 self m).out.temp_c
            = roundF32 (-45 + roundF32 (roundF32
                (175 * (groupWord (response self READ_MEASUREMENT_RAW_CMD_ID 9) 1 : ℚ))
                  / 65535))
        ∧ (readMeasurementF32 self m).out.rh_percent
            = roundF32 (roundF32
                (100 * (groupWord (response self READ_MEASUREMENT_RAW_CMD_ID 9) 2 : ℚ))
                  / 65535)
        ∧ |(readMeasurementF32 self m).out.temp_c
            - (-45 + 175 * (groupWord (response self READ_MEASUREMENT_RAW_CMD_ID 9) 1 : ℚ)
                / 65535)| ≤ 1 / 65536
        ∧ |(readMeasurementF32 self m).out.rh_percent
            - 100 * (groupWord (response self READ_MEASUREMENT_RAW_CMD_ID 9) 2 : ℚ)
                / 65535| ≤ 1 / 262144)
    ∧ (∀ m : Measurement,
        (readMeasurementF32 (driverOn 0 [0, 0, 0x81, 0, 0, 0x81, 0, 0, 0x81]) m).ok = true
        ∧ (readMeasurementF32 (driverOn 0 [0, 0, 0x81, 0, 0, 0x81, 0, 0, 0x81]) m).out
            = { co2_ppm := 0, temp_c := -45, rh_percent := 0 })
    ∧ (∀ m : Measurement,
        (readMeasurementF32
            (driverOn 0 [0xFF, 0xFF, 0xAC, 0xFF, 0xFF, 0xAC, 0xFF, 0xFF, 0xAC]) m).ok = true
        ∧ (readMeasurementF32
            (driverOn 0 [0xFF, 0xFF, 0xAC, 0xFF, 0xFF, 0xAC, 0xFF, 0xFF, 0xAC]) m).out
            = { co2_ppm := 65535, temp_c := 130, rh_percent := 100 }) := by
  refine ⟨?_, ?_, ?_⟩
  · intro self m hok
    rw [readMeasurementF32_out_of_ok self m hok]
    exact ⟨rfl, rfl, rfl, tempF32_error _ (groupWord_lt _ 1), rhF32_error _ (groupWord_lt _ 2)⟩
  · intro m
    have hok : (readMeasurementF32 (driverOn 0 [0, 0, 0x81, 0, 0, 0x81, 0, 0, 0x81]) m).ok
        = true := (readMeasurementF32_ok _ m).mpr (by decide)
    refine ⟨hok, ?_⟩
    rw [readMeasurementF32_out_of_ok _ m hok]
    have g0 : groupWord (response (driverOn 0 [0, 0, 0x81, 0, 0, 0x81, 0, 0, 0x81])
        READ_MEASUREMENT_RAW_CMD_ID 9) 0 = 0 := by decide
    have g1 : groupWord (response (driverOn 0 [0, 0, 0x81, 0, 0, 0x81, 0, 0, 0x81])
        READ_MEASUREMENT_RAW_CMD_ID 9) 1 = 0 := by decide
    have g2 : groupWord (response (driverOn 0 [0, 0, 0x81, 0, 0, 0x81, 0, 0, 0x81])
        READ_MEASUREMENT_RAW_CMD_ID 9) 2 = 0 := by decide
    rw [g0, g1, g2, tempF32_zero, rhF32_zero]
  · intro m
    have hok : (readMeasurementF32
        (driverOn 0 [0xFF, 0xFF, 0xAC, 0xFF, 0xFF, 0xAC, 0xFF, 0xFF, 0xAC]) m).ok
        = true := (readMeasurementF32_ok _ m).mpr (by decide)
    refine ⟨hok, ?_⟩
    rw [readMeasurementF32_out_of_ok _ m hok]
    have g0 : groupWord (response
        (driverOn 0 [0xFF, 0xFF, 0xAC, 0xFF, 0xFF, 0xAC, 0xFF, 0xFF, 0xAC])
        READ_MEASUREMENT_RAW_CMD_ID 9) 0 = 65535 := by decide
    have g1 : groupWord (response
        (driverOn 0 [0xFF, 0xFF, 0xAC, 0xFF, 0xFF, 0xAC, 0xFF, 0xFF, 0xAC])
        READ_MEASUREMENT_RAW_CMD_ID 9) 1 = 65535 := by decide
    have g2 : groupWord (response
        (driverOn 0 [0xFF, 0xFF, 0xAC, 0xFF, 0xFF, 0xAC, 0xFF, 0xFF, 0xAC])
        READ_MEASUREMENT_RAW_CMD_ID 9) 2 = 65535 := by decide
    rw [g0, g1, g2, tempF32_max, rhF32_max]

/-- Witness for C11: on the response `BE EF 92` three times the read succeeds,
gives 48879 ppm, and the stored temperature is within `2^-16` of the exact
value. -/
theorem readMeasurementF32_conversion_witness :
    (readMeasurementF32
        (driverOn 0 [0xBE, 0xEF, 0x92, 0xBE, 0xEF, 0x92, 0xBE, 0xEF, 0x92])
        { co2_ppm := 1, temp_c := 2, rh_percent := 3 }).ok = true
    ∧ (readMeasurementF32
        (driverOn 0 [0xBE, 0xEF, 0x92, 0xBE, 0xEF, 0x92, 0xBE, 0xEF, 0x92])
        { co2_ppm := 1, temp_c := 2, rh_percent := 3 }).out.co2_ppm
      = groupWord (response
          (driverOn 0 [0xBE, 0xEF, 0x92, 0xBE, 0xEF, 0x92, 0xBE, 0xEF, 0x92])
          READ_MEASUREMENT_RAW_CMD_ID 9) 0
    ∧ |(readMeasurementF32
        (driverOn 0 [0xBE, 0xEF, 0x92, 0xBE, 0xEF, 0x92, 0xBE, 0xEF, 0x92])
        { co2_ppm := 1, temp_c := 2, rh_percent := 3 }).out.temp_c
        - (-45 + 175 * (groupWord (response
          (driverOn 0 [0xBE, 0xEF, 0x92, 0xBE, 0xEF, 0x92, 0xBE, 0xEF, 0x92])
          READ_MEASUREMENT_RAW_CMD_ID 9) 1 : ℚ) / 65535)| ≤ 1 / 65536 :=
  ⟨(readMeasurementF32_ok _ _).mpr (by decide),
   (readMeasurementF32_conversion.1
      (driverOn 0 [0xBE, 0xEF, 0x92, 0xBE, 0xEF, 0x92, 0xBE, 0xEF, 0x92])
      { co2_ppm := 1, temp_c := 2, rh_percent := 3 }
      ((readMeasurementF32_ok _ _).mpr (by decide))).1,
   (readMeasurementF32_conversion.1
      (driverOn 0 [0xBE, 0xEF, 0x92, 0xBE, 0xEF, 0x92, 0xBE, 0xEF, 0x92])
      { co2_ppm := 1, temp_c := 2, rh_percent := 3 }
      ((readMeasurementF32_ok _ _).mpr (by decide))).2.2.2.1⟩

/-! ## C12 -/

/-- C12, counterexample: the header defines 30 command constants, not 29, and
they are not pairwise distinct: `SET_AMBIENT_PRESSURE_RAW_CMD_ID` and
`GET_AMBIENT_PRESSURE_RAW_CMD_ID` are both `0xE000`. The two different
operations `setAmbientPressureRaw` and `getAmbientPressureRaw` therefore open
their traffic with the same two command bytes `E0 00`: on a fresh driver whose
device acknowledges, the first transmits `E0 00 03 F5` and a CRC byte, the
second transmits `E0 00` and then requests three bytes. -/
theorem commandTable_not_29_distinct :
    commandTable.length = 30
    ∧ SET_AMBIENT_PRESSURE_RAW_CMD_ID = GET_AMBIENT_PRESSURE_RAW_CMD_ID
    ∧ ¬ commandTable.Nodup
    ∧ Operation.setAmbientPressureRaw ≠ Operation.getAmbientPressureRaw
    ∧ (setAmbientPressureRaw (driverOn 0 []) 1013).drv.i2c.history
        = [BusEvent.transmission 0x62 [0xE0, 0x00, 0x03, 0xF5, crc8 0x03 0xF5]]
    ∧ (getAmbientPressureRaw (driverOn 0 []) 0).drv.i2c.history
        = [BusEvent.transmission 0x62 [0xE0, 0x00], BusEvent.delay 1,
           BusEvent.requestFrom 0x62 3] := by
  refine ⟨by decide, by decide, by decide, by decide, ?_, ?_⟩
  · rw [setAmbientPressureRaw_history _ _ (by decide)]
    decide
  · rw [getAmbientPressureRaw_history]
    decide

/-- C12, amended: the command table has 30 named entries, each fits in 16
bits, and they take exactly 29 distinct values: the only two entries that
coincide are the 8th and the 9th, `SET_AMBIENT_PRESSURE_RAW_CMD_ID` and
`GET_AMBIENT_PRESSURE_RAW_CMD_ID`, both `0xE000`. Every public operation other
than `begin` has one fixed identifier, which is an entry of the table and
which every call of the operation transmits big-endian as the first two bytes
of its first transmission; every entry of the table is the identifier of some
operation. `begin` has no identifier of its own: it transmits the wake-up,
re-initialisation and serial-number commands. Two different operations have
different identifiers, except `setAmbientPressureRaw` and
`getAmbientPressureRaw`, which both send `0xE000`: the first sends it with a
payload word and its CRC in one transmission, the second sends it alone and,
when it is acknowledged, requests three bytes. -/
theorem commandTable_shape :
    commandTable.length = 30
    ∧ (∀ c ∈ commandTable, c < 65536)
    ∧ commandTable.dedup.length = 29
    ∧ (∀ i < 30, ∀ j < 30, i < j → commandTable.getD i 0 = commandTable.getD j 0 →
        i = 7 ∧ j = 8)
    ∧ commandTable.getD 7 0 = SET_AMBIENT_PRESSURE_RAW_CMD_ID
    ∧ commandTable.getD 8 0 = GET_AMBIENT_PRESSURE_RAW_CMD_ID
    ∧ (∀ (call : Call) (self : Driver) (id : Nat),
        call.operation.commandId = some id →
          id ∈ commandTable
          ∧ ∃ payload : List Nat, ∃ rest : List BusEvent,
              (call.run self).i2c.history
                = self.i2c.history
                    ++ BusEvent.transmission self.address
                        ([id >>> 8, id &&& 0xFF] ++ payload) :: rest)
    ∧ (∀ c ∈ commandTable, ∃ o : Operation, o.commandId = some c)
    ∧ (∀ o : Operation, o.commandId = none ↔ o = Operation.begin)
    ∧ (∀ self : Driver, ∃ rest : List BusEvent,
        (Call.begin.run self).i2c.history
          = self.i2c.history
              ++ BusEvent.transmission self.address [0x36, 0xF6] :: BusEvent.delay 2
                :: BusEvent.transmission self.address [0x36, 0x46] :: BusEvent.delay 20
                :: BusEvent.transmission self.address [0x36, 0x82] :: rest)
    ∧ (∀ (o1 o2 : Operation) (id : Nat),
        o1.commandId = some id → o2.commandId = some id →
          o1 = o2
          ∨ (o1 = Operation.setAmbientPressureRaw ∧ o2 = Operation.getAmbientPressureRaw)
          ∨ (o1 = Operation.getAmbientPressureRaw ∧ o2 = Operation.setAmbientPressureRaw))
    ∧ Operation.setAmbientPressureRaw.commandId = some 0xE000
    ∧ Operation.getAmbientPressureRaw.commandId = some 0xE000
    ∧ (∀ (self : Driver) (v : Nat), v < 65536 →
        (setAmbientPressureRaw self v).drv.i2c.history
          = self.i2c.history
              ++ [BusEvent.transmission self.address
                    [0xE0, 0x00, v >>> 8, v &&& 0xFF, crc8 (v >>> 8) (v &&& 0xFF)]])
    ∧ (∀ (self : Driver) (v : Nat),
        (getAmbientPressureRaw self v).drv.i2c.history
          = self.i2c.history
              ++ BusEvent.transmission self.address [0xE0, 0x00]
                :: (if self.i2c.device.status
                        (self.i2c.history
                          ++ [BusEvent.transmission self.address [0xE0, 0x00]]) = 0
                    then [BusEvent.delay 1, BusEvent.requestFrom self.address 3]
                    else [])) := by
  refine ⟨by decide, by decide, by decide, by decide, rfl, rfl, ?_, ?_, ?_,
    begin_history, ?_, rfl, rfl, setAmbientPressureRaw_history,
    getAmbientPressureRaw_history⟩
  · intro call self id h
    have hmem := commandId_mem_commandTable _ id h
    refine ⟨hmem, ?_⟩
    have hb := beginsWithCommand_run call self id h
    rw [← cmdBytes_eq id (commandTable_lt id hmem)]
    exact hb
  · intro c hc
    have h : ∀ c ∈ commandTable, ∃ o ∈ allOperations, o.commandId = some c := by decide
    obtain ⟨o, _, ho⟩ := h c hc
    exact ⟨o, ho⟩
  · intro o
    cases o <;> simp [Operation.commandId]
  · intro o1 o2 id h1 h2
    have h : o1.commandId = o2.commandId := by rw [h1, h2]
    clear h1 h2
    cases o1 <;> cases o2 <;>
      first
        | exact Or.inl rfl
        | exact Or.inr (Or.inl ⟨rfl, rfl⟩)
        | exact Or.inr (Or.inr ⟨rfl, rfl⟩)
        | exact absurd h (by decide)

/-- Witness for C12: `setSensorAltitude 500` begins with the bytes `24 27` of
`SET_SENSOR_ALTITUDE_CMD_ID`, which is an entry of the table. -/
theorem commandTable_shape_witness :
    (Call.setSensorAltitude 500).operation.commandId = some 0x2427
    ∧ 0x2427 ∈ commandTable
    ∧ ∃ payload : List Nat, ∃ rest : List BusEvent,
        ((Call.setSensorAltitude 500).run (driverOn 0 [])).i2c.history
          = (driverOn 0 []).i2c.history
              ++ BusEvent.transmission (driverOn 0 []).address
                  ([0x2427 >>> 8, 0x2427 &&& 0xFF] ++ payload) :: rest :=
  ⟨rfl, commandTable_shape.2.2.2.2.2.2.1 (Call.setSensorAltitude 500) (driverOn 0 []) 0x2427 rfl⟩

/-! ## C13 -/

/-- The write phase of `performForcedRecalibration`. -/
theorem frc_writeCommand (self : Driver) (ref : Nat) (href : ref < 65536) :
    writeCommand self PERFORM_FORCED_RECALIBRATION_CMD_ID [ref] =
      { ok := self.i2c.device.status (self.i2c.history ++ [frcWriteEvent self ref]) == 0,
        drv := { i2c := { self.i2c with
                             history := self.i2c.history ++ [frcWriteEvent self ref],
                             txAddress := self.address,
                             txBuffer := [] },
                 address := self.address },
        out := () } := by
  have hc : cmdBytes PERFORM_FORCED_RECALIBRATION_CMD_ID = [0x36, 0x2F] := by decide
  unfold writeCommand
  rw [txCommand_eq, hc]
  simp [frcWriteEvent, byte_mod_shift ref href, byte_mod_and ref]

/-- C13: forced recalibration is two-phase. `performForcedRecalibration` first
transmits command `0x362F` with the reference word and its CRC. With a null
`frc_result` that is the only bus event and the result is the success of the
write. With a non-null `frc_result`: if the write fails it returns false with
no further bus event and `*frc_result` untouched; if the write succeeds it
waits 1 ms and behaves as the one-word `readNData` of the same command
`0x362F` into `*frc_result`, returning what that read returns, and on success
`*frc_result` is the decoded word of the three-byte response. -/
theorem performForcedRecalibration_two_phase (self : Driver) (ref : Nat)
    (href : ref < 65536) :
    ((performForcedRecalibration self ref none).drv.i2c.history
          = self.i2c.history ++ [frcWriteEvent self ref]
      ∧ ((performForcedRecalibration self ref none).ok = true ↔
          self.i2c.device.status (self.i2c.history ++ [frcWriteEvent self ref]) = 0))
    ∧ (∀ v : Nat,
        self.i2c.device.status (self.i2c.history ++ [frcWriteEvent self ref]) ≠ 0 →
        (performForcedRecalibration self ref (some v)).ok = false
        ∧ (performForcedRecalibration self ref (some v)).drv.i2c.history
            = self.i2c.history ++ [frcWriteEvent self ref]
        ∧ (performForcedRecalibration self ref (some v)).out = some v)
    ∧ (∀ v : Nat,
        self.i2c.device.status (self.i2c.history ++ [frcWriteEvent self ref]) = 0 →
        (performForcedRecalibration self ref (some v)).ok
            = (readNData (frcReadStart self ref) PERFORM_FORCED_RECALIBRATION_CMD_ID
                (fun _ => v) 1).ok
        ∧ (performForcedRecalibration self ref (some v)).drv
            = (readNData (frcReadStart self ref) PERFORM_FORCED_RECALIBRATION_CMD_ID
                (fun _ => v) 1).drv
        ∧ (performForcedRecalibration self ref (some v)).out
            = some ((readNData (frcReadStart self ref) PERFORM_FORCED_RECALIBRATION_CMD_ID
                (fun _ => v) 1).out 0)
        ∧ ((performForcedRecalibration self ref (some v)).ok = true →
            (performForcedRecalibration self ref (some v)).out
              = some (groupWord (response (frcReadStart self ref)
                  PERFORM_FORCED_RECALIBRATION_CMD_ID 3) 0))) := by
  have hw := frc_writeCommand self ref href
  refine ⟨?_, ?_, ?_⟩
  · unfold performForcedRecalibration
    rw [hw]
    cases hs : self.i2c.device.status (self.i2c.history ++ [frcWriteEvent self ref]) == 0
    · have hne : self.i2c.device.status (self.i2c.history ++ [frcWriteEvent self ref]) ≠ 0 := by
        simpa using hs
      simp [hne]
    · have he : self.i2c.device.status (self.i2c.history ++ [frcWriteEvent self ref]) = 0 := by
        simpa using hs
      simp [he]
  · intro v hne
    unfold performForcedRecalibration
    rw [hw]
    simp [hne]
  · intro v he
    have hfull : performForcedRecalibration self ref (some v)
        = { ok := (readNData (frcReadStart self ref) PERFORM_FORCED_RECALIBRATION_CMD_ID
                    (fun _ => v) 1).ok,
            drv := (readNData (frcReadStart self ref) PERFORM_FORCED_RECALIBRATION_CMD_ID
                    (fun _ => v) 1).drv,
            out := some ((readNData (frcReadStart self ref)
                    PERFORM_FORCED_RECALIBRATION_CMD_ID (fun _ => v) 1).out 0) } := by
      unfold performForcedRecalibration
      rw [hw]
      simp only [he, beq_self_eq_true, Bool.not_true, Bool.false_eq_true, if_false, readWord,
        TwoWire.delay]
      cases hr : (readNData (frcReadStart self ref) PERFORM_FORCED_RECALIBRATION_CMD_ID
          (fun _ => v) 1).ok
      · simp [frcReadStart, hr, List.append_assoc] at hr ⊢
      · simp [frcReadStart, hr, List.append_assoc] at hr ⊢
    rw [hfull]
    refine ⟨rfl, rfl, rfl, ?_⟩
    intro hok
    have h := (readNData_ok_spec (frcReadStart self ref) PERFORM_FORCED_RECALIBRATION_CMD_ID
      (fun _ => v) 1).2 hok 0 (by decide)
    simp only [h]

/-- Witness for C13: reference 400 ppm on a device that acknowledges and
answers `BE EF 92`; the result word is `0xBEEF`. -/
theorem performForcedRecalibration_two_phase_witness :
    (performForcedRecalibration (driverOn 0 [0xBE, 0xEF, 0x92]) 400 none).drv.i2c.history
      = (driverOn 0 [0xBE, 0xEF, 0x92]).i2c.history
          ++ [frcWriteEvent (driverOn 0 [0xBE, 0xEF, 0x92]) 400] :=
  (performForcedRecalibration_two_phase (driverOn 0 [0xBE, 0xEF, 0x92]) 400 (by decide)).1.1

/-! ## C14 -/

/-- C14: when `readSerialNumber` succeeds on a response whose three decoded
words are `(w0, w1, w2)`, the output is `w0 * 2^32 + w1 * 2^16 + w2`, which is
below `2^48`; and on 16-bit words the map from `(w0, w1, w2)` to the serial
number is injective. -/
theorem readSerialNumber_value :
    (∀ (self : Driver) (sn : Nat), (readSerialNumber self sn).ok = true →
        (readSerialNumber self sn).out
            = groupWord (response self GET_SERIAL_NUMBER_CMD_ID 9) 0 * 2 ^ 32
              + groupWord (response self GET_SERIAL_NUMBER_CMD_ID 9) 1 * 2 ^ 16
              + groupWord (response self GET_SERIAL_NUMBER_CMD_ID 9) 2
        ∧ (readSerialNumber self sn).out < 2 ^ 48)
    ∧ (∀ a b c x y z : Nat, a < 65536 → b < 65536 → c < 65536 →
        x < 65536 → y < 65536 → z < 65536 →
        serialFromWords a b c = serialFromWords x y z → a = x ∧ b = y ∧ c = z) := by
  constructor
  · intro self sn hok
    have h0 := groupWord_lt (response self GET_SERIAL_NUMBER_CMD_ID 9) 0
    have h1 := groupWord_lt (response self GET_SERIAL_NUMBER_CMD_ID 9) 1
    have h2 := groupWord_lt (response self GET_SERIAL_NUMBER_CMD_ID 9) 2
    rw [readSerialNumber_out_of_ok self sn hok, serialFromWords_eq _ _ _ h0 h1 h2]
    refine ⟨rfl, ?_⟩
    omega
  · intro a b c x y z ha hb hc hx hy hz h
    rw [serialFromWords_eq a b c ha hb hc, serialFromWords_eq x y z hx hy hz] at h
    omega

/-- Witness for C14: the response `00 01 B0`, `00 02 E3`, `00 03 D2` gives the
serial number `0x000100020003`. -/
theorem readSerialNumber_value_witness :
    (readSerialNumber (driverOn 0 [0, 1, 0xB0, 0, 2, 0xE3, 0, 3, 0xD2]) 0).out
      = groupWord (response (driverOn 0 [0, 1, 0xB0, 0, 2, 0xE3, 0, 3, 0xD2])
            GET_SERIAL_NUMBER_CMD_ID 9) 0 * 2 ^ 32
        + groupWord (response (driverOn 0 [0, 1, 0xB0, 0, 2, 0xE3, 0, 3, 0xD2])
            GET_SERIAL_NUMBER_CMD_ID 9) 1 * 2 ^ 16
        + groupWord (response (driverOn 0 [0, 1, 0xB0, 0, 2, 0xE3, 0, 3, 0xD2])
            GET_SERIAL_NUMBER_CMD_ID 9) 2 :=
  (readSerialNumber_value.1 (driverOn 0 [0, 1, 0xB0, 0, 2, 0xE3, 0, 3, 0xD2]) 0
    ((readSerialNumber_ok _ _).mpr (by decide))).1

/-! ## C15 -/

/-- What `begin` does before the serial-number read, and what it returns. -/
theorem begin_eq (self : Driver) :
    begin self =
      { ok := (readSerialNumber (beginReadStart self) 0).ok,
        drv := (readSerialNumber (beginReadStart self) 0).drv,
        out := () } := by
  have hw : cmdBytes WAKE_UP_CMD_ID = [0x36, 0xF6] := by decide
  have hr : cmdBytes REINIT_CMD_ID = [0x36, 0x46] := by decide
  unfold begin wakeUp reInit
  simp only [sendCommand_eq, historyAfterCommand, hw, hr, TwoWire.delay, List.append_assoc,
    List.cons_append, List.nil_append]
  cases h : (readSerialNumber (beginReadStart self) 0).ok
  · simp [beginReadStart] at h ⊢
    simp [h]
  · simp [beginReadStart] at h ⊢
    simp [h]

theorem beginReadStart_withStatus (self : Driver) (status : List BusEvent → Nat) :
    beginReadStart (withStatus self status) = withStatus (beginReadStart self) status := rfl

/-- C15: `begin` returns true if and only if the serial-number read it
performs at the end succeeds, that is, if and only if the serial-number command
is acknowledged, nine bytes are available and the three groups pass the CRC
check. The statuses reported for the preceding `wakeUp` and `reInit` commands
do not enter: a device that reports other statuses but the same one for the
serial-number command, and answers requests alike, gets the same result. -/
theorem begin_ok_iff (self : Driver) :
    ((begin self).ok = (readSerialNumber (beginReadStart self) 0).ok)
    ∧ ((begin self).ok = true ↔
        commandStatus (beginReadStart self) GET_SERIAL_NUMBER_CMD_ID = 0
        ∧ (response (beginReadStart self) GET_SERIAL_NUMBER_CMD_ID 9).length = 9
        ∧ groupOk (response (beginReadStart self) GET_SERIAL_NUMBER_CMD_ID 9) 0
        ∧ groupOk (response (beginReadStart self) GET_SERIAL_NUMBER_CMD_ID 9) 1
        ∧ groupOk (response (beginReadStart self) GET_SERIAL_NUMBER_CMD_ID 9) 2)
    ∧ (∀ status : List BusEvent → Nat,
        status (historyAfterCommand (beginReadStart self) GET_SERIAL_NUMBER_CMD_ID)
          = self.i2c.device.status
              (historyAfterCommand (beginReadStart self) GET_SERIAL_NUMBER_CMD_ID) →
        (begin (withStatus self status)).ok = (begin self).ok) := by
  have h1 : (begin self).ok = (readSerialNumber (beginReadStart self) 0).ok := by
    rw [begin_eq]
  refine ⟨h1, ?_, ?_⟩
  · rw [h1]
    exact readSerialNumber_ok (beginReadStart self) 0
  · intro status hst
    have h2 : (begin (withStatus self status)).ok
        = (readSerialNumber (beginReadStart (withStatus self status)) 0).ok := by
      rw [begin_eq]
    rw [h1, h2, beginReadStart_withStatus]
    have e1 := readSerialNumber_ok (withStatus (beginReadStart self) status) 0
    have e2 := readSerialNumber_ok (beginReadStart self) 0
    have hc : commandStatus (withStatus (beginReadStart self) status) GET_SERIAL_NUMBER_CMD_ID
        = commandStatus (beginReadStart self) GET_SERIAL_NUMBER_CMD_ID := hst
    have hresp : response (withStatus (beginReadStart self) status) GET_SERIAL_NUMBER_CMD_ID 9
        = response (beginReadStart self) GET_SERIAL_NUMBER_CMD_ID 9 := rfl
    rw [hc, hresp] at e1
    cases hb : (readSerialNumber (beginReadStart self) 0).ok
    · cases ha : (readSerialNumber (withStatus (beginReadStart self) status) 0).ok
      · rfl
      · exact absurd (e2.mpr (e1.mp ha)) (by simp [hb])
    · exact e1.mpr (e2.mp hb)

/-- Witness for C15: a device that rejects the wake-up and re-initialisation
commands (status 2) and acknowledges only the serial-number command, the fifth
event on the bus; `begin` returns true. -/
theorem begin_ok_iff_witness :
    (begin (new (some (busOf (ackOnlyAt 5 [0, 1, 0xB0, 0, 2, 0xE3, 0, 3, 0xD2])))
        (busOf (ackOnlyAt 5 [0, 1, 0xB0, 0, 2, 0xE3, 0, 3, 0xD2])))).ok = true :=
  (begin_ok_iff (new (some (busOf (ackOnlyAt 5 [0, 1, 0xB0, 0, 2, 0xE3, 0, 3, 0xD2])))
      (busOf (ackOnlyAt 5 [0, 1, 0xB0, 0, 2, 0xE3, 0, 3, 0xD2])))).2.1.mpr (by decide)

/-! ## C16 -/

/-- C16: every command-only public operation adds exactly one event to the bus
history, a transmission whose bytes are the two big-endian bytes of its command
identifier, and returns true if and only if the status reported for that
transmission is 0. -/
theorem command_only_operations (self : Driver) (op : Driver → Ret Unit) (cmd : Nat)
    (hop : (op, cmd) ∈
      [(startPeriodicMeasurement, START_PERIODIC_MEASUREMENT_CMD_ID),
       (startLowPowerPeriodicMeasurement, START_LOW_POWER_PERIODIC_MEASUREMENT_CMD_ID),
       (stopPeriodicMeasurement, STOP_PERIODIC_MEASUREMENT_CMD_ID),
       (measureSingleShot, MEASURE_SINGLE_SHOT_CMD_ID),
       (measureSingleShotRhtOnly, MEASURE_SINGLE_SHOT_RHT_ONLY_CMD_ID),
       (persistSettings, PERSIST_SETTINGS_CMD_ID),
       (factoryReset, PERFORM_FACTORY_RESET_CMD_ID),
       (reInit, REINIT_CMD_ID),
       (powerDown, POWER_DOWN_CMD_ID),
       (wakeUp, WAKE_UP_CMD_ID)]) :
    (op self).drv.i2c.history
        = self.i2c.history ++ [BusEvent.transmission self.address [cmd >>> 8, cmd &&& 0xFF]]
    ∧ ((op self).ok = true ↔
        self.i2c.device.status
          (self.i2c.history
            ++ [BusEvent.transmission self.address [cmd >>> 8, cmd &&& 0xFF]]) = 0) := by
  have key : ∀ c : Nat, c < 65536 →
      (sendCommand self c).drv.i2c.history
          = self.i2c.history ++ [BusEvent.transmission self.address [c >>> 8, c &&& 0xFF]]
      ∧ ((sendCommand self c).ok = true ↔
          self.i2c.device.status
            (self.i2c.history
              ++ [BusEvent.transmission self.address [c >>> 8, c &&& 0xFF]]) = 0) := by
    intro c hc
    rw [← cmdBytes_eq c hc]
    exact ⟨sendCommand_history self c, sendCommand_ok_iff self c⟩
  simp only [List.mem_cons, Prod.mk.injEq, List.mem_singleton, List.not_mem_nil, or_false] at hop
  rcases hop with ⟨h1, h2⟩ | ⟨h1, h2⟩ | ⟨h1, h2⟩ | ⟨h1, h2⟩ | ⟨h1, h2⟩ | ⟨h1, h2⟩ | ⟨h1, h2⟩
    | ⟨h1, h2⟩ | ⟨h1, h2⟩ | ⟨h1, h2⟩ <;> subst h1 <;> subst h2 <;> exact key _ (by decide)

/-- Witness for C16: `wakeUp` on an acknowledging device sends `36 F6` to
address `0x62`. -/
theorem command_only_operations_witness :
    (wakeUp (driverOn 0 [])).drv.i2c.history
      = (driverOn 0 []).i2c.history
          ++ [BusEvent.transmission (driverOn 0 []).address
                [WAKE_UP_CMD_ID >>> 8, WAKE_UP_CMD_ID &&& 0xFF]] :=
  (command_only_operations (driverOn 0 []) wakeUp WAKE_UP_CMD_ID (by simp)).1

/-! ## C17 -/

/-- C18: address invariant. A constructed driver has address `0x62`; every
public call leaves the address as it is and adds to the bus history only
events addressed to it; so after any sequence of public calls on a constructed
driver the address is `0x62` and every transmission and every read request
issued since construction is addressed to `0x62`. -/
theorem address_invariant :
    (∀ (wire : Option TwoWire) (defaultWire : TwoWire), (new wire defaultWire).address = 0x62)
    ∧ (∀ (call : Call) (self : Driver),
        (call.run self).address = self.address
        ∧ ∃ es : List BusEvent, (call.run self).i2c.history = self.i2c.history ++ es
            ∧ ∀ e ∈ es, addressedTo self.address e)
    ∧ (∀ (calls : List Call) (wire : Option TwoWire) (defaultWire : TwoWire),
        (runCalls (new wire defaultWire) calls).address = 0x62
        ∧ ∃ es : List BusEvent,
            (runCalls (new wire defaultWire) calls).i2c.history
              = (new wire defaultWire).i2c.history ++ es
            ∧ ∀ e ∈ es, addressedTo 0x62 e) := by
  refine ⟨fun _ _ => rfl, fun call self => keepsAddress_run call self, ?_⟩
  intro calls wire defaultWire
  exact keepsAddress_runCalls calls (new wire defaultWire)

/-- Witness for C18: after `wakeUp` and `getSensorAltitude` on a fresh driver
the address is still `0x62`. -/
theorem address_invariant_witness :
    (runCalls (driverOn 0 [0xBE, 0xEF, 0x92]) [Call.wakeUp, Call.getSensorAltitude 0]).address
      = 0x62 :=
  (address_invariant.2.2 [Call.wakeUp, Call.getSensorAltitude 0]
    (some (busOf (fixedDevice 0 [0xBE, 0xEF, 0x92])))
    (busOf (fixedDevice 0 [0xBE, 0xEF, 0x92]))).1

/-! ## C19 -/

set_option maxRecDepth 100000 in
theorem crc8Unstep_lt : ∀ y < 256, crc8Unstep y < 256 := by
  decide

set_option maxRecDepth 100000 in
theorem crc8Step_unstep : ∀ y < 256, crc8Step (crc8Unstep y) = y := by
  decide

theorem crc8Unstep_iterate_lt (n : Nat) : ∀ y < 256, crc8Unstep^[n] y < 256 := by
  induction n with
  | zero => intro y hy; simpa using hy
  | succ n ih =>
    intro y hy
    rw [Function.iterate_succ_apply']
    exact crc8Unstep_lt _ (ih y hy)

theorem crc8Step_unstep_iterate (n : Nat) : ∀ y < 256,
    crc8Step^[n] (crc8Unstep^[n] y) = y := by
  induction n with
  | zero => intro y _; rfl
  | succ n ih =>
    intro y hy
    rw [Function.iterate_succ_apply, Function.iterate_succ_apply',
      crc8Step_unstep _ (crc8Unstep_iterate_lt n y hy)]
    exact ih y hy

theorem lsbWithCrc_lt (b0 c : Nat) (h0 : b0 < 256) (hc : c < 256) : lsbWithCrc b0 c < 256 := by
  unfold lsbWithCrc
  have x0 : 0xFF ^^^ b0 < 2 ^ 8 := Nat.xor_lt_two_pow (by decide : 0xFF < 2 ^ 8) h0
  exact Nat.xor_lt_two_pow (n := 8) (crc8Unstep_iterate_lt 8 c hc) (crc8Step_iterate_lt 8 _ x0)

/-- The low byte `lsbWithCrc b0 c` does give the checksum `c`. -/
theorem crc8_lsbWithCrc (b0 c : Nat) (h0 : b0 < 256) (hc : c < 256) :
    crc8 b0 (lsbWithCrc b0 c) = c := by
  rw [crc8_unfold b0 _ h0 (lsbWithCrc_lt b0 c h0 hc)]
  unfold lsbWithCrc
  rw [Nat.xor_comm (crc8Unstep^[8] c), Nat.xor_cancel_left]
  exact crc8Step_unstep_iterate 8 c hc

theorem shiftRight_of_bytes (a b : Nat) (hb : b < 256) : (a * 256 + b) >>> 8 = a := by
  rw [Nat.shiftRight_eq_div_pow]
  omega

theorem and_of_bytes (a b : Nat) (hb : b < 256) : (a * 256 + b) &&& 0xFF = b := by
  have e : (0xFF : Nat) = 2 ^ 8 - 1 := by norm_num
  rw [e, Nat.and_pow_two_sub_one_eq_mod]
  omega

theorem and_eq_mod (w : Nat) : w &&& 0xFF = w % 256 := by
  have e : (0xFF : Nat) = 2 ^ 8 - 1 := by norm_num
  rw [e, Nat.and_pow_two_sub_one_eq_mod]

/-- The words with checksum `c` are the words `b0 * 256 + lsbWithCrc b0 c`. -/
theorem words_with_crc (c : Nat) (hc : c < 256) :
    (Finset.range 65536).filter (fun w => crc8 (w >>> 8) (w &&& 0xFF) = c)
      = (Finset.range 256).image (fun b0 => b0 * 256 + lsbWithCrc b0 c) := by
  ext w
  simp only [Finset.mem_filter, Finset.mem_range, Finset.mem_image]
  constructor
  · rintro ⟨hw, hcrc⟩
    have hb0 : w >>> 8 < 256 := by rw [Nat.shiftRight_eq_div_pow]; omega
    have hb1 : w &&& 0xFF < 256 := Nat.and_lt_two_pow w (by decide : 0xFF < 2 ^ 8)
    refine ⟨w >>> 8, hb0, ?_⟩
    have hl : lsbWithCrc (w >>> 8) c = w &&& 0xFF := by
      apply crc8_inj_right (w >>> 8) _ _ hb0 (lsbWithCrc_lt _ c hb0 hc) hb1
      rw [crc8_lsbWithCrc _ c hb0 hc, hcrc]
    rw [hl, and_eq_mod, Nat.shiftRight_eq_div_pow]
    omega
  · rintro ⟨b0, hb0, rfl⟩
    have hl := lsbWithCrc_lt b0 c hb0 hc
    refine ⟨by omega, ?_⟩
    rw [shiftRight_of_bytes b0 _ hl, and_of_bytes b0 _ hl]
    exact crc8_lsbWithCrc b0 c hb0 hc

/-- C20: limit of the per-word CRC. For every 16-bit word `w` there is a
different 16-bit word `w'` with the same checksum, so that `checkCrc` accepts
the frame `[MSB(w'), LSB(w'), crc of w]` and yields `w'`; and every CRC value
is the checksum of exactly 256 of the 65536 words. -/
theorem crc8_collisions :
    (∀ w : Nat, w < 65536 → ∃ v : Nat, v < 65536 ∧ v ≠ w
        ∧ crc8 (v >>> 8) (v &&& 0xFF) = crc8 (w >>> 8) (w &&& 0xFF)
        ∧ ∀ word : Nat,
            checkCrc (memOf [v >>> 8, v &&& 0xFF, crc8 (w >>> 8) (w &&& 0xFF)]) word
              = (true, v))
    ∧ (∀ c : Nat, c < 256 →
        ((Finset.range 65536).filter
          (fun w => crc8 (w >>> 8) (w &&& 0xFF) = c)).card = 256) := by
  constructor
  · intro w hw
    have hb0 : w >>> 8 < 256 := by rw [Nat.shiftRight_eq_div_pow]; omega
    have hx : (w >>> 8) ^^^ 1 < 256 := Nat.xor_lt_two_pow (n := 8) hb0 (by decide)
    have hcw : crc8 (w >>> 8) (w &&& 0xFF) < 256 := crc8_lt _ _
    have hl := lsbWithCrc_lt _ _ hx hcw
    have hsh := shiftRight_of_bytes ((w >>> 8) ^^^ 1) _ hl
    have hand := and_of_bytes ((w >>> 8) ^^^ 1) _ hl
    have hcrc := crc8_lsbWithCrc _ _ hx hcw
    have hv : ((w >>> 8) ^^^ 1) * 256
        + lsbWithCrc ((w >>> 8) ^^^ 1) (crc8 (w >>> 8) (w &&& 0xFF)) < 65536 := by omega
    refine ⟨((w >>> 8) ^^^ 1) * 256
      + lsbWithCrc ((w >>> 8) ^^^ 1) (crc8 (w >>> 8) (w &&& 0xFF)), hv, ?_, ?_, ?_⟩
    · intro heq
      have h1 : (w >>> 8) ^^^ 1 = w >>> 8 := by rw [← hsh, heq]
      have h2 : (w >>> 8) ^^^ 1 = (w >>> 8) ^^^ 0 := by rw [h1, Nat.xor_zero]
      exact absurd (Nat.xor_right_injective h2) (by decide)
    · rw [hsh, hand, hcrc]
    · intro word
      rw [checkCrc_eq]
      simp only [memOf, List.getD_cons_zero, List.getD_cons_succ]
      have hc2 : crc8 (((w >>> 8 ^^^ 1) * 256
          + lsbWithCrc (w >>> 8 ^^^ 1) (crc8 (w >>> 8) (w &&& 0xFF))) >>> 8)
          (((w >>> 8 ^^^ 1) * 256
          + lsbWithCrc (w >>> 8 ^^^ 1) (crc8 (w >>> 8) (w &&& 0xFF))) &&& 0xFF)
          = crc8 (w >>> 8) (w &&& 0xFF) := by rw [hsh, hand, hcrc]
      rw [if_pos hc2, word_of_bytes _ hv]
  · intro c hc
    rw [words_with_crc c hc, Finset.card_image_of_injOn, Finset.card_range]
    intro a ha b hb hab
    have ha' : a < 256 := by simpa using ha
    have hb' : b < 256 := by simpa using hb
    have la := lsbWithCrc_lt a c ha' hc
    have lb := lsbWithCrc_lt b c hb' hc
    simp only at hab
    omega

/-- Witness for C20: a word other than `0xBEEF` with the checksum `0x92` of
`0xBEEF`. -/
theorem crc8_collisions_witness :
    ∃ v : Nat, v < 65536 ∧ v ≠ 0xBEEF
      ∧ crc8 (v >>> 8) (v &&& 0xFF) = crc8 (0xBEEF >>> 8) (0xBEEF &&& 0xFF)
      ∧ ∀ word : Nat,
          checkCrc (memOf [v >>> 8, v &&& 0xFF, crc8 (0xBEEF >>> 8) (0xBEEF &&& 0xFF)]) word
            = (true, v) :=
  crc8_collisions.1 0xBEEF (by decide)

end SCD4x_7Semi
